import Mathlib

/-!
# DDrawCompat `Common/Hook.cpp`: a shallow embedding

The embedding follows `src/DDrawCompat/Common/Hook.cpp` (a 32-bit Windows DLL).

* Pointers (`void*`, `FARPROC`, `HMODULE`, `char*`) are natural numbers (`Nat`) below `2^32`;
  `0` is `nullptr`; pointer arithmetic wraps modulo `2^32` (`ptrAdd`).
* Process memory (`Mem`) records which bytes are mapped and gives typed views of the
  contents: the `WORD` at an address, the `DWORD` at an address and the NUL-terminated byte
  string at an address.
* The code dereferences pointers without probing them. The definitions named after the
  source functions (`getImageNtHeaders`, `getProcAddress`, `findProcAddressInIat`, ...)
  compute with the values that are read, and describe the runs in which every dereference
  hits mapped memory. The definitions with the suffix `Faulting` are the same code in which a
  dereference of an unmapped byte is an access violation (`Outcome.fault`); such a run
  either faults or returns what the first kind of definition returns (theorems
  `..._refines`).
* A `void*&` parameter is the identity of the variable it is bound to (`Cell`); the
  registry record stores that identity, as the C++ record stores the reference.
* `g_hookedFunctions` (a `std::map`) is the list of its entries in ascending key order.
* The Detours primitive, the module loader queries and `VirtualProtect` are external
  services; their answers are fields of `Env` (or documented definitions).
* Loops that scan memory up to a sentinel, and the forwarder recursion, take a fuel
  argument; `none` means the fuel ran out before the C++ code would have returned.
* Diagnostic logging (`Compat::Log`, `Compat::LogDebug`) is not part of the state.
-/

namespace DDrawCompat

/-! ## Basic types -/

/-- Contents of a NUL-terminated C string (terminator excluded), as byte values. -/
abbrev CStr := List Nat

/-- Identity of a `void*` variable to which a `void*&` is bound. -/
inductive Cell where
  /-- a function-pointer variable owned by the caller -/
  | client (n : Nat)
  /-- node number `i` of the function-local `static std::list<void*> origFuncs` -/
  | origFuncs (i : Nat)
deriving DecidableEq

/-- Record `struct HookedFunctionInfo { HMODULE module; void*& origFunction; void* newFunction; }`. -/
structure HookedFunctionInfo where
  module : Nat
  origFunction : Cell
  newFunction : Nat
deriving DecidableEq

/-- A committed Detours operation. -/
inductive DetourOp where
  | attach (target : Nat) (detour : Nat)
  | detach (pointer : Nat) (detour : Nat)
deriving DecidableEq

/-- The process memory: which bytes are mapped, and typed views of the contents. A view at
an address whose bytes are not all mapped is never the result of a read; the read is an
access violation (`Mem.readWord`, `Mem.readDword`, `Mem.readStr`). -/
structure Mem where
  /-- the byte at an address is mapped and readable -/
  mapped : Nat → Bool
  /-- the `WORD` stored at an address -/
  u16 : Nat → Nat
  /-- the `DWORD` stored at an address -/
  u32 : Nat → Nat
  /-- the bytes of the NUL-terminated string starting at an address -/
  str : Nat → CStr

/-- Process state touched by `Hook.cpp`. -/
structure State where
  /-- process memory (module images) -/
  mem : Mem
  /-- memory protection of the pointer-sized cell at an address -/
  protect : Nat → Nat
  /-- entries of `g_hookedFunctions`, in the iteration order of the map -/
  hookedFunctions : List (Nat × HookedFunctionInfo)
  /-- current value of every `void*` variable -/
  cells : Cell → Nat
  /-- number of nodes of the static list `origFuncs` of `redirectIatHooks` -/
  origFuncsSize : Nat
  /-- committed Detours operations, most recent first -/
  detours : List DetourOp
  /-- modules passed to `FreeLibrary`, most recent first -/
  freed : List Nat

/-- Outcome of `DetourTransactionBegin; DetourAttach(&p, detour); DetourTransactionCommit`. -/
structure DetourResult where
  /-- `NO_ERROR == DetourAttach(..)` -/
  attachSuccessful : Bool
  /-- `NO_ERROR == DetourTransactionCommit()` -/
  commitSuccessful : Bool
  /-- the trampoline Detours stores into `p` when the transaction commits -/
  trampoline : Nat

/-- Outcome of `DetourTransactionBegin; DetourDetach(&p, detour); DetourTransactionCommit`. -/
structure DetachResult where
  /-- `NO_ERROR == DetourDetach(..)` -/
  detachSuccessful : Bool
  /-- `NO_ERROR == DetourTransactionCommit()` -/
  commitSuccessful : Bool
  /-- the address Detours stores back into `p` when the transaction commits -/
  target : Nat

/-- External services consumed by `Hook.cpp`. -/
structure Env where
  /-- Detours attach transaction: committed operations so far, target, detour -/
  detourAttach : List DetourOp → Nat → Nat → DetourResult
  /-- Detours detach transaction: committed operations so far, value of the pointer, detour -/
  detourDetach : List DetourOp → Nat → Nat → DetachResult
  /-- `LoadLibrary(name)`; `0` when the module cannot be loaded -/
  loadLibrary : CStr → Nat
  /-- `GetModuleHandleEx(GET_MODULE_HANDLE_EX_FLAG_FROM_ADDRESS, addr, &module)`;
  `none` when the call fails -/
  moduleFromAddress : Nat → Option Nat
  /-- `GetModuleHandle(name)`; `0` when the module is not mapped -/
  getModuleHandle : CStr → Nat
  /-- `GetModuleFileName(module, path, MAX_PATH)`: the resulting `path` -/
  moduleFileName : Nat → CStr
  /-- `EnumProcessModules`: `none` when it fails, else the handles of all modules -/
  enumProcessModules : Option (List Nat)

/-! ## The hook registry -/

/-- Insertion of `std::map::emplace`: keeps ascending key order, keeps an existing key. -/
def emplace (k : Nat) (v : HookedFunctionInfo) :
    List (Nat × HookedFunctionInfo) → List (Nat × HookedFunctionInfo)
  | [] => [(k, v)]
  | e :: rest =>
    if k < e.1 then (k, v) :: e :: rest
    else if k = e.1 then e :: rest
    else e :: emplace k v rest

/-- Value of the `void*&` stored in a record. -/
def State.origOf (s : State) (i : Nat × HookedFunctionInfo) : Nat :=
  s.cells i.2.origFunction

/-- Lambda of `findOrigFunc`: `origFunc == i.first || origFunc == i.second.origFunction`. -/
def matchesOrigFunc (s : State) (origFunc : Nat) (i : Nat × HookedFunctionInfo) : Bool :=
  decide (origFunc = i.1) || decide (origFunc = s.origOf i)

/-- Function `findOrigFunc`; `none` is `g_hookedFunctions.end()`. -/
def findOrigFunc (s : State) (origFunc : Nat) : Option (Nat × HookedFunctionInfo) :=
  s.hookedFunctions.find? (matchesOrigFunc s origFunc)

/-- Function `::hookFunction(funcName, origFuncPtr, newFuncPtr)` of the anonymous namespace
(`funcName` only feeds the log). -/
def hookFunction (env : Env) (s : State) (origFuncPtr : Cell) (newFuncPtr : Nat) : State :=
  match findOrigFunc s (s.cells origFuncPtr) with
  | some it =>
    { s with cells := Function.update s.cells origFuncPtr (s.origOf it) }
  | none =>
    let hookedFuncPtr := s.cells origFuncPtr
    let r := env.detourAttach s.detours hookedFuncPtr newFuncPtr
    if !r.attachSuccessful || !r.commitSuccessful then s
    else
      let module := (env.moduleFromAddress hookedFuncPtr).getD 0
      { s with
        cells := Function.update s.cells origFuncPtr r.trampoline
        detours := DetourOp.attach hookedFuncPtr newFuncPtr :: s.detours
        hookedFunctions :=
          emplace hookedFuncPtr ⟨module, origFuncPtr, newFuncPtr⟩ s.hookedFunctions }

/-- Function `Compat::hookFunction(void*& origFuncPtr, void* newFuncPtr)`. -/
def Compat.hookFunction (env : Env) (s : State) (origFuncPtr : Cell) (newFuncPtr : Nat) :
    State :=
  DDrawCompat.hookFunction env s origFuncPtr newFuncPtr

/-- Function `::unhookFunction(iterator)` of the anonymous namespace, for the record the
iterator designates. The results of the Detours calls are not looked at: when the detach
transaction commits, Detours has stored the target back into the record's variable; the
module reference is released and the record is erased in either case. -/
def unhookFunction (env : Env) (s : State) (hookedFunc : Nat × HookedFunctionInfo) : State :=
  let r := env.detourDetach s.detours (s.origOf hookedFunc) hookedFunc.2.newFunction
  let s1 : State :=
    if r.detachSuccessful && r.commitSuccessful then
      { s with
        cells := Function.update s.cells hookedFunc.2.origFunction r.target
        detours := DetourOp.detach (s.origOf hookedFunc) hookedFunc.2.newFunction :: s.detours }
    else s
  let s2 : State :=
    if hookedFunc.2.module ≠ 0 then { s1 with freed := hookedFunc.2.module :: s1.freed }
    else s1
  { s2 with hookedFunctions := s2.hookedFunctions.erase hookedFunc }

/-- Function `Compat::unhookAllFunctions`: `while (!g_hookedFunctions.empty())
::unhookFunction(g_hookedFunctions.begin())`. The fuel bounds the number of loop
iterations; `none` means that the loop is still running when the fuel is used up. -/
def Compat.unhookAllFunctions (env : Env) : Nat → State → Option State
  | fuel, s =>
    match s.hookedFunctions with
    | [] => some s
    | first :: _ =>
      match fuel with
      | 0 => none
      | n + 1 => Compat.unhookAllFunctions env n (unhookFunction env s first)

/-- Function `Compat::unhookFunction(void* origFunc)`. -/
def Compat.unhookFunction (env : Env) (s : State) (origFunc : Nat) : State :=
  match findOrigFunc s origFunc with
  | some it => DDrawCompat.unhookFunction env s it
  | none => s

/-! ## C strings -/

/-- C library `tolower` in the "C" locale, on a byte. -/
def tolower (c : Nat) : Nat :=
  if 65 ≤ c ∧ c ≤ 90 then c + 32 else c

/-- C library `strcmp`; only whether the result is zero is used, a non-zero result is `1`. -/
def strcmp (a b : CStr) : Nat :=
  if a = b then 0 else 1

/-- C library `_stricmp`: comparison of the lower-cased strings; a non-zero result is `1`. -/
def stricmp (a b : CStr) : Nat :=
  if a.map tolower = b.map tolower then 0 else 1

/-- Expression `strrchr(s, c) + 1`: the text after the last `c`; `none` when `c` is absent. -/
def afterLast (c : Nat) : CStr → Option CStr
  | [] => none
  | x :: xs =>
    match afterLast c xs with
    | some r => some r
    | none => if x = c then some xs else none

/-- Method `std::string::find_first_of(c)`; `none` is `npos`. -/
def findFirstOf (c : Nat) : CStr → Option Nat
  | [] => none
  | x :: xs => if x = c then some 0 else (findFirstOf c xs).map (· + 1)

/-- C library `isspace` in the "C" locale. -/
def isspace (c : Nat) : Bool :=
  decide (c = 32) || (decide (9 ≤ c) && decide (c ≤ 13))

/-- Value of the leading decimal digits of a string, continuing from `acc`. -/
def digitsValue : Nat → CStr → Nat
  | acc, [] => acc
  | acc, c :: cs => if 48 ≤ c ∧ c ≤ 57 then digitsValue (acc * 10 + (c - 48)) cs else acc

/-- C library `atoi` (Microsoft CRT): leading white space, an optional sign, decimal digits;
the result saturates at `INT_MIN` and `INT_MAX`. -/
def atoi (s : CStr) : Int :=
  match s.dropWhile isspace with
  | 45 :: r => max (-(2 ^ 31 : Int)) (-(digitsValue 0 r : Int))
  | 43 :: r => min ((2 ^ 31 : Int) - 1) (digitsValue 0 r : Int)
  | r => min ((2 ^ 31 : Int) - 1) (digitsValue 0 r : Int)

/-- Function `getModuleBaseName`: the file name after the last backslash of the module path. -/
def getModuleBaseName (env : Env) (module : Nat) : CStr :=
  let path := env.moduleFileName module
  match afterLast 92 path with
  | some baseName => baseName
  | none => path

/-! ## Reading module headers -/

/-- Pointer plus byte offset on the 32-bit target. -/
def ptrAdd (p : Nat) (off : Nat) : Nat :=
  (p + off) % 2 ^ 32

/-- The 16-bit value read at an address. -/
def Mem.word (m : Mem) (a : Nat) : Nat :=
  m.u16 a % 2 ^ 16

/-- The 32-bit value read at an address. -/
def Mem.dword (m : Mem) (a : Nat) : Nat :=
  m.u32 a % 2 ^ 32

/-- Store of a pointer-sized value at an address. -/
def Mem.writeDword (m : Mem) (a : Nat) (v : Nat) : Mem :=
  { m with u32 := Function.update m.u32 a v }

/-- Constant `IMAGE_DOS_SIGNATURE` ("MZ"). -/
def IMAGE_DOS_SIGNATURE : Nat := 0x5A4D

/-- Constant `IMAGE_NT_SIGNATURE` ("PE\0\0"). -/
def IMAGE_NT_SIGNATURE : Nat := 0x00004550

/-- Constant `PAGE_READWRITE`. -/
def PAGE_READWRITE : Nat := 0x04

/-- Offset of `e_lfanew` in `IMAGE_DOS_HEADER`. -/
def OFF_e_lfanew : Nat := 0x3C

/-- Offset of `OptionalHeader.DataDirectory[IMAGE_DIRECTORY_ENTRY_EXPORT].VirtualAddress`
in `IMAGE_NT_HEADERS32`; the `Size` field follows at `+4`. -/
def OFF_exportDirectory : Nat := 0x78

/-- Offset of `OptionalHeader.DataDirectory[IMAGE_DIRECTORY_ENTRY_IMPORT].VirtualAddress`
in `IMAGE_NT_HEADERS32`. -/
def OFF_importDirectory : Nat := 0x80

/-- Function `getImageNtHeaders`; `0` is `nullptr`. -/
def getImageNtHeaders (mem : Mem) (module : Nat) : Nat :=
  let dosHeader := module
  if IMAGE_DOS_SIGNATURE ≠ mem.word dosHeader then 0
  else
    let ntHeaders := ptrAdd dosHeader (mem.dword (ptrAdd dosHeader OFF_e_lfanew))
    if IMAGE_NT_SIGNATURE ≠ mem.dword ntHeaders then 0
    else ntHeaders

/-! ## `getProcAddress` -/

/-- Argument `const char* procName` of `getProcAddress`. Windows never maps the first 64 KiB
of the address space, so a pointer whose high word is zero is an ordinal (`ord n`, with
`ord 0` being `nullptr`) and any string pointer has a non-zero high word (`name s`). -/
inductive ProcName where
  | ord (n : Nat)
  | name (s : CStr)
deriving DecidableEq

/-- Test `!procName`. -/
def ProcName.isNull : ProcName → Bool
  | ProcName.ord n => decide (n = 0)
  | ProcName.name _ => false

/-- Fields of `IMAGE_EXPORT_DIRECTORY` and the three table pointers of `getProcAddress`. -/
structure ExportView where
  moduleBase : Nat
  exportDir : Nat
  exportDirSize : Nat
  base : Nat
  numberOfFunctions : Nat
  numberOfNames : Nat
  rvaOfNames : Nat
  nameOrds : Nat
  rvaOfFunctions : Nat

/-- Lines 230-237 of `getProcAddress`: locating the export directory and its tables. -/
def exportView (mem : Mem) (module ntHeaders : Nat) : ExportView :=
  let moduleBase := module
  let exportDir := ptrAdd moduleBase (mem.dword (ptrAdd ntHeaders OFF_exportDirectory))
  { moduleBase := moduleBase
    exportDir := exportDir
    exportDirSize := mem.dword (ptrAdd ntHeaders (OFF_exportDirectory + 4))
    base := mem.dword (ptrAdd exportDir 16)
    numberOfFunctions := mem.dword (ptrAdd exportDir 20)
    numberOfNames := mem.dword (ptrAdd exportDir 24)
    rvaOfFunctions := ptrAdd moduleBase (mem.dword (ptrAdd exportDir 28))
    rvaOfNames := ptrAdd moduleBase (mem.dword (ptrAdd exportDir 32))
    nameOrds := ptrAdd moduleBase (mem.dword (ptrAdd exportDir 36)) }

/-- Expression `moduleBase + rvaOfFunctions[index]`. -/
def functionAt (mem : Mem) (v : ExportView) (index : Nat) : Nat :=
  ptrAdd v.moduleBase (mem.dword (ptrAdd v.rvaOfFunctions (4 * index)))

/-- Expression `moduleBase + rvaOfNames[i]` read as a string. -/
def nameAt (mem : Mem) (v : ExportView) (i : Nat) : CStr :=
  mem.str (ptrAdd v.moduleBase (mem.dword (ptrAdd v.rvaOfNames (4 * i))))

/-- Expression `nameOrds[i]`. -/
def nameOrdAt (mem : Mem) (v : ExportView) (i : Nat) : Nat :=
  mem.word (ptrAdd v.nameOrds (2 * i))

/-- Test `ord < exportDir->Base || ord >= exportDir->Base + exportDir->NumberOfFunctions`,
the sum being a `DWORD` sum. -/
def ordinalRejected (base numberOfFunctions ord : Nat) : Bool :=
  decide (ord < base) || decide ((base + numberOfFunctions) % 2 ^ 32 ≤ ord)

/-- The name loop of lines 251-257: every index below `NumberOfNames` is visited and each
match overwrites `func`. -/
def scanNames (mem : Mem) (v : ExportView) (procName : CStr) (numberOfNames : Nat) : Nat :=
  (List.range numberOfNames).foldl
    (fun func i =>
      if strcmp procName (nameAt mem v i) = 0 then functionAt mem v (nameOrdAt mem v i)
      else func)
    0

/-- Lines 239-258: the value of `func`; `none` is the `return nullptr` of the ordinal check. -/
def lookupExport (mem : Mem) (v : ExportView) : ProcName → Option Nat
  | ProcName.ord n =>
    let ord := n % 2 ^ 16
    if ordinalRejected v.base v.numberOfFunctions ord then none
    else some (functionAt mem v (ord - v.base))
  | ProcName.name s => some (scanNames mem v s v.numberOfNames)

/-- What one activation of `getProcAddress` does: return a value, or return the result of a
recursive call. -/
inductive Step where
  | ret (r : Nat)
  | call (module : Nat) (procName : ProcName)
deriving DecidableEq

/-- Lines 264-284: a forwarder string is split at its first `'.'`. -/
def forward (env : Env) (forw : CStr) : Step :=
  match findFirstOf 46 forw with
  | none => Step.ret 0
  | some separatorPos =>
    let forwModule := env.getModuleHandle (forw.take separatorPos)
    let forwFuncName := forw.drop (separatorPos + 1)
    if forwFuncName.head? = some 35 then
      let ord := atoi (forwFuncName.drop 1)
      if ord < 0 ∨ ord > 0xFFFF then Step.ret 0
      else Step.call forwModule (ProcName.ord ord.toNat)
    else Step.call forwModule (ProcName.name forwFuncName)

/-- Test of lines 260-262: `func` is non-null and lies in the export directory. -/
def isForwarder (v : ExportView) (func : Nat) : Bool :=
  decide (func ≠ 0) && decide (v.exportDir ≤ func) &&
    decide (func < ptrAdd v.exportDir v.exportDirSize)

/-- Body of `getProcAddress` up to its recursive call. -/
def getProcAddressStep (env : Env) (mem : Mem) (module : Nat) (procName : ProcName) : Step :=
  if module = 0 ∨ procName.isNull = true then Step.ret 0
  else
    let ntHeaders := getImageNtHeaders mem module
    if ntHeaders = 0 then Step.ret 0
    else
      let v := exportView mem module ntHeaders
      match lookupExport mem v procName with
      | none => Step.ret 0
      | some func =>
        if isForwarder v func = true then forward env (mem.str func)
        else Step.ret func

/-- Function `Compat::getProcAddress`; the fuel bounds the number of forwarder hops and
`none` means that the recursion is still going on when the fuel is used up. -/
def getProcAddress (env : Env) (mem : Mem) : Nat → Nat → ProcName → Option Nat
  | fuel, module, procName =>
    match getProcAddressStep env mem module procName with
    | Step.ret r => some r
    | Step.call forwModule forwName =>
      match fuel with
      | 0 => none
      | n + 1 => getProcAddress env mem n forwModule forwName

/-! ## The import table -/

/-- The thunk loop of lines 197-209, started at `thunk` and `origThunk`; the result is the
address `&thunk->u1.Function`, or `0` when the loop leaves without a match. -/
def findThunk (mem : Mem) (moduleBase : Nat) (procName : CStr) : Nat → Nat → Nat → Option Nat
  | 0, _, _ => none
  | fuel + 1, thunk, origThunk =>
    if 0 ≠ mem.dword thunk ∧ 0 ≠ mem.dword origThunk then
      let origImport := ptrAdd moduleBase (mem.dword origThunk)
      if strcmp (mem.str (ptrAdd origImport 2)) procName = 0 then some thunk
      else findThunk mem moduleBase procName fuel (ptrAdd thunk 4) (ptrAdd origThunk 4)
    else some 0

/-- Loop condition of line 187: `0 != desc->Characteristics && 0xFFFF != desc->Name`. -/
def descContinues (mem : Mem) (desc : Nat) : Bool :=
  decide (0 ≠ mem.dword desc) && decide (0xFFFF ≠ mem.dword (ptrAdd desc 12))

/-- Module name of an import descriptor: the string at `moduleBase + desc->Name`. -/
def descName (mem : Mem) (moduleBase desc : Nat) : CStr :=
  mem.str (ptrAdd moduleBase (mem.dword (ptrAdd desc 12)))

/-- The descriptor loop of lines 186-212, started at `desc`; `thunkFuel` is the fuel of the
inner thunk loop. -/
def findDesc (mem : Mem) (moduleBase : Nat) (importedModuleName procName : CStr)
    (thunkFuel : Nat) : Nat → Nat → Option Nat
  | 0, _ => none
  | fuel + 1, desc =>
    if descContinues mem desc = true then
      if 0 ≠ stricmp (descName mem moduleBase desc) importedModuleName then
        findDesc mem moduleBase importedModuleName procName thunkFuel fuel (ptrAdd desc 20)
      else
        let thunk := ptrAdd moduleBase (mem.dword (ptrAdd desc 16))
        let origThunk := ptrAdd moduleBase (mem.dword desc)
        findThunk mem moduleBase procName thunkFuel thunk origThunk
    else some 0

/-- Function `Compat::findProcAddressInIat`; the result is the address of the import cell,
`some 0` is `nullptr`, and `none` means that a loop is still running when the fuel (a bound
on the iterations of each loop) is used up. -/
def Compat.findProcAddressInIat (fuel : Nat) (mem : Mem) (module : Nat)
    (importedModuleName procName : Option CStr) : Option Nat :=
  match importedModuleName, procName with
  | some imported, some name =>
    if module = 0 then some 0
    else
      let ntHeaders := getImageNtHeaders mem module
      if ntHeaders = 0 then some 0
      else
        let moduleBase := module
        let importDesc := ptrAdd moduleBase (mem.dword (ptrAdd ntHeaders OFF_importDirectory))
        findDesc mem moduleBase imported name fuel fuel importDesc
  | _, _ => some 0

/-- Function `Compat::getProcAddressFromIat`: `proc ? *proc : nullptr`. -/
def Compat.getProcAddressFromIat (fuel : Nat) (mem : Mem) (module : Nat)
    (importedModuleName procName : Option CStr) : Option Nat :=
  match Compat.findProcAddressInIat fuel mem module importedModuleName procName with
  | none => none
  | some proc => if proc ≠ 0 then some (mem.dword proc) else some 0

/-- Service `VirtualProtect(addr, sizeof(void*), newProtect, &old)` on a mapped cell: the
cell gets the new protection and the previous one is handed back. -/
def virtualProtect (s : State) (addr : Nat) (newProtect : Nat) : State × Nat :=
  ({ s with protect := Function.update s.protect addr newProtect }, s.protect addr)

/-- Function `Compat::hookIatFunction`. -/
def Compat.hookIatFunction (fuel : Nat) (s : State) (module : Nat)
    (importedModuleName funcName : Option CStr) (newFuncPtr : Nat) : Option State :=
  match Compat.findProcAddressInIat fuel s.mem module importedModuleName funcName with
  | none => none
  | some func =>
    if func ≠ 0 then
      let p1 := virtualProtect s func PAGE_READWRITE
      let oldProtect := p1.2
      let s2 := { p1.1 with mem := p1.1.mem.writeDword func newFuncPtr }
      let p3 := virtualProtect s2 func oldProtect
      some p3.1
    else some s

/-! ## Reads of memory that may not be mapped

`Hook.cpp` dereferences the pointers it computes without probing them. The definitions above
give the values that are read; the definitions of this section (suffix `Faulting`) are the
same code with every dereference performed by a read that is an access violation when a
byte it touches is not mapped. -/

/-- Result of code that dereferences pointers: an access violation (`fault`), which ends
the process, or a value. -/
inductive Outcome (α : Type) where
  | fault
  | done (a : α)
deriving DecidableEq

/-- Sequencing of dereferencing code: a fault ends the run. -/
def Outcome.bind {α β : Type} (x : Outcome α) (f : α → Outcome β) : Outcome β :=
  match x with
  | Outcome.fault => Outcome.fault
  | Outcome.done a => f a

/-- The `n` bytes starting at address `a` are mapped. -/
def Mem.bytesMapped (m : Mem) (a n : Nat) : Bool :=
  (List.range n).all (fun i => m.mapped (ptrAdd a i))

/-- Read of the `WORD` at an address. -/
def Mem.readWord (m : Mem) (a : Nat) : Outcome Nat :=
  if m.bytesMapped a 2 = true then Outcome.done (m.word a) else Outcome.fault

/-- Read of the `DWORD` at an address. -/
def Mem.readDword (m : Mem) (a : Nat) : Outcome Nat :=
  if m.bytesMapped a 4 = true then Outcome.done (m.dword a) else Outcome.fault

/-- Read of the string at an address by code that examines its first `n` bytes. -/
def Mem.readStr (m : Mem) (a n : Nat) : Outcome CStr :=
  if m.bytesMapped a n = true then Outcome.done (m.str a) else Outcome.fault

/-- Number of leading bytes of each argument that `strcmp` examines: the bytes up to and
including the first position at which the strings differ, the terminating NUL counting as a
byte. -/
def strcmpReads : CStr → CStr → Nat
  | x :: xs, y :: ys => if x = y then strcmpReads xs ys + 1 else 1
  | _, _ => 1

/-- Number of leading bytes of each argument that `_stricmp` examines. -/
def stricmpReads (a b : CStr) : Nat :=
  strcmpReads (a.map tolower) (b.map tolower)

/-- Function `getImageNtHeaders` with its three dereferences: `dosHeader->e_magic`,
`dosHeader->e_lfanew` and `ntHeaders->Signature`. -/
def getImageNtHeadersFaulting (mem : Mem) (module : Nat) : Outcome Nat :=
  let dosHeader := module
  (mem.readWord dosHeader).bind fun e_magic =>
    if IMAGE_DOS_SIGNATURE ≠ e_magic then Outcome.done 0
    else
      (mem.readDword (ptrAdd dosHeader OFF_e_lfanew)).bind fun e_lfanew =>
        let ntHeaders := ptrAdd dosHeader e_lfanew
        (mem.readDword ntHeaders).bind fun signature =>
          if IMAGE_NT_SIGNATURE ≠ signature then Outcome.done 0
          else Outcome.done ntHeaders

/-- Lines 230-237 of `getProcAddress` with their dereferences: the two fields of the export
data-directory entry and the three table addresses of the export directory. The fields
`Base`, `NumberOfFunctions` and `NumberOfNames` are dereferenced later, by
`lookupExportFaulting`, where the code uses them. -/
def exportViewFaulting (mem : Mem) (module ntHeaders : Nat) : Outcome ExportView :=
  (mem.readDword (ptrAdd ntHeaders OFF_exportDirectory)).bind fun _ =>
    (mem.readDword (ptrAdd ntHeaders (OFF_exportDirectory + 4))).bind fun _ =>
      let v := exportView mem module ntHeaders
      (mem.readDword (ptrAdd v.exportDir 32)).bind fun _ =>
        (mem.readDword (ptrAdd v.exportDir 36)).bind fun _ =>
          (mem.readDword (ptrAdd v.exportDir 28)).bind fun _ =>
            Outcome.done v

/-- The name loop of lines 251-257 with its dereferences: `rvaOfNames[i]`, the bytes of the
name that `strcmp` examines, and on a match `nameOrds[i]` and `rvaOfFunctions[nameOrds[i]]`. -/
def scanNamesFaulting (mem : Mem) (v : ExportView) (procName : CStr) (numberOfNames : Nat) :
    Outcome Nat :=
  (List.range numberOfNames).foldl
    (fun acc i =>
      acc.bind fun func =>
        (mem.readDword (ptrAdd v.rvaOfNames (4 * i))).bind fun rva =>
          (mem.readStr (ptrAdd v.moduleBase rva)
              (strcmpReads procName (mem.str (ptrAdd v.moduleBase rva)))).bind fun name =>
            if strcmp procName name = 0 then
              (mem.readWord (ptrAdd v.nameOrds (2 * i))).bind fun ord =>
                (mem.readDword (ptrAdd v.rvaOfFunctions (4 * ord))).bind fun rvaOfFunction =>
                  Outcome.done (ptrAdd v.moduleBase rvaOfFunction)
            else Outcome.done func)
    (Outcome.done 0)

/-- Lines 239-258 with their dereferences. In the ordinal branch `exportDir->Base` is read,
`exportDir->NumberOfFunctions` only when the first test of the `||` is false, and then the
function-table entry; in the name branch `exportDir->NumberOfNames` is read by the loop
test. -/
def lookupExportFaulting (mem : Mem) (v : ExportView) : ProcName → Outcome (Option Nat)
  | ProcName.ord n =>
    let ord := n % 2 ^ 16
    (mem.readDword (ptrAdd v.exportDir 16)).bind fun base =>
      if ord < base then Outcome.done none
      else
        (mem.readDword (ptrAdd v.exportDir 20)).bind fun numberOfFunctions =>
          if (base + numberOfFunctions) % 2 ^ 32 ≤ ord then Outcome.done none
          else
            (mem.readDword (ptrAdd v.rvaOfFunctions (4 * (ord - base)))).bind
              fun rvaOfFunction => Outcome.done (some (ptrAdd v.moduleBase rvaOfFunction))
  | ProcName.name s =>
    (mem.readDword (ptrAdd v.exportDir 24)).bind fun numberOfNames =>
      (scanNamesFaulting mem v s numberOfNames).bind fun func => Outcome.done (some func)

/-- Body of `getProcAddress` up to its recursive call, with its dereferences; the forwarder
string is read up to and including its NUL by `std::string forw(func)`. -/
def getProcAddressStepFaulting (env : Env) (mem : Mem) (module : Nat) (procName : ProcName) :
    Outcome Step :=
  if module = 0 ∨ procName.isNull = true then Outcome.done (Step.ret 0)
  else
    (getImageNtHeadersFaulting mem module).bind fun ntHeaders =>
      if ntHeaders = 0 then Outcome.done (Step.ret 0)
      else
        (exportViewFaulting mem module ntHeaders).bind fun v =>
          (lookupExportFaulting mem v procName).bind fun found =>
            match found with
            | none => Outcome.done (Step.ret 0)
            | some func =>
              if isForwarder v func = true then
                (mem.readStr func ((mem.str func).length + 1)).bind fun forw =>
                  Outcome.done (forward env forw)
              else Outcome.done (Step.ret func)

/-- Function `Compat::getProcAddress` with its dereferences; `none` means that the recursion
is still going on when the fuel is used up. -/
def getProcAddressFaulting (env : Env) (mem : Mem) : Nat → Nat → ProcName → Option (Outcome Nat)
  | fuel, module, procName =>
    match getProcAddressStepFaulting env mem module procName with
    | Outcome.fault => some Outcome.fault
    | Outcome.done (Step.ret r) => some (Outcome.done r)
    | Outcome.done (Step.call forwModule forwName) =>
      match fuel with
      | 0 => none
      | n + 1 => getProcAddressFaulting env mem n forwModule forwName

/-- The thunk loop of lines 197-209 with its dereferences: `thunk->u1.AddressOfData`,
`origThunk->u1.AddressOfData` when the first test of the `&&` holds, and the bytes of
`origImport->Name` that `strcmp` examines. -/
def findThunkFaulting (mem : Mem) (moduleBase : Nat) (procName : CStr) :
    Nat → Nat → Nat → Option (Outcome Nat)
  | 0, _, _ => none
  | fuel + 1, thunk, origThunk =>
    match mem.readDword thunk with
    | Outcome.fault => some Outcome.fault
    | Outcome.done addressOfData =>
      if 0 ≠ addressOfData then
        match mem.readDword origThunk with
        | Outcome.fault => some Outcome.fault
        | Outcome.done origAddressOfData =>
          if 0 ≠ origAddressOfData then
            let origImport := ptrAdd moduleBase origAddressOfData
            match mem.readStr (ptrAdd origImport 2)
                (strcmpReads (mem.str (ptrAdd origImport 2)) procName) with
            | Outcome.fault => some Outcome.fault
            | Outcome.done name =>
              if strcmp name procName = 0 then some (Outcome.done thunk)
              else
                findThunkFaulting mem moduleBase procName fuel (ptrAdd thunk 4)
                  (ptrAdd origThunk 4)
          else some (Outcome.done 0)
      else some (Outcome.done 0)

/-- The descriptor loop of lines 186-212 with its dereferences: `desc->Characteristics`,
`desc->Name` when the first test of the `&&` holds, the bytes of the module name that
`_stricmp` examines, and for the matching descriptor `desc->FirstThunk` and
`desc->OriginalFirstThunk`. -/
def findDescFaulting (mem : Mem) (moduleBase : Nat) (importedModuleName procName : CStr)
    (thunkFuel : Nat) : Nat → Nat → Option (Outcome Nat)
  | 0, _ => none
  | fuel + 1, desc =>
    match mem.readDword desc with
    | Outcome.fault => some Outcome.fault
    | Outcome.done characteristics =>
      if 0 ≠ characteristics then
        match mem.readDword (ptrAdd desc 12) with
        | Outcome.fault => some Outcome.fault
        | Outcome.done name =>
          if 0xFFFF ≠ name then
            match mem.readStr (ptrAdd moduleBase name)
                (stricmpReads (mem.str (ptrAdd moduleBase name)) importedModuleName) with
            | Outcome.fault => some Outcome.fault
            | Outcome.done moduleName =>
              if 0 ≠ stricmp moduleName importedModuleName then
                findDescFaulting mem moduleBase importedModuleName procName thunkFuel fuel
                  (ptrAdd desc 20)
              else
                match mem.readDword (ptrAdd desc 16) with
                | Outcome.fault => some Outcome.fault
                | Outcome.done firstThunk =>
                  findThunkFaulting mem moduleBase procName thunkFuel
                    (ptrAdd moduleBase firstThunk) (ptrAdd moduleBase characteristics)
          else some (Outcome.done 0)
      else some (Outcome.done 0)

/-- Function `Compat::findProcAddressInIat` with its dereferences. -/
def Compat.findProcAddressInIatFaulting (fuel : Nat) (mem : Mem) (module : Nat)
    (importedModuleName procName : Option CStr) : Option (Outcome Nat) :=
  match importedModuleName, procName with
  | some imported, some name =>
    if module = 0 then some (Outcome.done 0)
    else
      match getImageNtHeadersFaulting mem module with
      | Outcome.fault => some Outcome.fault
      | Outcome.done ntHeaders =>
        if ntHeaders = 0 then some (Outcome.done 0)
        else
          let moduleBase := module
          match mem.readDword (ptrAdd ntHeaders OFF_importDirectory) with
          | Outcome.fault => some Outcome.fault
          | Outcome.done virtualAddress =>
            findDescFaulting mem moduleBase imported name fuel fuel
              (ptrAdd moduleBase virtualAddress)
  | _, _ => some (Outcome.done 0)
/-- A run with dereferences refines a value: it ends in an access violation, some byte of
the memory being unmapped, or it returns that value. -/
def Outcome.Refines {α : Type} (mem : Mem) (x : Outcome α) (v : α) : Prop :=
  (x = Outcome.fault ∧ ∃ b, mem.mapped b = false) ∨ x = Outcome.done v

/-- The same for a run that takes fuel: both run out of fuel together unless the run with
dereferences has ended in an access violation before. -/
def Outcome.RefinesFuel {α : Type} (mem : Mem) (x : Option (Outcome α)) (v : Option α) : Prop :=
  (x = some Outcome.fault ∧ ∃ b, mem.mapped b = false) ∨ x = v.map Outcome.done

/-! ## Installing hooks by name and on foreign hooks -/

/-- Function `Compat::hookFunction(HMODULE module, const char* funcName, void*& origFuncPtr,
void* newFuncPtr)`; `none` when `getProcAddress` does not return within the fuel. -/
def Compat.hookFunctionInModule (env : Env) (fuel : Nat) (s : State) (module : Nat)
    (funcName : ProcName) (origFuncPtr : Cell) (newFuncPtr : Nat) : Option State :=
  match getProcAddress env s.mem fuel module funcName with
  | none => none
  | some procAddr =>
    if procAddr = 0 then some s
    else
      let s1 := { s with cells := Function.update s.cells origFuncPtr procAddr }
      some (DDrawCompat.hookFunction env s1 origFuncPtr newFuncPtr)

/-- Function `Compat::hookFunction(const char* moduleName, const char* funcName,
void*& origFuncPtr, void* newFuncPtr)`: the module is loaded, hooked through its handle and
released again. The memory is the address space with the module mapped. -/
def Compat.hookFunctionByModuleName (env : Env) (fuel : Nat) (s : State) (moduleName : CStr)
    (funcName : ProcName) (origFuncPtr : Cell) (newFuncPtr : Nat) : Option State :=
  let module := env.loadLibrary moduleName
  if module = 0 then some s
  else
    match Compat.hookFunctionInModule env fuel s module funcName origFuncPtr newFuncPtr with
    | none => none
    | some s1 => some { s1 with freed := module :: s1.freed }

/-- Statement `origFuncs.push_back(hookFunc)` on the static list of `redirectIatHooks`. -/
def pushBackOrigFuncs (s : State) (hookFunc : Nat) : State :=
  { s with
    cells := Function.update s.cells (Cell.origFuncs s.origFuncsSize) hookFunc
    origFuncsSize := s.origFuncsSize + 1 }

/-- Body of the loop of `Compat::redirectIatHooks` for one element of the set. The module
name is non-null whenever the set has an element. -/
def redirectIatHook (env : Env) (moduleName : Option CStr) (newFunc : Nat) (s : State)
    (hookFunc : Nat) : State :=
  match env.moduleFromAddress hookFunc with
  | none => s
  | some module =>
    let moduleBaseName := getModuleBaseName env module
    if 0 ≠ stricmp moduleBaseName (moduleName.getD []) then
      Compat.hookFunction env (pushBackOrigFuncs s hookFunc) (Cell.origFuncs s.origFuncsSize)
        newFunc
    else s

/-- Memory given by three tables; an address absent from a table holds zero or the empty
string. The bytes `0x10000..0x3FFFF` (three images of 64 KiB) are mapped, no other byte is. -/
def memOfTables (words dwords : List (Nat × Nat)) (strs : List (Nat × CStr)) : Mem :=
  { mapped := fun a => decide (0x10000 ≤ a ∧ a < 0x40000)
    u16 := fun a => (words.lookup a).getD 0
    u32 := fun a => (dwords.lookup a).getD 0
    str := fun a => (strs.lookup a).getD [] }

/-- Environment for `demoMem`. Every Detours transaction commits and the trampoline of target
`t` is `t + 0x1000000`. Images `A`, `B`, `C` are mapped at `0x10000`, `0x20000`, `0x30000` with
file names "C:\\a.exe", "C:\\b.dll", "C:\\c.dll"; a fourth module "C:\\hook.dll" owns the
addresses `0x50000..0x5FFFF`; other addresses belong to no module. `GetModuleHandle` knows
"B" and "C". Every Detours detach transaction commits and stores the pointer minus
`0x1000000`. `LoadLibrary` knows "B", "C" and a module "D", which it would map at `0x50000`
and which `GetModuleHandle` does not know. -/
def demoEnv : Env :=
  { detourAttach := fun _ t _ => ⟨true, true, t + 0x1000000⟩
    detourDetach := fun _ p _ => ⟨true, true, p - 0x1000000⟩
    loadLibrary := fun n =>
      if n = [66] then 0x20000 else if n = [67] then 0x30000 else if n = [68] then 0x50000 else 0
    moduleFromAddress := fun a =>
      if a < 0x10000 then none
      else if a < 0x20000 then some 0x10000
      else if a < 0x30000 then some 0x20000
      else if a < 0x40000 then some 0x30000
      else if 0x50000 ≤ a ∧ a < 0x60000 then some 0x50000
      else none
    getModuleHandle := fun n => if n = [66] then 0x20000 else if n = [67] then 0x30000 else 0
    moduleFileName := fun m =>
      if m = 0x10000 then [67, 58, 92, 97, 46, 101, 120, 101]
      else if m = 0x20000 then [67, 58, 92, 98, 46, 100, 108, 108]
      else if m = 0x30000 then [67, 58, 92, 99, 46, 100, 108, 108]
      else [67, 58, 92, 104, 111, 111, 107, 46, 100, 108, 108]
    enumProcessModules := some [0x10000, 0x20000, 0x30000] }

/-- Environment that differs from `demoEnv` in that every Detours commit fails. -/
def failingEnv : Env :=
  { demoEnv with detourAttach := fun _ t _ => ⟨true, false, t⟩ }

/-- State with an empty registry over the given memory; every variable holds `0`. -/
def emptyState (mem : Mem) : State :=
  { mem := mem
    protect := fun _ => 2
    hookedFunctions := []
    cells := fun _ => 0
    origFuncsSize := 0
    detours := []
    freed := [] }

/-- State with one record: address `0x12000` is hooked by `0x5000`, and client variable 0
holds its trampoline `0x1012000`; client variable 1 holds the hooked address. -/
def oneHookState (mem : Mem) : State :=
  { emptyState mem with
    hookedFunctions := [(0x12000, ⟨0x10000, Cell.client 0, 0x5000⟩)]
    cells := fun c =>
      if c = Cell.client 0 then 0x1012000 else if c = Cell.client 1 then 0x12000 else 0
    detours := [DetourOp.attach 0x12000 0x5000] }

/-- State with an empty registry in which client variables 0 and 1 both hold `0x12000`. -/
def twoClientsState (mem : Mem) : State :=
  { emptyState mem with
    cells := fun c => if c = Cell.client 0 ∨ c = Cell.client 1 then 0x12000 else 0 }

/-- Memory holding three module images.

* `A` at `0x10000`: exports `F` (index 0, code at `0x12000`), `G` (index 1, the forwarder
  string "B.G" at `0x11080`, inside the export directory `0x11000..0x11100`) and `F` again
  (index 2, code at `0x12100`), ordinal base 1; imports `F` from "c.dll" (cell `0x14300`) and
  `G`, `F` from "b.dll" (cells `0x14340`, `0x14344`).
* `B` at `0x20000`: exports `F` (code at `0x23000`) and `G` (the forwarder string "C.G");
  its import directory is empty.
* `C` at `0x30000`: exports `G` (code at `0x33100`); imports `F` from "B.DLL" through the
  cell `0x34300`, which holds the foreign address `0x50000`. -/
def demoMem : Mem :=
  memOfTables
    [(0x10000, 0x5A4D), (0x11300, 0), (0x11302, 1), (0x11304, 2),
     (0x20000, 0x5A4D), (0x21300, 0), (0x21302, 1),
     (0x30000, 0x5A4D), (0x31300, 0)]
    [(0x1003C, 0x80), (0x10080, 0x4550), (0x100F8, 0x1000), (0x100FC, 0x100), (0x10100, 0x4000),
     (0x11010, 1), (0x11014, 3), (0x11018, 3), (0x1101C, 0x1100), (0x11020, 0x1200),
     (0x11024, 0x1300),
     (0x11100, 0x2000), (0x11104, 0x1080), (0x11108, 0x2100),
     (0x11200, 0x1400), (0x11204, 0x1410), (0x11208, 0x1420),
     (0x14000, 0x4100), (0x1400C, 0x4200), (0x14010, 0x4300),
     (0x14014, 0x4140), (0x14020, 0x4210), (0x14024, 0x4340),
     (0x14100, 0x4400), (0x14300, 0x33000),
     (0x14140, 0x4410), (0x14144, 0x4420), (0x14340, 0x23100), (0x14344, 0x23000),
     (0x2003C, 0x80), (0x20080, 0x4550), (0x200F8, 0x1000), (0x200FC, 0x100), (0x20100, 0x4000),
     (0x21010, 1), (0x21014, 2), (0x21018, 2), (0x2101C, 0x1100), (0x21020, 0x1200),
     (0x21024, 0x1300),
     (0x21100, 0x3000), (0x21104, 0x1080), (0x21200, 0x1400), (0x21204, 0x1410),
     (0x3003C, 0x80), (0x30080, 0x4550), (0x300F8, 0x1000), (0x300FC, 0x100), (0x30100, 0x4000),
     (0x31010, 1), (0x31014, 1), (0x31018, 1), (0x3101C, 0x1100), (0x31020, 0x1200),
     (0x31024, 0x1300),
     (0x31100, 0x3100), (0x31200, 0x1400),
     (0x34000, 0x4100), (0x3400C, 0x4200), (0x34010, 0x4300),
     (0x34100, 0x4400), (0x34300, 0x50000)]
    [(0x11400, [70]), (0x11410, [71]), (0x11420, [70]), (0x11080, [66, 46, 71]),
     (0x14200, [99, 46, 100, 108, 108]), (0x14210, [98, 46, 100, 108, 108]),
     (0x14402, [70]), (0x14412, [71]), (0x14422, [70]),
     (0x21400, [70]), (0x21410, [71]), (0x21080, [67, 46, 71]),
     (0x31400, [71]),
     (0x34200, [66, 46, 68, 76, 76]), (0x34402, [70])]

/-- The forwarder string that an export of `module` designates: lines 217-264 of
`getProcAddress` up to `std::string forw(func)`; `none` when the lookup does not reach that
line (null argument, bad header, rejected ordinal, or an address outside the export
directory). -/
def forwarderText (mem : Mem) (module : Nat) (procName : ProcName) : Option CStr :=
  if module = 0 ∨ procName.isNull = true then none
  else if getImageNtHeaders mem module = 0 then none
  else
    match lookupExport mem (exportView mem module (getImageNtHeaders mem module)) procName with
    | none => none
    | some func =>
      if isForwarder (exportView mem module (getImageNtHeaders mem module)) func = true then
        some (mem.str func)
      else none

/-! ## Reference definition of `findSlot` -/

/-- Every field of the import descriptor at `desc` is zero (`OriginalFirstThunk`,
`TimeDateStamp`, `ForwarderChain`, `Name`, `FirstThunk`). -/
def descAllZero (mem : Mem) (desc : Nat) : Bool :=
  decide (mem.dword desc = 0) && decide (mem.dword (ptrAdd desc 4) = 0) &&
    decide (mem.dword (ptrAdd desc 8) = 0) && decide (mem.dword (ptrAdd desc 12) = 0) &&
    decide (mem.dword (ptrAdd desc 16) = 0)

/-- Reference: the slots of the import-descriptor array, in array order, that precede the
terminating all-zero descriptor, among the first `bound` slots. -/
def descriptorsBeforeAllZero (mem : Mem) (importDesc bound : Nat) : List Nat :=
  (List.iterate (fun d => ptrAdd d 20) importDesc bound).takeWhile
    (fun d => !descAllZero mem d)

/-- The slots of the import-descriptor array, in array order, that precede the first slot
whose `Characteristics` field is zero or whose `Name` field is `0xFFFF` (the first slot at
which the loop test `descContinues` of the code fails), among the first `bound` slots. -/
def descriptorsBeforeLoopEnd (mem : Mem) (importDesc bound : Nat) : List Nat :=
  (List.iterate (fun d => ptrAdd d 20) importDesc bound).takeWhile (descContinues mem)

/-- Reference: the live-address cells paired with the original-name cells of the same
index, up to the first index at which either cell holds zero, among the first `bound`. -/
def thunkPairsBeforeZero (mem : Mem) (thunk origThunk bound : Nat) : List (Nat × Nat) :=
  ((List.iterate (fun t => ptrAdd t 4) thunk bound).zip
      (List.iterate (fun t => ptrAdd t 4) origThunk bound)).takeWhile
    (fun pr => decide (mem.dword pr.1 ≠ 0) && decide (mem.dword pr.2 ≠ 0))

/-- Reference: the name of the import-by-name record that an original-name cell designates
(the record starts with a two-byte hint). -/
def importNameOf (mem : Mem) (moduleBase origCell : Nat) : CStr :=
  mem.str (ptrAdd (ptrAdd moduleBase (mem.dword origCell)) 2)

/-- The search in a list of descriptor slots that both variants of the reference
definition share: the first slot whose module name equals `importedModuleName` ignoring
case; in its two thunk arrays, walked in lockstep until either holds zero, the first index
whose import-by-name record has exactly the name `functionName`; the result is the address
of the live-address cell of that index. NotFound (`0`) when no slot matches or when that
first matching slot has no such name. -/
def findSlotIn (descs : List Nat) (bound : Nat) (mem : Mem) (module : Nat)
    (importedModuleName functionName : CStr) : Nat :=
  match descs.find?
      (fun d => decide ((descName mem module d).map tolower = importedModuleName.map tolower))
    with
  | none => 0
  | some d =>
    match (thunkPairsBeforeZero mem (ptrAdd module (mem.dword (ptrAdd d 16)))
        (ptrAdd module (mem.dword d)) bound).find?
        (fun pr => decide (importNameOf mem module pr.2 = functionName)) with
    | none => 0
    | some pr => pr.1

/-- Reference definition of `findSlot`, following the words of the specification: the
descriptors are those before the terminating all-zero descriptor. A module without a valid
header gives NotFound. -/
def findSlotSpec (bound : Nat) (mem : Mem) (module : Nat) (importedModuleName functionName : CStr) :
    Nat :=
  if module = 0 ∨ getImageNtHeaders mem module = 0 then 0
  else
    findSlotIn
      (descriptorsBeforeAllZero mem
        (ptrAdd module (mem.dword (ptrAdd (getImageNtHeaders mem module) OFF_importDirectory)))
        bound)
      bound mem module importedModuleName functionName

/-- The variant of the reference definition in which the descriptors are those before the
first descriptor whose `Characteristics` field is zero or whose `Name` field is `0xFFFF`. -/
def findSlotLoopTest (bound : Nat) (mem : Mem) (module : Nat)
    (importedModuleName functionName : CStr) : Nat :=
  if module = 0 ∨ getImageNtHeaders mem module = 0 then 0
  else
    findSlotIn
      (descriptorsBeforeLoopEnd mem
        (ptrAdd module (mem.dword (ptrAdd (getImageNtHeaders mem module) OFF_importDirectory)))
        bound)
      bound mem module importedModuleName functionName

/-- Memory with one image at `0x10000` that has two import descriptors for "b.dll": the
first lists only `G` (cell `0x14300`), the second lists `F` (cell `0x14340`). -/
def dupDescMem : Mem :=
  memOfTables
    [(0x10000, 0x5A4D)]
    [(0x1003C, 0x80), (0x10080, 0x4550), (0x10100, 0x4000),
     (0x14000, 0x4100), (0x1400C, 0x4200), (0x14010, 0x4300),
     (0x14014, 0x4140), (0x14020, 0x4200), (0x14024, 0x4340),
     (0x14100, 0x4400), (0x14300, 0x23100),
     (0x14140, 0x4410), (0x14340, 0x23000)]
    [(0x14200, [98, 46, 100, 108, 108]), (0x14402, [71]), (0x14412, [70])]

/-! ## Predicates used for `redirectIatHooks` -/

/-- A variable exists: every client variable does, and node `j` of `origFuncs` does when the
list has more than `j` nodes. -/
def cellAllocated (size : Nat) : Cell → Bool
  | Cell.client _ => true
  | Cell.origFuncs j => decide (j < size)

/-- Every record refers to a variable that exists. -/
def State.cellsAllocated (s : State) : Bool :=
  s.hookedFunctions.all (fun e => cellAllocated s.origFuncsSize e.2.origFunction)

/-- The `DWORD` cells that `findProcAddressInIat` may read as metadata of `module`, with
`bound` as loop bound: `e_lfanew`, the NT signature, the import-directory entry, and for each
of the first `bound` descriptor slots its `OriginalFirstThunk`, `Name` and `FirstThunk`
fields and the first `bound` cells of its original-name thunk array. -/
def iatMetadataCells (bound : Nat) (mem : Mem) (module : Nat) : List Nat :=
  [ptrAdd module OFF_e_lfanew,
    ptrAdd module (mem.dword (ptrAdd module OFF_e_lfanew)),
    ptrAdd (ptrAdd module (mem.dword (ptrAdd module OFF_e_lfanew))) OFF_importDirectory] ++
  (List.iterate (fun d => ptrAdd d 20)
      (ptrAdd module (mem.dword
        (ptrAdd (ptrAdd module (mem.dword (ptrAdd module OFF_e_lfanew))) OFF_importDirectory)))
      bound).flatMap
    (fun d => [d, ptrAdd d 12, ptrAdd d 16] ++
      List.iterate (fun t => ptrAdd t 4) (ptrAdd module (mem.dword d)) bound)

/-- State with two records: `0x12000` hooked by `0x5000` with its trampoline in client
variable 0, and `0x23000` hooked by `0x6000` with its trampoline in client variable 1. -/
def twoHooksState (mem : Mem) : State :=
  { emptyState mem with
    hookedFunctions :=
      [(0x12000, ⟨0x10000, Cell.client 0, 0x5000⟩), (0x23000, ⟨0x20000, Cell.client 1, 0x6000⟩)]
    cells := fun c =>
      if c = Cell.client 0 then 0x1012000 else if c = Cell.client 1 then 0x1023000 else 0
    detours := [DetourOp.attach 0x23000 0x6000, DetourOp.attach 0x12000 0x5000] }

/-- Memory with two images whose exports are forwarders only. Image `B` at `0x20000` exports
`F` as the forwarder string "B.F" (naming itself) and `G` as "C.G"; image `C` at `0x30000`
exports `G` as "B.G". -/
def cycleMem : Mem :=
  memOfTables
    [(0x20000, 0x5A4D), (0x21300, 0), (0x21302, 1), (0x30000, 0x5A4D), (0x31300, 0)]
    [(0x2003C, 0x80), (0x20080, 0x4550), (0x200F8, 0x1000), (0x200FC, 0x100),
     (0x21010, 1), (0x21014, 2), (0x21018, 2), (0x2101C, 0x1100), (0x21020, 0x1200),
     (0x21024, 0x1300),
     (0x21100, 0x1080), (0x21104, 0x1090), (0x21200, 0x1400), (0x21204, 0x1410),
     (0x3003C, 0x80), (0x30080, 0x4550), (0x300F8, 0x1000), (0x300FC, 0x100),
     (0x31010, 1), (0x31014, 1), (0x31018, 1), (0x3101C, 0x1100), (0x31020, 0x1200),
     (0x31024, 0x1300),
     (0x31100, 0x1080), (0x31200, 0x1400)]
    [(0x21400, [70]), (0x21410, [71]), (0x21080, [66, 46, 70]), (0x21090, [67, 46, 71]),
     (0x31400, [71]), (0x31080, [66, 46, 71])]

/-- Memory for forwarders by ordinal and to a module that is not mapped. Image `A` at
`0x10000` exports `H` as the forwarder string "D.S", `I` as "D.#7", `J` as "B.#1" and `K`
as "B.#0"; image `B` at `0x20000` exports `F` (ordinal 1, code at `0x23000`). -/
def forwardMem : Mem :=
  memOfTables
    [(0x10000, 0x5A4D), (0x11300, 0), (0x11302, 1), (0x11304, 2), (0x11306, 3),
     (0x20000, 0x5A4D), (0x21300, 0)]
    [(0x1003C, 0x80), (0x10080, 0x4550), (0x100F8, 0x1000), (0x100FC, 0x100),
     (0x11010, 1), (0x11014, 4), (0x11018, 4), (0x1101C, 0x1100), (0x11020, 0x1200),
     (0x11024, 0x1300),
     (0x11100, 0x1080), (0x11104, 0x1088), (0x11108, 0x1090), (0x1110C, 0x1098),
     (0x11200, 0x1400), (0x11204, 0x1410), (0x11208, 0x1420), (0x1120C, 0x1430),
     (0x2003C, 0x80), (0x20080, 0x4550), (0x200F8, 0x1000), (0x200FC, 0x100),
     (0x21010, 1), (0x21014, 1), (0x21018, 1), (0x2101C, 0x1100), (0x21020, 0x1200),
     (0x21024, 0x1300),
     (0x21100, 0x3000), (0x21200, 0x1400)]
    [(0x11400, [72]), (0x11410, [73]), (0x11420, [74]), (0x11430, [75]),
     (0x11080, [68, 46, 83]), (0x11088, [68, 46, 35, 55]), (0x11090, [66, 46, 35, 49]),
     (0x11098, [66, 46, 35, 48]),
     (0x21400, [70])]

/-- Memory with two images that import `F` from "b.dll" through their second descriptor.
In the image at `0x10000` the first descriptor has a zero `Characteristics` field but the
name "c.dll" and a `FirstThunk`; in the image at `0x20000` the first descriptor has `0xFFFF`
as its name field. In both the third descriptor is all zero. -/
def oddDescMem : Mem :=
  memOfTables
    [(0x10000, 0x5A4D), (0x20000, 0x5A4D)]
    [(0x1003C, 0x80), (0x10080, 0x4550), (0x10100, 0x4000),
     (0x1400C, 0x4200), (0x14010, 0x4300),
     (0x14014, 0x4140), (0x14020, 0x4210), (0x14024, 0x4340),
     (0x14140, 0x4410), (0x14340, 0x23000),
     (0x2003C, 0x80), (0x20080, 0x4550), (0x20100, 0x4000),
     (0x24000, 0x4100), (0x2400C, 0xFFFF), (0x24010, 0x4300),
     (0x24014, 0x4140), (0x24020, 0x4210), (0x24024, 0x4340),
     (0x24140, 0x4410), (0x24340, 0x23000)]
    [(0x14200, [99, 46, 100, 108, 108]), (0x14210, [98, 46, 100, 108, 108]), (0x14412, [70]),
     (0x24210, [98, 46, 100, 108, 108]), (0x24412, [70])]

/-- The registry invariant of the specification: no two records share an intercepted
address, and no record's intercepted address equals the stored original of any record. -/
def registryInvariant (s : State) : Bool :=
  decide ((s.hookedFunctions.map (fun e => e.1)).Nodup) &&
    s.hookedFunctions.all (fun e =>
      s.hookedFunctions.all (fun e' => decide (e.1 ≠ s.origOf e')))

/-- The assumption on a splice of `target`: the trampoline that Detours returns is not the
target and is neither an intercepted address nor a stored original of the registry. -/
def trampolineFresh (env : Env) (s : State) (target newFunc : Nat) : Bool :=
  decide ((env.detourAttach s.detours target newFunc).trampoline ≠ target) &&
    s.hookedFunctions.all (fun e =>
      decide (e.1 ≠ (env.detourAttach s.detours target newFunc).trampoline) &&
        decide (s.origOf e ≠ (env.detourAttach s.detours target newFunc).trampoline))

/-- Well-formedness of the registry: the invariant of the specification (keys pairwise
distinct, no key equal to a stored original) together with what keeps it inductive: no two
records refer to the same variable, and every record refers to a variable that exists. -/
structure RegistryWellFormed (s : State) : Prop where
  keysNodup : (s.hookedFunctions.map (fun e => e.1)).Nodup
  keyNeOrig : ∀ e ∈ s.hookedFunctions, ∀ e' ∈ s.hookedFunctions, e.1 ≠ s.origOf e'
  cellsNodup : (s.hookedFunctions.map (fun e => e.2.origFunction)).Nodup
  allocated : s.cellsAllocated = true

/-- One step of the engine in which `installByName` is handed a client variable that no
record refers to, and in which every splice that is requested and commits returns a fresh
trampoline (`trampolineFresh`). The steps are: `installByAddress` through a client variable,
`installByName`, one iteration of the loop of `redirectIatHooks`, `remove`, and one
iteration of the loop of `unhookAllFunctions`. -/
inductive DisciplinedStep (env : Env) (fuel : Nat) : State → State → Prop where
  | installByAddress (s : State) (n newFunc : Nat) :
    (findOrigFunc s (s.cells (Cell.client n)) = none →
      (env.detourAttach s.detours (s.cells (Cell.client n)) newFunc).attachSuccessful = true →
      (env.detourAttach s.detours (s.cells (Cell.client n)) newFunc).commitSuccessful = true →
      trampolineFresh env s (s.cells (Cell.client n)) newFunc = true) →
    DisciplinedStep env fuel s (Compat.hookFunction env s (Cell.client n) newFunc)
  | installByName (s s' : State) (module : Nat) (funcName : ProcName) (n newFunc : Nat) :
    (∀ e ∈ s.hookedFunctions, e.2.origFunction ≠ Cell.client n) →
    Compat.hookFunctionInModule env fuel s module funcName (Cell.client n) newFunc = some s' →
    (∀ p, getProcAddress env s.mem fuel module funcName = some p →
      findOrigFunc { s with cells := Function.update s.cells (Cell.client n) p } p = none →
      (env.detourAttach s.detours p newFunc).attachSuccessful = true →
      (env.detourAttach s.detours p newFunc).commitSuccessful = true →
      trampolineFresh env { s with cells := Function.update s.cells (Cell.client n) p } p
        newFunc = true) →
    DisciplinedStep env fuel s s'
  | redirectOne (s : State) (moduleName : CStr) (hookFunc newFunc : Nat) :
    (findOrigFunc (pushBackOrigFuncs s hookFunc) hookFunc = none →
      (env.detourAttach s.detours hookFunc newFunc).attachSuccessful = true →
      (env.detourAttach s.detours hookFunc newFunc).commitSuccessful = true →
      trampolineFresh env (pushBackOrigFuncs s hookFunc) hookFunc newFunc = true) →
    DisciplinedStep env fuel s (redirectIatHook env (some moduleName) newFunc s hookFunc)
  | remove (s : State) (x : Nat) :
    DisciplinedStep env fuel s (Compat.unhookFunction env s x)
  | removeFirst (s : State) (first : Nat × HookedFunctionInfo)
      (rest : List (Nat × HookedFunctionInfo)) :
    s.hookedFunctions = first :: rest →
    DisciplinedStep env fuel s (unhookFunction env s first)

/-- Memory with one image at `0x10000` whose name-ordinal table is not the identity: the
names are "F", "G", "F" (indices 0, 1, 2), the name ordinals are 2, 0, 1, and the function
table holds the relative addresses `0x2000`, `0x2100`, `0x2200`. -/
def permutedOrdMem : Mem :=
  memOfTables
    [(0x10000, 0x5A4D), (0x11300, 2), (0x11302, 0), (0x11304, 1)]
    [(0x1003C, 0x80), (0x10080, 0x4550), (0x100F8, 0x1000), (0x100FC, 0x100),
     (0x11010, 1), (0x11014, 3), (0x11018, 3), (0x1101C, 0x1100), (0x11020, 0x1200),
     (0x11024, 0x1300),
     (0x11100, 0x2000), (0x11104, 0x2100), (0x11108, 0x2200),
     (0x11200, 0x1400), (0x11204, 0x1410), (0x11208, 0x1420)]
    [(0x11400, [70]), (0x11410, [71]), (0x11420, [70])]

/-- Memory in which only the twelve header bytes that `getImageNtHeaders` dereferences are
mapped: the "MZ" word at `0x10000`, `e_lfanew` (`0x80`) at `0x1003C`, and at `0x10080` a
`DWORD` that is not the NT signature. -/
def headerOnlyMem : Mem :=
  { mapped := fun a =>
      decide ((0x10000 ≤ a ∧ a < 0x10002) ∨ (0x1003C ≤ a ∧ a < 0x10040) ∨
        (0x10080 ≤ a ∧ a < 0x10084))
    u16 := fun a => if a = 0x10000 then 0x5A4D else 0
    u32 := fun a => if a = 0x1003C then 0x80 else 0
    str := fun _ => [] }

/-- Memory with an image at `0x10000` that starts with "MZ" and whose `e_lfanew` is
`0x70000000`, so that the NT header would be at the unmapped address `0x70010000`. -/
def strayHeaderMem : Mem :=
  memOfTables [(0x10000, 0x5A4D)] [(0x1003C, 0x70000000)] []

/-- Memory with one image at `0x10000` whose only import descriptor, for "b.dll", imports
by ordinal before it imports `F` by name: the original-name thunks are `0x80000005` (ordinal
5, `IMAGE_ORDINAL_FLAG32` set) and the record of "F"; the live cells are `0x14300` and
`0x14304`. -/
def ordinalImportMem : Mem :=
  memOfTables
    [(0x10000, 0x5A4D)]
    [(0x1003C, 0x80), (0x10080, 0x4550), (0x10100, 0x4000),
     (0x14000, 0x4100), (0x1400C, 0x4200), (0x14010, 0x4300),
     (0x14100, 0x80000005), (0x14104, 0x4410),
     (0x14300, 0x23100), (0x14304, 0x23000)]
    [(0x14200, [98, 46, 100, 108, 108]), (0x14412, [70])]

/-- Environment that differs from `demoEnv` in that the commit of every Detours detach
transaction fails, so that no splice is taken out and no pointer is written. -/
def detachFailEnv : Env :=
  { demoEnv with detourDetach := fun _ p _ => ⟨true, false, p⟩ }

/-! # Theorems -/

/-! ## Lemmas on the registry -/

theorem mem_emplace {k : Nat} {v : HookedFunctionInfo} {l : List (Nat × HookedFunctionInfo)}
    {e : Nat × HookedFunctionInfo} (h : e ∈ emplace k v l) : e = (k, v) ∨ e ∈ l := by
  induction l with
  | nil => simp [emplace] at h; exact Or.inl h
  | cons x rest ih =>
    unfold emplace at h
    split_ifs at h with h1 h2
    · rcases List.mem_cons.1 h with h | h
      · exact Or.inl h
      · exact Or.inr h
    · exact Or.inr h
    · rcases List.mem_cons.1 h with h | h
      · exact Or.inr (h ▸ List.mem_cons_self _ _)
      · rcases ih h with h | h
        · exact Or.inl h
        · exact Or.inr (List.mem_cons_of_mem _ h)

theorem mem_emplace_self {k : Nat} {v : HookedFunctionInfo}
    {l : List (Nat × HookedFunctionInfo)} (h : ∀ e ∈ l, e.1 ≠ k) :
    (k, v) ∈ emplace k v l := by
  induction l with
  | nil => simp [emplace]
  | cons x rest ih =>
    unfold emplace
    have hx : x.1 ≠ k := h x (List.mem_cons_self _ _)
    split_ifs with h1 h2
    · exact List.mem_cons_self _ _
    · exact absurd h2.symm hx
    · exact List.mem_cons_of_mem _ (ih (fun e he => h e (List.mem_cons_of_mem _ he)))

theorem findOrigFunc_some {s : State} {x : Nat} {it : Nat × HookedFunctionInfo}
    (h : findOrigFunc s x = some it) :
    it ∈ s.hookedFunctions ∧ (x = it.1 ∨ x = s.origOf it) := by
  unfold findOrigFunc at h
  refine ⟨List.mem_of_find?_eq_some h, ?_⟩
  have := List.find?_some h
  simpa [matchesOrigFunc] using this

theorem findOrigFunc_none {s : State} {x : Nat} (h : findOrigFunc s x = none)
    {i : Nat × HookedFunctionInfo} (hi : i ∈ s.hookedFunctions) :
    x ≠ i.1 ∧ x ≠ s.origOf i := by
  unfold findOrigFunc at h
  have := List.find?_eq_none.1 h i hi
  simpa [matchesOrigFunc] using this

theorem findOrigFunc_isSome {s : State} {x : Nat} {i : Nat × HookedFunctionInfo}
    (hi : i ∈ s.hookedFunctions) (hx : x = i.1 ∨ x = s.origOf i) :
    ∃ it, findOrigFunc s x = some it := by
  cases h : findOrigFunc s x with
  | some it => exact ⟨it, rfl⟩
  | none =>
    have := findOrigFunc_none h hi
    rcases hx with hx | hx
    · exact absurd hx this.1
    · exact absurd hx this.2

theorem hookFunction_of_found {env : Env} {s : State} {c : Cell} {newFuncPtr : Nat}
    {it : Nat × HookedFunctionInfo} (h : findOrigFunc s (s.cells c) = some it) :
    hookFunction env s c newFuncPtr =
      { s with cells := Function.update s.cells c (s.origOf it) } := by
  unfold hookFunction
  rw [h]

theorem hookFunction_of_fresh {env : Env} {s : State} {c : Cell} {newFuncPtr : Nat}
    (h : findOrigFunc s (s.cells c) = none)
    (ha : (env.detourAttach s.detours (s.cells c) newFuncPtr).attachSuccessful = true)
    (hc : (env.detourAttach s.detours (s.cells c) newFuncPtr).commitSuccessful = true) :
    hookFunction env s c newFuncPtr =
      { s with
        cells := Function.update s.cells c
          (env.detourAttach s.detours (s.cells c) newFuncPtr).trampoline
        detours := DetourOp.attach (s.cells c) newFuncPtr :: s.detours
        hookedFunctions :=
          emplace (s.cells c) ⟨(env.moduleFromAddress (s.cells c)).getD 0, c, newFuncPtr⟩
            s.hookedFunctions } := by
  unfold hookFunction
  rw [h]
  simp [ha, hc]

theorem hookFunction_of_failed {env : Env} {s : State} {c : Cell} {newFuncPtr : Nat}
    (h : findOrigFunc s (s.cells c) = none)
    (hf : (env.detourAttach s.detours (s.cells c) newFuncPtr).attachSuccessful = false ∨
      (env.detourAttach s.detours (s.cells c) newFuncPtr).commitSuccessful = false) :
    hookFunction env s c newFuncPtr = s := by
  unfold hookFunction
  rw [h]
  rcases hf with hf | hf <;> simp [hf]

/-! ## C1: an install on a known target -/

theorem hookFunction_second_install {env : Env} {s : State} {c : Cell} {r1 : Nat}
    (hfresh : findOrigFunc s (s.cells c) = none)
    (ha : (env.detourAttach s.detours (s.cells c) r1).attachSuccessful = true)
    (hc : (env.detourAttach s.detours (s.cells c) r1).commitSuccessful = true)
    (c2 : Cell) (r2 : Nat)
    (htarget : (hookFunction env s c r1).cells c2 = s.cells c ∨
      ((hookFunction env s c r1).cells c2 = (env.detourAttach s.detours (s.cells c) r1).trampoline ∧
        ∀ i ∈ s.hookedFunctions, i.1 ≠ (env.detourAttach s.detours (s.cells c) r1).trampoline)) :
    hookFunction env (hookFunction env s c r1) c2 r2 =
      { hookFunction env s c r1 with
        cells := Function.update (hookFunction env s c r1).cells c2
          (env.detourAttach s.detours (s.cells c) r1).trampoline } := by
  have hs1 := @hookFunction_of_fresh env s c r1 hfresh ha hc
  set T := (env.detourAttach s.detours (s.cells c) r1).trampoline with hT
  set s1 := hookFunction env s c r1 with hs1def
  have hcells : s1.cells = Function.update s.cells c T := by rw [hs1]
  have hhooked : s1.hookedFunctions =
      emplace (s.cells c) ⟨(env.moduleFromAddress (s.cells c)).getD 0, c, r1⟩
        s.hookedFunctions := by rw [hs1]
  have hnew : ((s.cells c, ⟨(env.moduleFromAddress (s.cells c)).getD 0, c, r1⟩) :
      Nat × HookedFunctionInfo) ∈ s1.hookedFunctions := by
    rw [hhooked]
    exact mem_emplace_self (fun e he => ((findOrigFunc_none hfresh he).1).symm)
  have hnewOrig : s1.origOf (s.cells c, ⟨(env.moduleFromAddress (s.cells c)).getD 0, c, r1⟩)
      = T := by
    simp [State.origOf, hcells]
  obtain ⟨it, hit⟩ : ∃ it, findOrigFunc s1 (s1.cells c2) = some it := by
    refine findOrigFunc_isSome hnew ?_
    rcases htarget with h | ⟨h, _⟩
    · exact Or.inl h
    · exact Or.inr (by rw [hnewOrig]; exact h)
  have hitT : s1.origOf it = T := by
    obtain ⟨hmem, hmatch⟩ := findOrigFunc_some hit
    rw [hhooked] at hmem
    rcases mem_emplace hmem with heq | hold
    · rw [heq]; exact hnewOrig
    · have hno := findOrigFunc_none hfresh hold
      by_cases hcell : it.2.origFunction = c
      · simp [State.origOf, hcells, hcell]
      · have hsame : s1.origOf it = s.origOf it := by
          simp [State.origOf, hcells, Function.update_noteq hcell]
        rcases htarget with h | ⟨h, hkey⟩
        · rw [h] at hmatch
          rcases hmatch with hm | hm
          · exact absurd hm hno.1
          · rw [hsame] at hm; exact absurd hm hno.2
        · rw [h] at hmatch
          rcases hmatch with hm | hm
          · exact absurd hm.symm (hkey it hold)
          · exact hm.symm
  rw [hookFunction_of_found hit, hitT]

/-- C1: `installByAddress` on a known target is a no-op. Whenever the value of the caller's
cell equals the intercepted address or the stored original of some record, the call finds a
record `it` (the first such record in map order), leaves the map, the Detours log, the
memory and every other variable as they were, and puts the stored original of `it` into the
caller's cell; that stored original is itself unchanged. Consequently, after a first
successful install on a fresh target, an install through a cell holding the same target, or
holding the returned original (when that trampoline is not an intercepted address of an
earlier record), changes neither map nor log and yields the original of the first install. -/
theorem installByAddress_known_target_noop (env : Env) (s : State) (origFuncPtr : Cell)
    (newFuncPtr : Nat) :
    ((∃ i ∈ s.hookedFunctions, s.cells origFuncPtr = i.1 ∨ s.cells origFuncPtr = s.origOf i) →
      ∃ it ∈ s.hookedFunctions,
        findOrigFunc s (s.cells origFuncPtr) = some it ∧
        (s.cells origFuncPtr = it.1 ∨ s.cells origFuncPtr = s.origOf it) ∧
        (Compat.hookFunction env s origFuncPtr newFuncPtr).hookedFunctions = s.hookedFunctions ∧
        (Compat.hookFunction env s origFuncPtr newFuncPtr).hookedFunctions.length =
          s.hookedFunctions.length ∧
        (Compat.hookFunction env s origFuncPtr newFuncPtr).detours = s.detours ∧
        (Compat.hookFunction env s origFuncPtr newFuncPtr).cells origFuncPtr = s.origOf it ∧
        (Compat.hookFunction env s origFuncPtr newFuncPtr).origOf it = s.origOf it ∧
        (∀ c, c ≠ origFuncPtr →
          (Compat.hookFunction env s origFuncPtr newFuncPtr).cells c = s.cells c)) ∧
    (findOrigFunc s (s.cells origFuncPtr) = none →
      (env.detourAttach s.detours (s.cells origFuncPtr) newFuncPtr).attachSuccessful = true →
      (env.detourAttach s.detours (s.cells origFuncPtr) newFuncPtr).commitSuccessful = true →
      ∀ (c2 : Cell) (r2 : Nat),
        ((Compat.hookFunction env s origFuncPtr newFuncPtr).cells c2 = s.cells origFuncPtr ∨
          ((Compat.hookFunction env s origFuncPtr newFuncPtr).cells c2 =
              (Compat.hookFunction env s origFuncPtr newFuncPtr).cells origFuncPtr ∧
            ∀ i ∈ s.hookedFunctions,
              i.1 ≠ (Compat.hookFunction env s origFuncPtr newFuncPtr).cells origFuncPtr)) →
        (Compat.hookFunction env (Compat.hookFunction env s origFuncPtr newFuncPtr) c2
            r2).hookedFunctions =
          (Compat.hookFunction env s origFuncPtr newFuncPtr).hookedFunctions ∧
        (Compat.hookFunction env (Compat.hookFunction env s origFuncPtr newFuncPtr) c2
            r2).detours =
          (Compat.hookFunction env s origFuncPtr newFuncPtr).detours ∧
        (Compat.hookFunction env (Compat.hookFunction env s origFuncPtr newFuncPtr) c2
            r2).cells c2 =
          (Compat.hookFunction env s origFuncPtr newFuncPtr).cells origFuncPtr) := by
  unfold Compat.hookFunction
  constructor
  · rintro ⟨i, hi, hx⟩
    obtain ⟨it, hit⟩ := findOrigFunc_isSome hi hx
    obtain ⟨hmem, hmatch⟩ := findOrigFunc_some hit
    refine ⟨it, hmem, hit, hmatch, ?_⟩
    rw [hookFunction_of_found hit]
    refine ⟨rfl, rfl, rfl, by simp, ?_, fun c hc => by simp [Function.update_noteq hc]⟩
    by_cases hcell : it.2.origFunction = origFuncPtr
    · simp [State.origOf, hcell]
    · simp [State.origOf, Function.update_noteq hcell]
  · intro hfresh ha hc c2 r2 htarget
    have hT : (hookFunction env s origFuncPtr newFuncPtr).cells origFuncPtr =
        (env.detourAttach s.detours (s.cells origFuncPtr) newFuncPtr).trampoline := by
      rw [hookFunction_of_fresh hfresh ha hc]; simp
    rw [hT] at htarget ⊢
    rw [hookFunction_second_install hfresh ha hc c2 r2 htarget]
    exact ⟨rfl, rfl, by simp⟩

/-- Witness of C1. On the one-record state an install through client variable 1, which holds
the hooked address, keeps the map and yields the stored trampoline; and from an empty
registry, a second install through another variable holding the same target yields the
trampoline of the first install. -/
theorem installByAddress_known_target_noop_witness :
    (Compat.hookFunction demoEnv (oneHookState (memOfTables [] [] [])) (Cell.client 1)
        0x6000).hookedFunctions = [(0x12000, ⟨0x10000, Cell.client 0, 0x5000⟩)] ∧
      (Compat.hookFunction demoEnv (oneHookState (memOfTables [] [] [])) (Cell.client 1)
        0x6000).cells (Cell.client 1) = 0x1012000 ∧
      (Compat.hookFunction demoEnv
        (Compat.hookFunction demoEnv (twoClientsState (memOfTables [] [] [])) (Cell.client 0)
          0x5000) (Cell.client 1) 0x6000).cells (Cell.client 1) = 0x1012000 := by
  obtain ⟨it, _, hfind, _, hmap, _, _, hcell, _, _⟩ :=
    (installByAddress_known_target_noop demoEnv (oneHookState (memOfTables [] [] []))
      (Cell.client 1) 0x6000).1
      ⟨(0x12000, ⟨0x10000, Cell.client 0, 0x5000⟩), by decide, Or.inl (by decide)⟩
  have hit : it = (0x12000, ⟨0x10000, Cell.client 0, 0x5000⟩) := by
    have : findOrigFunc (oneHookState (memOfTables [] [] [])) 0x12000 =
        some (0x12000, ⟨0x10000, Cell.client 0, 0x5000⟩) := by decide
    have h2 : (oneHookState (memOfTables [] [] [])).cells (Cell.client 1) = 0x12000 := by decide
    rw [h2, this] at hfind
    exact (Option.some.inj hfind).symm
  have hsecond :=
    ((installByAddress_known_target_noop demoEnv (twoClientsState (memOfTables [] [] []))
      (Cell.client 0) 0x5000).2 (by decide) (by decide) (by decide) (Cell.client 1) 0x6000
      (Or.inl (by decide))).2.2
  refine ⟨hmap, ?_, ?_⟩
  · rw [hcell, hit]
    decide
  · rw [hsecond]
    decide

/-! ## Lemmas on `getProcAddress` -/

theorem strcmp_eq_zero {a b : CStr} : strcmp a b = 0 ↔ a = b := by
  unfold strcmp
  split_ifs with h <;> simp [h]

theorem getProcAddress_of_ret {env : Env} {mem : Mem} {module : Nat} {procName : ProcName}
    {r : Nat} (h : getProcAddressStep env mem module procName = Step.ret r) (fuel : Nat) :
    getProcAddress env mem fuel module procName = some r := by
  cases fuel <;> (unfold getProcAddress; rw [h])

theorem getProcAddress_of_call {env : Env} {mem : Mem} {module : Nat} {procName : ProcName}
    {m : Nat} {p : ProcName} (h : getProcAddressStep env mem module procName = Step.call m p)
    (fuel : Nat) :
    getProcAddress env mem (fuel + 1) module procName = getProcAddress env mem fuel m p := by
  conv_lhs => unfold getProcAddress
  rw [h]

theorem getProcAddress_zero_of_call {env : Env} {mem : Mem} {module : Nat}
    {procName : ProcName} {m : Nat} {p : ProcName}
    (h : getProcAddressStep env mem module procName = Step.call m p) :
    getProcAddress env mem 0 module procName = none := by
  unfold getProcAddress
  rw [h]

theorem scanNames_succ (mem : Mem) (v : ExportView) (s : CStr) (n : Nat) :
    scanNames mem v s (n + 1) =
      if strcmp s (nameAt mem v n) = 0 then functionAt mem v (nameOrdAt mem v n)
      else scanNames mem v s n := by
  unfold scanNames
  rw [List.range_succ, List.foldl_append]
  rfl

theorem scanNames_last (mem : Mem) (v : ExportView) (s : CStr) (i : Nat) :
    ∀ n, i < n → nameAt mem v i = s → (∀ j, i < j → j < n → nameAt mem v j ≠ s) →
      scanNames mem v s n = functionAt mem v (nameOrdAt mem v i) := by
  intro n
  induction n with
  | zero => intro h; omega
  | succ n ih =>
    intro hi hname hlast
    rw [scanNames_succ]
    by_cases hin : i = n
    · subst hin
      rw [if_pos (strcmp_eq_zero.2 hname.symm)]
    · have hlt : i < n := by omega
      have hne : nameAt mem v n ≠ s := hlast n hlt (Nat.lt_succ_self n)
      rw [if_neg (fun h => hne (strcmp_eq_zero.1 h).symm)]
      exact ih hlt hname (fun j h1 h2 => hlast j h1 (Nat.lt_succ_of_lt h2))

theorem scanNames_absent (mem : Mem) (v : ExportView) (s : CStr) :
    ∀ n, (∀ j, j < n → nameAt mem v j ≠ s) → scanNames mem v s n = 0 := by
  intro n
  induction n with
  | zero => intro _; rfl
  | succ n ih =>
    intro h
    rw [scanNames_succ, if_neg (fun hz => h n (Nat.lt_succ_self n) (strcmp_eq_zero.1 hz).symm)]
    exact ih (fun j hj => h j (Nat.lt_succ_of_lt hj))

theorem isForwarder_eq_false_of_outside {v : ExportView} {func : Nat}
    (h : func < v.exportDir ∨ v.exportDir + v.exportDirSize ≤ func) :
    isForwarder v func = false := by
  unfold isForwarder ptrAdd
  have hmod : (v.exportDir + v.exportDirSize) % 2 ^ 32 ≤ v.exportDir + v.exportDirSize :=
    Nat.mod_le _ _
  rcases h with h | h
  · have h1 : decide (v.exportDir ≤ func) = false := decide_eq_false (by omega)
    rw [h1]
    simp
  · have h2 : decide (func < (v.exportDir + v.exportDirSize) % 2 ^ 32) = false :=
      decide_eq_false (by omega)
    rw [h2]
    simp

theorem getProcAddressStep_name {env : Env} {mem : Mem} {module : Nat} {s : CStr}
    (hmodule : module ≠ 0) (hheader : getImageNtHeaders mem module ≠ 0) :
    getProcAddressStep env mem module (ProcName.name s) =
      if isForwarder (exportView mem module (getImageNtHeaders mem module))
          (scanNames mem (exportView mem module (getImageNtHeaders mem module)) s
            (exportView mem module (getImageNtHeaders mem module)).numberOfNames) = true
      then forward env (mem.str
          (scanNames mem (exportView mem module (getImageNtHeaders mem module)) s
            (exportView mem module (getImageNtHeaders mem module)).numberOfNames))
      else Step.ret
          (scanNames mem (exportView mem module (getImageNtHeaders mem module)) s
            (exportView mem module (getImageNtHeaders mem module)).numberOfNames) := by
  simp [getProcAddressStep, hmodule, hheader, ProcName.isNull, lookupExport]

/-! ## The code with dereferences against the values it reads -/

theorem bytesMapped_false_exists {m : Mem} {a n : Nat} (h : ¬ m.bytesMapped a n = true) :
    ∃ b, m.mapped b = false := by
  unfold Mem.bytesMapped at h
  rw [List.all_eq_true] at h
  push_neg at h
  obtain ⟨i, _, hi⟩ := h
  exact ⟨ptrAdd a i, by simpa using hi⟩

theorem readWord_refines (m : Mem) (a : Nat) : Outcome.Refines m (m.readWord a) (m.word a) := by
  unfold Mem.readWord Outcome.Refines
  split_ifs with h
  · exact Or.inr rfl
  · exact Or.inl ⟨rfl, bytesMapped_false_exists h⟩

theorem readDword_refines (m : Mem) (a : Nat) :
    Outcome.Refines m (m.readDword a) (m.dword a) := by
  unfold Mem.readDword Outcome.Refines
  split_ifs with h
  · exact Or.inr rfl
  · exact Or.inl ⟨rfl, bytesMapped_false_exists h⟩

theorem readStr_refines (m : Mem) (a n : Nat) : Outcome.Refines m (m.readStr a n) (m.str a) := by
  unfold Mem.readStr Outcome.Refines
  split_ifs with h
  · exact Or.inr rfl
  · exact Or.inl ⟨rfl, bytesMapped_false_exists h⟩

theorem refines_done {α : Type} (m : Mem) (v : α) : Outcome.Refines m (Outcome.done v) v :=
  Or.inr rfl

theorem refines_bind {α β : Type} {m : Mem} {x : Outcome α} {v : α} {f : α → Outcome β}
    {w : β} (hx : Outcome.Refines m x v) (hf : Outcome.Refines m (f v) w) :
    Outcome.Refines m (x.bind f) w := by
  rcases hx with ⟨hx, hb⟩ | hx
  · exact Or.inl ⟨by rw [hx]; rfl, hb⟩
  · rw [hx]
    exact hf

theorem getImageNtHeadersFaulting_refines (mem : Mem) (module : Nat) :
    Outcome.Refines mem (getImageNtHeadersFaulting mem module)
      (getImageNtHeaders mem module) := by
  unfold getImageNtHeadersFaulting getImageNtHeaders
  refine refines_bind (readWord_refines mem module) ?_
  simp only
  by_cases h1 : IMAGE_DOS_SIGNATURE ≠ mem.word module
  · rw [if_pos h1, if_pos h1]
    exact refines_done mem 0
  · rw [if_neg h1, if_neg h1]
    refine refines_bind (readDword_refines mem _) ?_
    refine refines_bind (readDword_refines mem _) ?_
    by_cases h2 : IMAGE_NT_SIGNATURE ≠
        mem.dword (ptrAdd module (mem.dword (ptrAdd module OFF_e_lfanew)))
    · rw [if_pos h2, if_pos h2]
      exact refines_done mem 0
    · rw [if_neg h2, if_neg h2]
      exact refines_done mem _

theorem exportViewFaulting_refines (mem : Mem) (module ntHeaders : Nat) :
    Outcome.Refines mem (exportViewFaulting mem module ntHeaders)
      (exportView mem module ntHeaders) := by
  unfold exportViewFaulting
  refine refines_bind (readDword_refines mem _) ?_
  refine refines_bind (readDword_refines mem _) ?_
  refine refines_bind (readDword_refines mem _) ?_
  refine refines_bind (readDword_refines mem _) ?_
  refine refines_bind (readDword_refines mem _) ?_
  exact refines_done mem _

theorem scanNamesFaulting_refines (mem : Mem) (v : ExportView) (procName : CStr) (n : Nat) :
    Outcome.Refines mem (scanNamesFaulting mem v procName n) (scanNames mem v procName n) := by
  induction n with
  | zero => exact Or.inr rfl
  | succ n ih =>
    have hF : scanNamesFaulting mem v procName (n + 1) =
        (scanNamesFaulting mem v procName n).bind fun func =>
          (mem.readDword (ptrAdd v.rvaOfNames (4 * n))).bind fun rva =>
            (mem.readStr (ptrAdd v.moduleBase rva)
                (strcmpReads procName (mem.str (ptrAdd v.moduleBase rva)))).bind fun name =>
              if strcmp procName name = 0 then
                (mem.readWord (ptrAdd v.nameOrds (2 * n))).bind fun ord =>
                  (mem.readDword (ptrAdd v.rvaOfFunctions (4 * ord))).bind fun rvaOfFunction =>
                    Outcome.done (ptrAdd v.moduleBase rvaOfFunction)
              else Outcome.done func := by
      unfold scanNamesFaulting
      rw [List.range_succ, List.foldl_append]
      rfl
    rw [hF, scanNames_succ]
    refine refines_bind ih ?_
    refine refines_bind (readDword_refines mem _) ?_
    refine refines_bind (readStr_refines mem _ _) ?_
    show Outcome.Refines mem
      (if strcmp procName (nameAt mem v n) = 0 then _ else _) _
    split_ifs with h
    · refine refines_bind (readWord_refines mem _) ?_
      refine refines_bind (readDword_refines mem _) ?_
      exact refines_done mem _
    · exact refines_done mem _

theorem lookupExportFaulting_refines (mem : Mem) (module ntHeaders : Nat) (procName : ProcName) :
    Outcome.Refines mem
      (lookupExportFaulting mem (exportView mem module ntHeaders) procName)
      (lookupExport mem (exportView mem module ntHeaders) procName) := by
  cases procName with
  | ord n =>
    unfold lookupExportFaulting lookupExport
    refine refines_bind (readDword_refines mem _) ?_
    simp only
    by_cases h1 : n % 2 ^ 16 < mem.dword (ptrAdd (exportView mem module ntHeaders).exportDir 16)
    · have hrej : ordinalRejected (exportView mem module ntHeaders).base
          (exportView mem module ntHeaders).numberOfFunctions (n % 2 ^ 16) = true := by
        unfold ordinalRejected
        have : n % 2 ^ 16 < (exportView mem module ntHeaders).base := h1
        simp only [this, decide_True, Bool.true_or]
      rw [if_pos h1, if_pos hrej]
      exact refines_done mem _
    · rw [if_neg h1]
      refine refines_bind (readDword_refines mem _) ?_
      by_cases h2 : (mem.dword (ptrAdd (exportView mem module ntHeaders).exportDir 16) +
          mem.dword (ptrAdd (exportView mem module ntHeaders).exportDir 20)) % 2 ^ 32 ≤
          n % 2 ^ 16
      · have hrej : ordinalRejected (exportView mem module ntHeaders).base
            (exportView mem module ntHeaders).numberOfFunctions (n % 2 ^ 16) = true := by
          unfold ordinalRejected
          have : ((exportView mem module ntHeaders).base +
              (exportView mem module ntHeaders).numberOfFunctions) % 2 ^ 32 ≤ n % 2 ^ 16 := h2
          simp only [this, decide_True, Bool.or_true]
        rw [if_pos h2, if_pos hrej]
        exact refines_done mem _
      · have hrej : ¬ ordinalRejected (exportView mem module ntHeaders).base
            (exportView mem module ntHeaders).numberOfFunctions (n % 2 ^ 16) = true := by
          unfold ordinalRejected
          have ha : ¬ n % 2 ^ 16 < (exportView mem module ntHeaders).base := h1
          have hb : ¬ ((exportView mem module ntHeaders).base +
              (exportView mem module ntHeaders).numberOfFunctions) % 2 ^ 32 ≤ n % 2 ^ 16 := h2
          simp only [ha, hb, decide_False, Bool.or_false, Bool.false_eq_true, not_false_eq_true]
        rw [if_neg h2, if_neg hrej]
        refine refines_bind (readDword_refines mem _) ?_
        exact refines_done mem _
  | name s =>
    unfold lookupExportFaulting lookupExport
    refine refines_bind (readDword_refines mem _) ?_
    refine refines_bind (scanNamesFaulting_refines mem _ s _) ?_
    exact refines_done mem _

theorem getProcAddressStepFaulting_refines (env : Env) (mem : Mem) (module : Nat)
    (procName : ProcName) :
    Outcome.Refines mem (getProcAddressStepFaulting env mem module procName)
      (getProcAddressStep env mem module procName) := by
  unfold getProcAddressStepFaulting getProcAddressStep
  by_cases h0 : module = 0 ∨ procName.isNull = true
  · rw [if_pos h0, if_pos h0]
    exact refines_done mem _
  · rw [if_neg h0, if_neg h0]
    refine refines_bind (getImageNtHeadersFaulting_refines mem module) ?_
    simp only
    by_cases hn : getImageNtHeaders mem module = 0
    · rw [if_pos hn, if_pos hn]
      exact refines_done mem _
    · rw [if_neg hn, if_neg hn]
      refine refines_bind (exportViewFaulting_refines mem module _) ?_
      refine refines_bind (lookupExportFaulting_refines mem module _ procName) ?_
      cases lookupExport mem (exportView mem module (getImageNtHeaders mem module)) procName with
      | none => exact refines_done mem _
      | some func =>
        simp only
        by_cases hf : isForwarder (exportView mem module (getImageNtHeaders mem module)) func
            = true
        · rw [if_pos hf, if_pos hf]
          refine refines_bind (readStr_refines mem _ _) ?_
          exact refines_done mem _
        · rw [if_neg hf, if_neg hf]
          exact refines_done mem _

theorem getProcAddressFaulting_refines (env : Env) (mem : Mem) :
    ∀ fuel module procName,
      Outcome.RefinesFuel mem (getProcAddressFaulting env mem fuel module procName)
        (getProcAddress env mem fuel module procName) := by
  intro fuel
  induction fuel with
  | zero =>
    intro module procName
    unfold getProcAddressFaulting getProcAddress Outcome.RefinesFuel
    rcases getProcAddressStepFaulting_refines env mem module procName with ⟨hx, hb⟩ | hx
    · rw [hx]
      exact Or.inl ⟨rfl, hb⟩
    · rw [hx]
      cases getProcAddressStep env mem module procName <;> exact Or.inr rfl
  | succ n ih =>
    intro module procName
    unfold getProcAddressFaulting getProcAddress
    rcases getProcAddressStepFaulting_refines env mem module procName with ⟨hx, hb⟩ | hx
    · rw [hx]
      exact Or.inl ⟨rfl, hb⟩
    · rw [hx]
      cases getProcAddressStep env mem module procName with
      | ret r => exact Or.inr rfl
      | call m p => exact ih m p

theorem findThunkFaulting_refines (mem : Mem) (moduleBase : Nat) (procName : CStr) :
    ∀ fuel thunk origThunk,
      Outcome.RefinesFuel mem (findThunkFaulting mem moduleBase procName fuel thunk origThunk)
        (findThunk mem moduleBase procName fuel thunk origThunk) := by
  intro fuel
  induction fuel with
  | zero =>
    intro thunk origThunk
    exact Or.inr rfl
  | succ n ih =>
    intro thunk origThunk
    unfold findThunkFaulting findThunk
    rcases readDword_refines mem thunk with ⟨hx, hb⟩ | hx
    · rw [hx]
      exact Or.inl ⟨rfl, hb⟩
    rw [hx]
    simp only
    by_cases h1 : 0 ≠ mem.dword thunk
    · rw [if_pos h1]
      rcases readDword_refines mem origThunk with ⟨hy, hb⟩ | hy
      · rw [hy]
        exact Or.inl ⟨rfl, hb⟩
      rw [hy]
      simp only
      by_cases h2 : 0 ≠ mem.dword origThunk
      · rw [if_pos h2, if_pos ⟨h1, h2⟩]
        rcases readStr_refines mem (ptrAdd (ptrAdd moduleBase (mem.dword origThunk)) 2)
          (strcmpReads (mem.str (ptrAdd (ptrAdd moduleBase (mem.dword origThunk)) 2)) procName)
          with ⟨hz, hb⟩ | hz
        · rw [hz]
          exact Or.inl ⟨rfl, hb⟩
        rw [hz]
        simp only
        by_cases h3 : strcmp (mem.str (ptrAdd (ptrAdd moduleBase (mem.dword origThunk)) 2))
            procName = 0
        · rw [if_pos h3, if_pos h3]
          exact Or.inr rfl
        · rw [if_neg h3, if_neg h3]
          exact ih _ _
      · rw [if_neg h2, if_neg (fun h => h2 h.2)]
        exact Or.inr rfl
    · rw [if_neg h1, if_neg (fun h => h1 h.1)]
      exact Or.inr rfl

theorem findDescFaulting_refines (mem : Mem) (moduleBase : Nat) (im procName : CStr)
    (thunkFuel : Nat) :
    ∀ fuel desc,
      Outcome.RefinesFuel mem
        (findDescFaulting mem moduleBase im procName thunkFuel fuel desc)
        (findDesc mem moduleBase im procName thunkFuel fuel desc) := by
  intro fuel
  induction fuel with
  | zero =>
    intro desc
    exact Or.inr rfl
  | succ n ih =>
    intro desc
    unfold findDescFaulting findDesc
    rcases readDword_refines mem desc with ⟨hx, hb⟩ | hx
    · rw [hx]
      exact Or.inl ⟨rfl, hb⟩
    rw [hx]
    simp only
    by_cases h1 : 0 ≠ mem.dword desc
    · rw [if_pos h1]
      rcases readDword_refines mem (ptrAdd desc 12) with ⟨hy, hb⟩ | hy
      · rw [hy]
        exact Or.inl ⟨rfl, hb⟩
      rw [hy]
      simp only
      by_cases h2 : 0xFFFF ≠ mem.dword (ptrAdd desc 12)
      · have hc : descContinues mem desc = true := by
          unfold descContinues
          simp only [h1, h2, ne_eq, not_false_eq_true, decide_True, Bool.and_self]
        rw [if_pos h2, if_pos hc]
        rcases readStr_refines mem (ptrAdd moduleBase (mem.dword (ptrAdd desc 12)))
          (stricmpReads (mem.str (ptrAdd moduleBase (mem.dword (ptrAdd desc 12)))) im)
          with ⟨hz, hb⟩ | hz
        · rw [hz]
          exact Or.inl ⟨rfl, hb⟩
        rw [hz]
        simp only
        by_cases h3 : 0 ≠ stricmp (mem.str (ptrAdd moduleBase (mem.dword (ptrAdd desc 12)))) im
        · have h3' : 0 ≠ stricmp (descName mem moduleBase desc) im := h3
          rw [if_pos h3, if_pos h3']
          exact ih _
        · have h3' : ¬ 0 ≠ stricmp (descName mem moduleBase desc) im := h3
          rw [if_neg h3, if_neg h3']
          rcases readDword_refines mem (ptrAdd desc 16) with ⟨hw, hb⟩ | hw
          · rw [hw]
            exact Or.inl ⟨rfl, hb⟩
          rw [hw]
          exact findThunkFaulting_refines mem moduleBase procName thunkFuel _ _
      · have hc : ¬ descContinues mem desc = true := by
          unfold descContinues
          simp only [h2, decide_False, Bool.and_false, Bool.false_eq_true, not_false_eq_true]
        rw [if_neg h2, if_neg hc]
        exact Or.inr rfl
    · have hc : ¬ descContinues mem desc = true := by
        unfold descContinues
        simp only [h1, decide_False, Bool.false_and, Bool.false_eq_true, not_false_eq_true]
      rw [if_neg h1, if_neg hc]
      exact Or.inr rfl

theorem findProcAddressInIatFaulting_refines (fuel : Nat) (mem : Mem) (module : Nat)
    (importedModuleName procName : Option CStr) :
    Outcome.RefinesFuel mem
      (Compat.findProcAddressInIatFaulting fuel mem module importedModuleName procName)
      (Compat.findProcAddressInIat fuel mem module importedModuleName procName) := by
  unfold Compat.findProcAddressInIatFaulting Compat.findProcAddressInIat
  cases importedModuleName with
  | none => exact Or.inr rfl
  | some im =>
    cases procName with
    | none => exact Or.inr rfl
    | some name =>
      simp only
      by_cases hm : module = 0
      · rw [if_pos hm, if_pos hm]
        exact Or.inr rfl
      rw [if_neg hm, if_neg hm]
      rcases getImageNtHeadersFaulting_refines mem module with ⟨hx, hb⟩ | hx
      · rw [hx]
        exact Or.inl ⟨rfl, hb⟩
      rw [hx]
      simp only
      by_cases hn : getImageNtHeaders mem module = 0
      · rw [if_pos hn, if_pos hn]
        exact Or.inr rfl
      rw [if_neg hn, if_neg hn]
      rcases readDword_refines mem (ptrAdd (getImageNtHeaders mem module) OFF_importDirectory)
        with ⟨hy, hb⟩ | hy
      · rw [hy]
        exact Or.inl ⟨rfl, hb⟩
      rw [hy]
      exact findDescFaulting_refines mem module im name fuel fuel _

/-! ## C2: resolving a real export by name -/

theorem getProcAddress_name_of_view (env : Env) (mem : Mem) (fuel : Nat) (module : Nat)
    (name : CStr) (hmodule : module ≠ 0) (hheader : getImageNtHeaders mem module ≠ 0) :
    (∀ i, i < (exportView mem module (getImageNtHeaders mem module)).numberOfNames →
      nameAt mem (exportView mem module (getImageNtHeaders mem module)) i = name →
      (∀ j, i < j → j < (exportView mem module (getImageNtHeaders mem module)).numberOfNames →
        nameAt mem (exportView mem module (getImageNtHeaders mem module)) j ≠ name) →
      ((module + mem.dword (ptrAdd
            (exportView mem module (getImageNtHeaders mem module)).rvaOfFunctions
            (4 * nameOrdAt mem (exportView mem module (getImageNtHeaders mem module)) i)))
          % 2 ^ 32 < (exportView mem module (getImageNtHeaders mem module)).exportDir ∨
        (exportView mem module (getImageNtHeaders mem module)).exportDir +
            (exportView mem module (getImageNtHeaders mem module)).exportDirSize ≤
          (module + mem.dword (ptrAdd
            (exportView mem module (getImageNtHeaders mem module)).rvaOfFunctions
            (4 * nameOrdAt mem (exportView mem module (getImageNtHeaders mem module)) i)))
          % 2 ^ 32) →
      getProcAddress env mem fuel module (ProcName.name name) =
        some ((module + mem.dword (ptrAdd
            (exportView mem module (getImageNtHeaders mem module)).rvaOfFunctions
            (4 * nameOrdAt mem (exportView mem module (getImageNtHeaders mem module)) i)))
          % 2 ^ 32)) ∧
    ((∀ j, j < (exportView mem module (getImageNtHeaders mem module)).numberOfNames →
        nameAt mem (exportView mem module (getImageNtHeaders mem module)) j ≠ name) →
      getProcAddress env mem fuel module (ProcName.name name) = some 0) := by
  constructor
  · intro i hi hname hlast hreal
    have hscan := scanNames_last mem _ name i _ hi hname hlast
    have hfwd := isForwarder_eq_false_of_outside
      (v := exportView mem module (getImageNtHeaders mem module)) hreal
    apply getProcAddress_of_ret
    rw [getProcAddressStep_name hmodule hheader, hscan]
    have hfa : functionAt mem (exportView mem module (getImageNtHeaders mem module))
        (nameOrdAt mem (exportView mem module (getImageNtHeaders mem module)) i) =
        (module + mem.dword (ptrAdd
            (exportView mem module (getImageNtHeaders mem module)).rvaOfFunctions
            (4 * nameOrdAt mem (exportView mem module (getImageNtHeaders mem module)) i)))
          % 2 ^ 32 := rfl
    rw [hfa, hfwd]
    simp
  · intro habsent
    have hscan := scanNames_absent mem _ name _ habsent
    apply getProcAddress_of_ret
    rw [getProcAddressStep_name hmodule hheader, hscan]
    simp [isForwarder]

/-- C2: for a module with a valid header (the `WORD` at the module start is "MZ" and the
`DWORD` at the non-null address `nt` that `e_lfanew` declares is "PE\0\0"), with `exportDir`,
`functions`, `names` and `nameOrds` the addresses that the export data-directory entry and
the export directory give for the directory and its three tables: if index `i` is the last
index of the name table whose name is exactly `name`, and module base plus the relative
address stored in the function table at index `nameOrds[i]` lies outside the byte range of
the export directory, then `resolve(module, name)` returns that address (a 32-bit pointer
sum), with any fuel; and when no entry of the name table is exactly `name`, the result is
NotFound. The tables are read from memory as the statement spells out: `names[i]` is the
`DWORD` at `names + 4 * i`, `nameOrds[i]` the `WORD` at `nameOrds + 2 * i`, and the entry of
the function table the `DWORD` at `functions + 4 * nameOrds[i]`. -/
theorem getProcAddress_name_last_match (env : Env) (mem : Mem) (fuel : Nat) (module : Nat)
    (name : CStr) (nt exportDir functions names nameOrds : Nat)
    (hmodule : module ≠ 0)
    (hdos : mem.word module = 0x5A4D)
    (hnt : nt = ptrAdd module (mem.dword (ptrAdd module 0x3C)))
    (hntNotNull : nt ≠ 0)
    (hsignature : mem.dword nt = 0x4550)
    (hexportDir : exportDir = ptrAdd module (mem.dword (ptrAdd nt 0x78)))
    (hfunctions : functions = ptrAdd module (mem.dword (ptrAdd exportDir 28)))
    (hnames : names = ptrAdd module (mem.dword (ptrAdd exportDir 32)))
    (hnameOrds : nameOrds = ptrAdd module (mem.dword (ptrAdd exportDir 36))) :
    (∀ i, i < mem.dword (ptrAdd exportDir 24) →
      mem.str (ptrAdd module (mem.dword (ptrAdd names (4 * i)))) = name →
      (∀ j, i < j → j < mem.dword (ptrAdd exportDir 24) →
        mem.str (ptrAdd module (mem.dword (ptrAdd names (4 * j)))) ≠ name) →
      ((module + mem.dword (ptrAdd functions (4 * mem.word (ptrAdd nameOrds (2 * i)))))
          % 2 ^ 32 < exportDir ∨
        exportDir + mem.dword (ptrAdd nt 0x7C) ≤
          (module + mem.dword (ptrAdd functions (4 * mem.word (ptrAdd nameOrds (2 * i)))))
            % 2 ^ 32) →
      getProcAddress env mem fuel module (ProcName.name name) =
        some ((module + mem.dword (ptrAdd functions (4 * mem.word (ptrAdd nameOrds (2 * i)))))
          % 2 ^ 32)) ∧
    ((∀ j, j < mem.dword (ptrAdd exportDir 24) →
        mem.str (ptrAdd module (mem.dword (ptrAdd names (4 * j)))) ≠ name) →
      getProcAddress env mem fuel module (ProcName.name name) = some 0) := by
  have hheader : getImageNtHeaders mem module = nt := by
    unfold getImageNtHeaders
    have h1 : ¬ IMAGE_DOS_SIGNATURE ≠ mem.word module := by
      rw [hdos]; exact fun h => h rfl
    have h2 : ¬ IMAGE_NT_SIGNATURE ≠
        mem.dword (ptrAdd module (mem.dword (ptrAdd module OFF_e_lfanew))) := by
      have : ptrAdd module (mem.dword (ptrAdd module OFF_e_lfanew)) = nt := hnt.symm
      rw [this, hsignature]; exact fun h => h rfl
    simp only [if_neg h1, if_neg h2]
    exact hnt.symm
  have hheader' : getImageNtHeaders mem module ≠ 0 := by rw [hheader]; exact hntNotNull
  have hview := getProcAddress_name_of_view env mem fuel module name hmodule hheader'
  rw [hheader] at hview
  subst hexportDir hfunctions hnames hnameOrds
  exact hview

/-- Witness of C2 on `permutedOrdMem`, whose name ordinals are 2, 0, 1: the name "F" occurs
at indices 0 and 2, the last one has name ordinal 1, and the entry 1 of the function table
is returned (`0x12100`, not the entry 2 that the index itself designates); "G" at index 1 has
name ordinal 0 and gives `0x12000`; the name "f" is not matched. -/
theorem getProcAddress_name_last_match_witness :
    getProcAddress demoEnv permutedOrdMem 0 0x10000 (ProcName.name [70]) = some 0x12100 ∧
      getProcAddress demoEnv permutedOrdMem 0 0x10000 (ProcName.name [71]) = some 0x12000 ∧
      getProcAddress demoEnv permutedOrdMem 0 0x10000 (ProcName.name [102]) = some 0 := by
  have hn : permutedOrdMem.dword (ptrAdd 0x11000 24) = 3 := by decide
  have h := getProcAddress_name_last_match demoEnv permutedOrdMem 0 0x10000 [70]
    0x10080 0x11000 0x11100 0x11200 0x11300
    (by decide) (by decide) (by decide) (by decide) (by decide) (by decide) (by decide)
    (by decide) (by decide)
  have hG := getProcAddress_name_last_match demoEnv permutedOrdMem 0 0x10000 [71]
    0x10080 0x11000 0x11100 0x11200 0x11300
    (by decide) (by decide) (by decide) (by decide) (by decide) (by decide) (by decide)
    (by decide) (by decide)
  have hf := getProcAddress_name_last_match demoEnv permutedOrdMem 0 0x10000 [102]
    0x10080 0x11000 0x11100 0x11200 0x11300
    (by decide) (by decide) (by decide) (by decide) (by decide) (by decide) (by decide)
    (by decide) (by decide)
  refine ⟨?_, ?_, ?_⟩
  · rw [h.1 2 (by decide) (by decide) (fun j h1 h2 => by rw [hn] at h2; omega)
      (Or.inr (by decide))]
    decide
  · rw [hG.1 1 (by decide) (by decide)
      (fun j h1 h2 => by
        rw [hn] at h2
        have hj : j = 2 := by omega
        subst hj
        decide)
      (Or.inr (by decide))]
    decide
  · exact hf.2 (fun j hj => by rw [hn] at hj; interval_cases j <;> decide)

/-! ## C3: forwarder chains -/

theorem getProcAddressStep_of_forwarderText {env : Env} {mem : Mem} {module : Nat}
    {procName : ProcName} {text : CStr} (h : forwarderText mem module procName = some text) :
    getProcAddressStep env mem module procName = forward env text := by
  unfold forwarderText at h
  unfold getProcAddressStep
  split_ifs at h with h1 h2
  rw [if_neg h1]
  simp only [h2, if_false]
  cases hl : lookupExport mem (exportView mem module (getImageNtHeaders mem module)) procName with
  | none => rw [hl] at h; cases h
  | some func =>
    rw [hl] at h
    simp only at h ⊢
    split_ifs at h with h3
    rw [if_pos h3]
    exact congrArg (forward env) (Option.some.inj h)

theorem findFirstOf_append (c : Nat) (m rest : CStr) (hm : c ∉ m) :
    findFirstOf c (m ++ c :: rest) = some m.length := by
  induction m with
  | nil => simp [findFirstOf]
  | cons x xs ih =>
    have hx : x ≠ c := fun h => hm (h ▸ List.mem_cons_self _ _)
    have hxs : c ∉ xs := fun h => hm (List.mem_cons_of_mem _ h)
    simp [findFirstOf, hx, ih hxs]

theorem forward_name (env : Env) (m s : CStr) (hm : 46 ∉ m) (hs : s.head? ≠ some 35) :
    forward env (m ++ 46 :: s) = Step.call (env.getModuleHandle m) (ProcName.name s) := by
  unfold forward
  have hdrop : List.drop (m.length + 1) (m ++ 46 :: s) = s := by
    rw [List.drop_append_eq_append_drop]
    simp
  have htake : List.take m.length (m ++ 46 :: s) = m := by simp
  rw [findFirstOf_append 46 m s hm]
  simp only [hdrop, htake]
  rw [if_neg hs]

theorem getProcAddressStep_of_zero_fuel {env : Env} {mem : Mem} {module : Nat}
    {procName : ProcName} {r : Nat} (h : getProcAddress env mem 0 module procName = some r) :
    getProcAddressStep env mem module procName = Step.ret r := by
  unfold getProcAddress at h
  cases hs : getProcAddressStep env mem module procName with
  | ret r' => rw [hs] at h; exact congrArg Step.ret (Option.some.inj h)
  | call m p => rw [hs] at h; cases h

/-- C3: forwarder chains resolve transitively. In general, when the address found for an
export lies inside the export directory and the string there is `m ++ "." ++ s` (`m` without
a dot, `s` not starting with `#`), `resolve` of that export is, one hop later, `resolve` of
`s` in the module that `GetModuleHandle` gives for `m`. For a chain `a.F -> b.F -> c.F`
where `c` answers for `F` without forwarding, `resolve(a, F)`, `resolve(b, F)` and
`resolve(c, F)` all return the same result as soon as the fuel allows two hops. -/
theorem getProcAddress_forwarder_chain (env : Env) (mem : Mem) :
    (∀ (module : Nat) (procName : ProcName) (m s : CStr) (fuel : Nat),
      forwarderText mem module procName = some (m ++ 46 :: s) → 46 ∉ m → s.head? ≠ some 35 →
      getProcAddress env mem (fuel + 1) module procName =
        getProcAddress env mem fuel (env.getModuleHandle m) (ProcName.name s)) ∧
    (∀ (a b c : Nat) (mb mc f : CStr) (r fuel : Nat),
      forwarderText mem a (ProcName.name f) = some (mb ++ 46 :: f) → 46 ∉ mb →
      env.getModuleHandle mb = b →
      forwarderText mem b (ProcName.name f) = some (mc ++ 46 :: f) → 46 ∉ mc →
      env.getModuleHandle mc = c →
      f.head? ≠ some 35 →
      getProcAddress env mem 0 c (ProcName.name f) = some r →
      2 ≤ fuel →
      getProcAddress env mem fuel a (ProcName.name f) = some r ∧
        getProcAddress env mem fuel b (ProcName.name f) = some r ∧
        getProcAddress env mem fuel c (ProcName.name f) = some r) := by
  have hgen : ∀ (module : Nat) (procName : ProcName) (m s : CStr) (fuel : Nat),
      forwarderText mem module procName = some (m ++ 46 :: s) → 46 ∉ m → s.head? ≠ some 35 →
      getProcAddress env mem (fuel + 1) module procName =
        getProcAddress env mem fuel (env.getModuleHandle m) (ProcName.name s) := by
    intro module procName m s fuel htext hm hs
    have hstep : getProcAddressStep env mem module procName =
        Step.call (env.getModuleHandle m) (ProcName.name s) := by
      rw [getProcAddressStep_of_forwarderText htext, forward_name env m s hm hs]
    exact getProcAddress_of_call hstep fuel
  refine ⟨hgen, ?_⟩
  intro a b c mb mc f r fuel ha hmb hb' hb hmc hc' hf hc hfuel
  have hcAll : ∀ n, getProcAddress env mem n c (ProcName.name f) = some r :=
    fun n => getProcAddress_of_ret (getProcAddressStep_of_zero_fuel hc) n
  have hbAll : ∀ n, getProcAddress env mem (n + 1) b (ProcName.name f) = some r := by
    intro n
    rw [hgen b (ProcName.name f) mc f n hb hmc hf, hc', hcAll]
  have haAll : ∀ n, getProcAddress env mem (n + 2) a (ProcName.name f) = some r := by
    intro n
    rw [hgen a (ProcName.name f) mb f (n + 1) ha hmb hf, hb', hbAll]
  obtain ⟨n, rfl⟩ : ∃ n, fuel = n + 2 := ⟨fuel - 2, by omega⟩
  exact ⟨haAll n, hbAll (n + 1), hcAll (n + 2)⟩

/-- Witness of C3 on `demoMem`: `A.G` forwards to "B.G", `B.G` forwards to "C.G", and `C.G`
is code at `0x33100`. -/
theorem getProcAddress_forwarder_chain_witness :
    getProcAddress demoEnv demoMem 2 0x10000 (ProcName.name [71]) = some 0x33100 ∧
      getProcAddress demoEnv demoMem 2 0x20000 (ProcName.name [71]) = some 0x33100 ∧
      getProcAddress demoEnv demoMem 2 0x30000 (ProcName.name [71]) = some 0x33100 ∧
      getProcAddress demoEnv demoMem 1 0x10000 (ProcName.name [71]) =
        getProcAddress demoEnv demoMem 0 (demoEnv.getModuleHandle [66]) (ProcName.name [71]) :=
  ⟨((getProcAddress_forwarder_chain demoEnv demoMem).2 0x10000 0x20000 0x30000 [66] [67] [71]
      0x33100 2 (by decide) (by decide) (by decide) (by decide) (by decide) (by decide)
      (by decide) (by decide) (by decide)).1,
    ((getProcAddress_forwarder_chain demoEnv demoMem).2 0x10000 0x20000 0x30000 [66] [67] [71]
      0x33100 2 (by decide) (by decide) (by decide) (by decide) (by decide) (by decide)
      (by decide) (by decide) (by decide)).2.1,
    ((getProcAddress_forwarder_chain demoEnv demoMem).2 0x10000 0x20000 0x30000 [66] [67] [71]
      0x33100 2 (by decide) (by decide) (by decide) (by decide) (by decide) (by decide)
      (by decide) (by decide) (by decide)).2.2,
    (getProcAddress_forwarder_chain demoEnv demoMem).1 0x10000 (ProcName.name [71]) [66] [71] 0
      (by decide) (by decide) (by decide)⟩

/-! ## C4: the ordinal range check -/

theorem ordinalRejected_of_outside {base count ord : Nat} (hord : ord < 2 ^ 16)
    (h : ord < base ∨ base + count ≤ ord) : ordinalRejected base count ord = true := by
  unfold ordinalRejected
  rcases h with h | h
  · simp [h]
  · have hsmall : base + count < 2 ^ 32 := by omega
    have : (base + count) % 2 ^ 32 ≤ ord := by
      rw [Nat.mod_eq_of_lt hsmall]; exact h
    rw [decide_eq_true this]
    simp

theorem index_lt_of_not_rejected {base count ord : Nat} (hcount : count < 2 ^ 32)
    (h : ordinalRejected base count ord = false) : base ≤ ord ∧ ord - base < count := by
  unfold ordinalRejected at h
  simp only [Bool.or_eq_false_iff, decide_eq_false_iff_not, not_lt, not_le] at h
  obtain ⟨h1, h2⟩ := h
  have h3 : (base + count) % 2 ^ 32 = base + count ∨
      (base + count) % 2 ^ 32 + 2 ^ 32 ≤ base + count := by
    by_cases hlt : base + count < 2 ^ 32
    · exact Or.inl (Nat.mod_eq_of_lt hlt)
    · right
      have := Nat.mod_add_div (base + count) (2 ^ 32)
      have hdiv : 1 ≤ (base + count) / 2 ^ 32 := by
        apply (Nat.one_le_div_iff (by norm_num)).2
        omega
      nlinarith
  omega

/-- C4: ordinal lookup rejects out-of-range ordinals. For a 16-bit ordinal that is below
the export base, or at least base plus count as unbounded integers, the range check of
line 243 (whose sum is a 32-bit sum) rejects, the lookup leaves before the function table
is indexed (`lookupExport` is `none`) and `resolve` returns NotFound; and whenever 32-bit
base and count pass the check, the table index `ord - base` is below the count. -/
theorem getProcAddress_ordinal_range (env : Env) (mem : Mem) (fuel module : Nat) :
    (∀ base count ord : Nat, base < 2 ^ 32 → count < 2 ^ 32 → ord < 2 ^ 16 →
      (ord < base ∨ base + count ≤ ord) → ordinalRejected base count ord = true) ∧
    (∀ base count ord : Nat, base < 2 ^ 32 → count < 2 ^ 32 → ord < 2 ^ 16 →
      ordinalRejected base count ord = false → base ≤ ord ∧ ord - base < count) ∧
    (∀ ord : Nat, ord < 2 ^ 16 →
      (ord < (exportView mem module (getImageNtHeaders mem module)).base ∨
        (exportView mem module (getImageNtHeaders mem module)).base +
          (exportView mem module (getImageNtHeaders mem module)).numberOfFunctions ≤ ord) →
      lookupExport mem (exportView mem module (getImageNtHeaders mem module))
          (ProcName.ord ord) = none ∧
        getProcAddress env mem fuel module (ProcName.ord ord) = some 0) := by
  refine ⟨fun base count ord _ _ hord h => ordinalRejected_of_outside hord h,
    fun base count ord _ hcount _ h => index_lt_of_not_rejected hcount h, ?_⟩
  intro ord hord hout
  have hrej := ordinalRejected_of_outside hord hout
  have hmod : ord % 2 ^ 16 = ord := Nat.mod_eq_of_lt hord
  have hlook : lookupExport mem (exportView mem module (getImageNtHeaders mem module))
      (ProcName.ord ord) = none := by
    simp only [lookupExport, hmod, hrej, if_true]
  refine ⟨hlook, getProcAddress_of_ret ?_ fuel⟩
  unfold getProcAddressStep
  by_cases h1 : module = 0 ∨ (ProcName.ord ord).isNull = true
  · rw [if_pos h1]
  · rw [if_neg h1]
    by_cases h2 : getImageNtHeaders mem module = 0
    · simp only [h2, if_true]
    · simp only [h2, if_false, hlook]

/-- Witness of C4 on image `A` of `demoMem` (base 1, three functions): ordinal 4 is rejected,
a base of `0xFFFFFFFF` with count 2 (an overflowing sum) rejects ordinal 5, and the accepted
ordinal 3 indexes entry 2 of 3. -/
theorem getProcAddress_ordinal_range_witness :
    getProcAddress demoEnv demoMem 0 0x10000 (ProcName.ord 4) = some 0 ∧
      ordinalRejected 0xFFFFFFFF 2 5 = true ∧ (1 ≤ 3 ∧ 3 - 1 < 3) :=
  ⟨((getProcAddress_ordinal_range demoEnv demoMem 0 0x10000).2.2 4 (by decide)
      (Or.inr (by decide))).2,
    (getProcAddress_ordinal_range demoEnv demoMem 0 0x10000).1 0xFFFFFFFF 2 5 (by decide)
      (by decide) (by decide) (Or.inl (by decide)),
    (getProcAddress_ordinal_range demoEnv demoMem 0 0x10000).2.1 1 3 3 (by decide) (by decide)
      (by decide) (by decide)⟩

/-! ## C5: header validation -/

theorem getImageNtHeaders_eq_zero {mem : Mem} {module : Nat}
    (h : mem.word module ≠ IMAGE_DOS_SIGNATURE ∨
      mem.dword (ptrAdd module (mem.dword (ptrAdd module OFF_e_lfanew))) ≠ IMAGE_NT_SIGNATURE) :
    getImageNtHeaders mem module = 0 := by
  unfold getImageNtHeaders
  rcases h with h | h
  · simp [Ne.symm h]
  · by_cases hd : IMAGE_DOS_SIGNATURE ≠ mem.word module
    · simp [hd]
    · simp [hd, Ne.symm h]

theorem header_invalid_results (env : Env) (mem : Mem) (fuel module : Nat) (procName : ProcName)
    (importedModuleName funcName : Option CStr) :
    ((module = 0 ∨ procName = ProcName.ord 0 ∨ mem.word module ≠ IMAGE_DOS_SIGNATURE ∨
        mem.dword (ptrAdd module (mem.dword (ptrAdd module OFF_e_lfanew))) ≠
          IMAGE_NT_SIGNATURE) →
      getProcAddress env mem fuel module procName = some 0) ∧
    ((module = 0 ∨ importedModuleName = none ∨ funcName = none ∨
        mem.word module ≠ IMAGE_DOS_SIGNATURE ∨
        mem.dword (ptrAdd module (mem.dword (ptrAdd module OFF_e_lfanew))) ≠
          IMAGE_NT_SIGNATURE) →
      Compat.findProcAddressInIat fuel mem module importedModuleName funcName = some 0) := by
  constructor
  · intro h
    apply getProcAddress_of_ret
    unfold getProcAddressStep
    rcases h with h | h | h
    · simp [h]
    · simp [h, ProcName.isNull]
    · rw [getImageNtHeaders_eq_zero h]
      simp
  · intro h
    unfold Compat.findProcAddressInIat
    rcases h with h | h | h | h
    · subst h
      cases importedModuleName <;> cases funcName <;> simp
    · subst h; rfl
    · subst h
      cases importedModuleName <;> rfl
    · rw [getImageNtHeaders_eq_zero h]
      cases importedModuleName <;> cases funcName <;> simp

theorem getProcAddressFaulting_of_ret {env : Env} {mem : Mem} {module : Nat}
    {procName : ProcName} {r : Nat} (fuel : Nat)
    (h : getProcAddressStepFaulting env mem module procName = Outcome.done (Step.ret r)) :
    getProcAddressFaulting env mem fuel module procName = some (Outcome.done r) := by
  cases fuel <;> simp [getProcAddressFaulting, h]

theorem getProcAddressFaulting_of_fault {env : Env} {mem : Mem} {module : Nat}
    {procName : ProcName} (fuel : Nat)
    (h : getProcAddressStepFaulting env mem module procName = Outcome.fault) :
    getProcAddressFaulting env mem fuel module procName = some Outcome.fault := by
  cases fuel <;> simp [getProcAddressFaulting, h]

theorem faulting_results_of_null_header (env : Env) (mem : Mem) (fuel module : Nat)
    (procName : ProcName) (importedModuleName funcName : Option CStr)
    (h : getImageNtHeadersFaulting mem module = Outcome.done 0) :
    getProcAddressFaulting env mem fuel module procName = some (Outcome.done 0) ∧
      Compat.findProcAddressInIatFaulting fuel mem module importedModuleName funcName =
        some (Outcome.done 0) := by
  constructor
  · apply getProcAddressFaulting_of_ret
    unfold getProcAddressStepFaulting
    split_ifs
    · rfl
    · rw [h]
      rfl
  · unfold Compat.findProcAddressInIatFaulting
    cases importedModuleName <;> cases funcName <;> try rfl
    simp only [h]
    split_ifs <;> rfl

theorem faulting_results_of_header_fault (env : Env) (mem : Mem) (fuel module : Nat)
    (procName : ProcName) (importedModuleName funcName : CStr)
    (hmodule : module ≠ 0) (hname : procName.isNull = false)
    (h : getImageNtHeadersFaulting mem module = Outcome.fault) :
    getProcAddressFaulting env mem fuel module procName = some Outcome.fault ∧
      Compat.findProcAddressInIatFaulting fuel mem module (some importedModuleName)
        (some funcName) = some Outcome.fault := by
  constructor
  · apply getProcAddressFaulting_of_fault
    unfold getProcAddressStepFaulting
    rw [if_neg (by simp [hmodule, hname]), h]
    rfl
  · unfold Compat.findProcAddressInIatFaulting
    simp only [h, if_neg hmodule]

/-- C5, the claim as stated, refuted at addresses that are not mapped. `getImageNtHeaders`
dereferences the module address without probing it. At the unmapped address `0x70000000`,
where there is no DOS signature, `resolve` and `findSlot` end in an access violation and do
not return NotFound; the same happens for the image of `strayHeaderMem`, which starts with
"MZ" and whose `e_lfanew` leads to an unmapped address, where there is no NT signature. -/
theorem unmapped_header_faults :
    demoMem.mapped 0x70000000 = false ∧
      demoMem.word 0x70000000 ≠ IMAGE_DOS_SIGNATURE ∧
      getProcAddressFaulting demoEnv demoMem 0 0x70000000 (ProcName.name [70]) =
        some Outcome.fault ∧
      Compat.findProcAddressInIatFaulting 4 demoMem 0x70000000 (some [98, 46, 100, 108, 108])
        (some [70]) = some Outcome.fault ∧
      strayHeaderMem.word 0x10000 = IMAGE_DOS_SIGNATURE ∧
      strayHeaderMem.mapped 0x70010000 = false ∧
      strayHeaderMem.dword 0x70010000 ≠ IMAGE_NT_SIGNATURE ∧
      getProcAddressFaulting demoEnv strayHeaderMem 0 0x10000 (ProcName.name [70]) =
        some Outcome.fault ∧
      Compat.findProcAddressInIatFaulting 4 strayHeaderMem 0x10000
        (some [98, 46, 100, 108, 108]) (some [70]) = some Outcome.fault := by
  decide

/-- C5, amended: header validation of a module whose header bytes can be read. `resolve`
and `findSlot` return NotFound, with any fuel (fuel 0 included, so no loop over a table is
entered), (1) when the module is null or a requested name is null, without dereferencing
anything; (2) when the two bytes at the module start are mapped and are not the DOS
signature; (3) when those two bytes, the four bytes of `e_lfanew` and the four bytes at the
offset that `e_lfanew` declares are mapped and the latter are not the NT signature. No
export or import table field is read in these cases: nothing is assumed about any other
byte, so the result is NotFound, and not an access violation, also when no other byte is
mapped. When a header byte that is dereferenced is not mapped, the run is an access
violation (4). -/
theorem header_validation (env : Env) (mem : Mem) (fuel module : Nat) (procName : ProcName)
    (importedModuleName funcName : Option CStr) :
    ((module = 0 ∨ procName = ProcName.ord 0) →
      getProcAddressFaulting env mem fuel module procName = some (Outcome.done 0)) ∧
    ((module = 0 ∨ importedModuleName = none ∨ funcName = none) →
      Compat.findProcAddressInIatFaulting fuel mem module importedModuleName funcName =
        some (Outcome.done 0)) ∧
    (mem.bytesMapped module 2 = true → mem.word module ≠ 0x5A4D →
      getProcAddressFaulting env mem fuel module procName = some (Outcome.done 0) ∧
        Compat.findProcAddressInIatFaulting fuel mem module importedModuleName funcName =
          some (Outcome.done 0)) ∧
    (mem.bytesMapped module 2 = true → mem.bytesMapped (ptrAdd module 0x3C) 4 = true →
      mem.bytesMapped (ptrAdd module (mem.dword (ptrAdd module 0x3C))) 4 = true →
      mem.dword (ptrAdd module (mem.dword (ptrAdd module 0x3C))) ≠ 0x4550 →
      getProcAddressFaulting env mem fuel module procName = some (Outcome.done 0) ∧
        Compat.findProcAddressInIatFaulting fuel mem module importedModuleName funcName =
          some (Outcome.done 0)) ∧
    (module ≠ 0 → procName ≠ ProcName.ord 0 →
      (mem.bytesMapped module 2 = false ∨
        (mem.word module = 0x5A4D ∧
          (mem.bytesMapped (ptrAdd module 0x3C) 4 = false ∨
            mem.bytesMapped (ptrAdd module (mem.dword (ptrAdd module 0x3C))) 4 = false))) →
      getProcAddressFaulting env mem fuel module procName = some Outcome.fault ∧
        ∀ im fn, Compat.findProcAddressInIatFaulting fuel mem module (some im) (some fn) =
          some Outcome.fault) := by
  refine ⟨?_, ?_, ?_, ?_, ?_⟩
  · intro h
    apply getProcAddressFaulting_of_ret
    unfold getProcAddressStepFaulting
    rcases h with h | h
    · simp [h]
    · simp [h, ProcName.isNull]
  · intro h
    unfold Compat.findProcAddressInIatFaulting
    rcases h with h | h | h
    · subst h
      cases importedModuleName <;> cases funcName <;> simp
    · subst h; rfl
    · subst h
      cases importedModuleName <;> rfl
  · intro hm hdos
    apply faulting_results_of_null_header
    unfold getImageNtHeadersFaulting Mem.readWord
    have hne : IMAGE_DOS_SIGNATURE ≠ mem.word module := fun h => hdos h.symm
    simp only [hm, if_true, Outcome.bind, if_pos hne]
  · intro hm hl hn hsig
    apply faulting_results_of_null_header
    unfold getImageNtHeadersFaulting Mem.readWord Mem.readDword
    have hl' : mem.bytesMapped (ptrAdd module OFF_e_lfanew) 4 = true := hl
    have hn' : mem.bytesMapped (ptrAdd module (mem.dword (ptrAdd module OFF_e_lfanew))) 4
        = true := hn
    have hne : IMAGE_NT_SIGNATURE ≠
        mem.dword (ptrAdd module (mem.dword (ptrAdd module OFF_e_lfanew))) :=
      fun h => hsig h.symm
    simp only [hm, if_true, Outcome.bind]
    split_ifs with h1
    · rfl
    · simp only [hl', hn', if_true, if_pos hne]
  · intro hmodule hname hbad
    have hnull : procName.isNull = false := by
      cases procName with
      | ord n =>
        have : n ≠ 0 := fun h => hname (by rw [h])
        simp [ProcName.isNull, this]
      | name s => rfl
    have hfault : getImageNtHeadersFaulting mem module = Outcome.fault := by
      unfold getImageNtHeadersFaulting Mem.readWord Mem.readDword
      rcases hbad with hm | ⟨hdos, hl | hn⟩
      · simp only [hm, Bool.false_eq_true, if_false, Outcome.bind]
      · have hl' : mem.bytesMapped (ptrAdd module OFF_e_lfanew) 4 = false := hl
        have hne : ¬ IMAGE_DOS_SIGNATURE ≠ mem.word module := fun h => h hdos.symm
        cases hm : mem.bytesMapped module 2
        · simp only [hm, Bool.false_eq_true, if_false, Outcome.bind]
        · simp only [hm, if_true, Outcome.bind, if_neg hne, hl', Bool.false_eq_true, if_false]
      · have hn' : mem.bytesMapped (ptrAdd module (mem.dword (ptrAdd module OFF_e_lfanew))) 4
            = false := hn
        have hne : ¬ IMAGE_DOS_SIGNATURE ≠ mem.word module := fun h => h hdos.symm
        cases hm : mem.bytesMapped module 2
        · simp only [hm, Bool.false_eq_true, if_false, Outcome.bind]
        · cases hl : mem.bytesMapped (ptrAdd module OFF_e_lfanew) 4
          · simp only [hm, hl, if_true, Outcome.bind, if_neg hne, Bool.false_eq_true, if_false]
          · simp only [hm, hl, if_true, Outcome.bind, if_neg hne, hn', Bool.false_eq_true,
              if_false]
    exact ⟨(faulting_results_of_header_fault env mem fuel module procName [] [] hmodule hnull
        hfault).1,
      fun im fn => (faulting_results_of_header_fault env mem fuel module procName im fn hmodule
        hnull hfault).2⟩

/-- Witness of C5 (amended). A mapped address of `demoMem` whose first `WORD` is not "MZ"
gives NotFound; so does the image of `headerOnlyMem`, which has "MZ" and an `e_lfanew` that
leads to a `DWORD` that is not "PE\0\0", and in which no byte but the header bytes is
mapped; and the image of `strayHeaderMem`, whose NT header would be at an unmapped address,
gives an access violation. -/
theorem header_validation_witness :
    getProcAddressFaulting demoEnv demoMem 0 0x38000 (ProcName.name [70]) =
        some (Outcome.done 0) ∧
      Compat.findProcAddressInIatFaulting 0 headerOnlyMem 0x10000 (some [98]) (some [70]) =
        some (Outcome.done 0) ∧
      getProcAddressFaulting demoEnv strayHeaderMem 0 0x10000 (ProcName.name [70]) =
        some Outcome.fault :=
  ⟨((header_validation demoEnv demoMem 0 0x38000 (ProcName.name [70]) none none).2.2.1
      (by decide) (by decide)).1,
    ((header_validation demoEnv headerOnlyMem 0 0x10000 (ProcName.ord 0) (some [98])
      (some [70])).2.2.2.1 (by decide) (by decide) (by decide) (by decide)).2,
    ((header_validation demoEnv strayHeaderMem 0 0x10000 (ProcName.name [70]) none
      none).2.2.2.2 (by decide) (by decide)
      (Or.inr ⟨by decide, Or.inr (by decide)⟩)).1⟩

/-! ## C6: a failed install -/

theorem hookFunctionInModule_of_resolved {env : Env} {fuel : Nat} {s : State} {module : Nat}
    {funcName : ProcName} {p : Nat} (c : Cell) (newFuncPtr : Nat)
    (h : getProcAddress env s.mem fuel module funcName = some p) (hp : p ≠ 0) :
    Compat.hookFunctionInModule env fuel s module funcName c newFuncPtr =
      some (hookFunction env { s with cells := Function.update s.cells c p } c newFuncPtr) := by
  unfold Compat.hookFunctionInModule
  rw [h]
  simp [hp]

/-- C6: a failed install is a no-op on the registry. When `installByName` resolves to
NotFound the whole state, the caller's cell included, is returned as it was. When the
resolution succeeds, the target is not known (so the splice is requested) and attach or
commit reports an error, the map and the Detours log are those before the call and every
record keeps its stored original; only the caller's cell has changed. A failed splice of
`installByAddress` returns the state as it was. -/
theorem failed_install_noop (env : Env) (fuel : Nat) (s : State) (module : Nat)
    (funcName : ProcName) (origFuncPtr : Cell) (newFuncPtr : Nat) :
    (getProcAddress env s.mem fuel module funcName = some 0 →
      Compat.hookFunctionInModule env fuel s module funcName origFuncPtr newFuncPtr = some s) ∧
    (∀ p : Nat, getProcAddress env s.mem fuel module funcName = some p → p ≠ 0 →
      findOrigFunc { s with cells := Function.update s.cells origFuncPtr p } p = none →
      ((env.detourAttach s.detours p newFuncPtr).attachSuccessful = false ∨
        (env.detourAttach s.detours p newFuncPtr).commitSuccessful = false) →
      ∃ s', Compat.hookFunctionInModule env fuel s module funcName origFuncPtr newFuncPtr =
          some s' ∧
        s'.hookedFunctions = s.hookedFunctions ∧ s'.detours = s.detours ∧
        s'.mem = s.mem ∧ s'.protect = s.protect ∧
        (∀ i ∈ s.hookedFunctions, s'.origOf i = s.origOf i) ∧
        (∀ c, c ≠ origFuncPtr → s'.cells c = s.cells c)) ∧
    (findOrigFunc s (s.cells origFuncPtr) = none →
      ((env.detourAttach s.detours (s.cells origFuncPtr) newFuncPtr).attachSuccessful = false ∨
        (env.detourAttach s.detours (s.cells origFuncPtr) newFuncPtr).commitSuccessful =
          false) →
      Compat.hookFunction env s origFuncPtr newFuncPtr = s) := by
  refine ⟨?_, ?_, ?_⟩
  · intro h
    unfold Compat.hookFunctionInModule
    rw [h]
    simp
  · intro p hres hp hfresh hfail
    refine ⟨{ s with cells := Function.update s.cells origFuncPtr p }, ?_, rfl, rfl, rfl, rfl,
      ?_, fun c hc => by simp [Function.update_noteq hc]⟩
    · rw [hookFunctionInModule_of_resolved origFuncPtr newFuncPtr hres hp]
      congr 1
      apply hookFunction_of_failed
      · simpa using hfresh
      · simpa using hfail
    · intro i hi
      have hno := @findOrigFunc_none { s with cells := Function.update s.cells origFuncPtr p } p
        hfresh i hi
      have hcell : i.2.origFunction ≠ origFuncPtr := by
        intro hc
        apply hno.2
        simp only [State.origOf]
        rw [hc, Function.update_same]
      simp [State.origOf, Function.update_noteq hcell]
  · intro hfresh hfail
    exact hookFunction_of_failed hfresh hfail

/-- Witness of C6 on `demoMem`: the name "Z" is not exported by image `A`, and with an
environment whose commits fail the install on `A.F` leaves the registry empty. -/
theorem failed_install_noop_witness :
    Compat.hookFunctionInModule demoEnv 0 (emptyState demoMem) 0x10000 (ProcName.name [90])
        (Cell.client 0) 0x5000 = some (emptyState demoMem) ∧
      (∃ s', Compat.hookFunctionInModule failingEnv 0 (emptyState demoMem) 0x10000
          (ProcName.name [70]) (Cell.client 0) 0x5000 = some s' ∧
        s'.hookedFunctions = [] ∧ s'.detours = []) ∧
      Compat.hookFunction failingEnv (twoClientsState demoMem) (Cell.client 0) 0x5000 =
        twoClientsState demoMem := by
  refine ⟨(failed_install_noop demoEnv 0 (emptyState demoMem) 0x10000 (ProcName.name [90])
      (Cell.client 0) 0x5000).1 (by decide), ?_,
    (failed_install_noop failingEnv 0 (twoClientsState demoMem) 0x10000 (ProcName.name [90])
      (Cell.client 0) 0x5000).2.2 (by decide) (Or.inr (by decide))⟩
  obtain ⟨s', h1, h2, h3, _⟩ :=
    (failed_install_noop failingEnv 0 (emptyState demoMem) 0x10000 (ProcName.name [70])
      (Cell.client 0) 0x5000).2.1 0x12100 (by decide) (by decide) (by decide)
      (Or.inr (by decide))
  exact ⟨s', h1, h2, h3⟩

/-! ## C7: two installs by name on one function -/

/-- Counterexample to C7 on `demoMem`: after `installByName(A, "F", 0x5000)` and then
`installByName(A, "F", 0x6000)` the only record, for `F` at `0x12100`, still has `0x5000`
as its replacement and the only committed splice is the one to `0x5000`. -/
theorem second_install_not_active :
    ((Compat.hookFunctionInModule demoEnv 0 (emptyState demoMem) 0x10000 (ProcName.name [70])
        (Cell.client 0) 0x5000).bind
      (fun s1 => Compat.hookFunctionInModule demoEnv 0 s1 0x10000 (ProcName.name [70])
        (Cell.client 1) 0x6000)).map (fun s2 => (s2.hookedFunctions, s2.detours)) =
      some ([(0x12100, ⟨0x10000, Cell.client 0, 0x5000⟩)], [DetourOp.attach 0x12100 0x5000]) := by
  decide

/-- C7, amended: after a successful `installByName(M, F, c1, R1)` on a target not known
before, a following `installByName(M, F, c2, R2)` adds no record and commits no splice:
map and Detours log are those left by the first call, the record of `F`'s address is the
one made by the first call and every record with that key has `R1` as its replacement. -/
theorem second_install_keeps_first (env : Env) (fuel : Nat) (s : State) (module : Nat)
    (funcName : ProcName) (c1 c2 : Cell) (r1 r2 p : Nat)
    (hres : getProcAddress env s.mem fuel module funcName = some p) (hp : p ≠ 0)
    (hfresh : findOrigFunc { s with cells := Function.update s.cells c1 p } p = none)
    (ha : (env.detourAttach s.detours p r1).attachSuccessful = true)
    (hc : (env.detourAttach s.detours p r1).commitSuccessful = true) :
    ∃ s1 s2, Compat.hookFunctionInModule env fuel s module funcName c1 r1 = some s1 ∧
      Compat.hookFunctionInModule env fuel s1 module funcName c2 r2 = some s2 ∧
      s1.hookedFunctions = emplace p ⟨(env.moduleFromAddress p).getD 0, c1, r1⟩
        s.hookedFunctions ∧
      s1.detours = DetourOp.attach p r1 :: s.detours ∧
      s2.hookedFunctions = s1.hookedFunctions ∧ s2.detours = s1.detours ∧
      (p, ⟨(env.moduleFromAddress p).getD 0, c1, r1⟩) ∈ s2.hookedFunctions ∧
      (∀ i ∈ s2.hookedFunctions, i.1 = p → i.2.newFunction = r1) := by
  have h1 := hookFunctionInModule_of_resolved c1 r1 hres hp
  have hcell : ({ s with cells := Function.update s.cells c1 p } : State).cells c1 = p := by
    simp
  have hstate := @hookFunction_of_fresh env { s with cells := Function.update s.cells c1 p }
    c1 r1 (by rw [hcell]; exact hfresh) (by rw [hcell]; exact ha) (by rw [hcell]; exact hc)
  rw [hcell] at hstate
  set s1 := hookFunction env { s with cells := Function.update s.cells c1 p } c1 r1 with hs1
  have hmap : s1.hookedFunctions =
      emplace p ⟨(env.moduleFromAddress p).getD 0, c1, r1⟩ s.hookedFunctions := by
    rw [hstate]
  have hlog : s1.detours = DetourOp.attach p r1 :: s.detours := by rw [hstate]
  have hmem : s1.mem = s.mem := by rw [hstate]
  have hkeys : ∀ i ∈ s.hookedFunctions, i.1 ≠ p := fun i hi =>
    ((@findOrigFunc_none { s with cells := Function.update s.cells c1 p } p hfresh i hi).1).symm
  have hnew : ((p, ⟨(env.moduleFromAddress p).getD 0, c1, r1⟩) : Nat × HookedFunctionInfo) ∈
      s1.hookedFunctions := by
    rw [hmap]; exact mem_emplace_self hkeys
  have hres2 : getProcAddress env s1.mem fuel module funcName = some p := by rw [hmem]; exact hres
  have h2 := hookFunctionInModule_of_resolved c2 r2 hres2 hp
  obtain ⟨it, hit⟩ : ∃ it, findOrigFunc { s1 with cells := Function.update s1.cells c2 p }
      (({ s1 with cells := Function.update s1.cells c2 p } : State).cells c2) = some it := by
    refine @findOrigFunc_isSome { s1 with cells := Function.update s1.cells c2 p } _ _ hnew
      (Or.inl ?_)
    simp
  rw [hookFunction_of_found hit] at h2
  refine ⟨s1, _, h1, h2, hmap, hlog, rfl, rfl, hnew, ?_⟩
  intro i hi hkey
  have hi' : i ∈ emplace p ⟨(env.moduleFromAddress p).getD 0, c1, r1⟩ s.hookedFunctions := by
    rw [← hmap]; exact hi
  rcases mem_emplace hi' with heq | hold
  · rw [heq]
  · exact absurd hkey (hkeys i hold)

/-- Witness of C7 (amended) on `demoMem`: the record of `A.F` keeps replacement `0x5000`. -/
theorem second_install_keeps_first_witness :
    ∃ s1 s2, Compat.hookFunctionInModule demoEnv 0 (emptyState demoMem) 0x10000
        (ProcName.name [70]) (Cell.client 0) 0x5000 = some s1 ∧
      Compat.hookFunctionInModule demoEnv 0 s1 0x10000 (ProcName.name [70]) (Cell.client 1)
        0x6000 = some s2 ∧
      (0x12100, ⟨0x10000, Cell.client 0, 0x5000⟩) ∈ s2.hookedFunctions ∧
      s2.detours = s1.detours := by
  obtain ⟨s1, s2, h1, h2, _, _, _, hlog, hmem, _⟩ :=
    second_install_keeps_first demoEnv 0 (emptyState demoMem) 0x10000 (ProcName.name [70])
      (Cell.client 0) (Cell.client 1) 0x5000 0x6000 0x12100 (by decide) (by decide) (by decide)
      (by decide) (by decide)
  exact ⟨s1, s2, h1, h2, hmem, hlog⟩

/-! ## C9: `findProcAddressInIat` against its reference definition -/

theorem stricmp_ne_zero_iff {a b : CStr} :
    0 ≠ stricmp a b ↔ a.map tolower ≠ b.map tolower := by
  unfold stricmp
  split_ifs with h <;> simp [h]

theorem thunkPairsBeforeZero_succ_pos {mem : Mem} {thunk origThunk : Nat} (n : Nat)
    (h : 0 ≠ mem.dword thunk ∧ 0 ≠ mem.dword origThunk) :
    thunkPairsBeforeZero mem thunk origThunk (n + 1) =
      (thunk, origThunk) :: thunkPairsBeforeZero mem (ptrAdd thunk 4) (ptrAdd origThunk 4) n := by
  unfold thunkPairsBeforeZero
  simp only [List.iterate, List.zip_cons_cons, List.takeWhile_cons]
  simp [Ne.symm h.1, Ne.symm h.2]

theorem thunkPairsBeforeZero_succ_neg {mem : Mem} {thunk origThunk : Nat} (n : Nat)
    (h : ¬ (0 ≠ mem.dword thunk ∧ 0 ≠ mem.dword origThunk)) :
    thunkPairsBeforeZero mem thunk origThunk (n + 1) = [] := by
  unfold thunkPairsBeforeZero
  simp only [List.iterate, List.zip_cons_cons, List.takeWhile_cons]
  have hp : (decide (mem.dword thunk ≠ 0) && decide (mem.dword origThunk ≠ 0)) = false := by
    by_contra hne
    simp only [Bool.not_eq_false, Bool.and_eq_true, decide_eq_true_eq] at hne
    exact h ⟨Ne.symm hne.1, Ne.symm hne.2⟩
  simp only [hp]
  rfl

theorem descriptorsBeforeLoopEnd_succ_pos {mem : Mem} {desc : Nat} (n : Nat)
    (h : descContinues mem desc = true) :
    descriptorsBeforeLoopEnd mem desc (n + 1) =
      desc :: descriptorsBeforeLoopEnd mem (ptrAdd desc 20) n := by
  unfold descriptorsBeforeLoopEnd
  simp only [List.iterate, List.takeWhile_cons, h, if_true]

theorem descriptorsBeforeLoopEnd_succ_neg {mem : Mem} {desc : Nat} (n : Nat)
    (h : ¬ descContinues mem desc = true) :
    descriptorsBeforeLoopEnd mem desc (n + 1) = [] := by
  unfold descriptorsBeforeLoopEnd
  simp only [List.iterate, List.takeWhile_cons, h]
  rfl

theorem findThunk_eq (mem : Mem) (moduleBase : Nat) (procName : CStr) :
    ∀ fuel thunk origThunk,
      findThunk mem moduleBase procName fuel thunk origThunk =
        match (thunkPairsBeforeZero mem thunk origThunk fuel).find?
            (fun pr => decide (importNameOf mem moduleBase pr.2 = procName)) with
        | some pr => some pr.1
        | none =>
          if (thunkPairsBeforeZero mem thunk origThunk fuel).length < fuel then some 0
          else none := by
  intro fuel
  induction fuel with
  | zero =>
    intro thunk origThunk
    simp [findThunk, thunkPairsBeforeZero, List.iterate]
  | succ n ih =>
    intro thunk origThunk
    unfold findThunk
    by_cases hnz : 0 ≠ mem.dword thunk ∧ 0 ≠ mem.dword origThunk
    · simp only [thunkPairsBeforeZero_succ_pos n hnz, if_pos hnz]
      by_cases hname : strcmp (mem.str (ptrAdd (ptrAdd moduleBase (mem.dword origThunk)) 2))
          procName = 0
      · have hname' : importNameOf mem moduleBase origThunk = procName :=
          strcmp_eq_zero.1 hname
        simp [hname, hname']
      · have hname' : ¬ importNameOf mem moduleBase origThunk = procName :=
          fun h => hname (strcmp_eq_zero.2 h)
        simp only [hname, if_false, List.find?_cons, hname', decide_False, ih,
          List.length_cons, Nat.succ_lt_succ_iff]
    · simp [thunkPairsBeforeZero_succ_neg n hnz, if_neg hnz]

theorem findDesc_eq (mem : Mem) (moduleBase : Nat) (im procName : CStr) (thunkFuel : Nat) :
    ∀ fuel desc,
      findDesc mem moduleBase im procName thunkFuel fuel desc =
        match (descriptorsBeforeLoopEnd mem desc fuel).find?
            (fun d => decide ((descName mem moduleBase d).map tolower = im.map tolower)) with
        | some d =>
          findThunk mem moduleBase procName thunkFuel
            (ptrAdd moduleBase (mem.dword (ptrAdd d 16))) (ptrAdd moduleBase (mem.dword d))
        | none =>
          if (descriptorsBeforeLoopEnd mem desc fuel).length < fuel then some 0 else none := by
  intro fuel
  induction fuel with
  | zero =>
    intro desc
    simp [findDesc, descriptorsBeforeLoopEnd, List.iterate]
  | succ n ih =>
    intro desc
    unfold findDesc
    by_cases hc : descContinues mem desc = true
    · simp only [descriptorsBeforeLoopEnd_succ_pos n hc, if_pos hc]
      by_cases hname : 0 ≠ stricmp (descName mem moduleBase desc) im
      · have hname' := stricmp_ne_zero_iff.1 hname
        simp only [if_pos hname, List.find?_cons, hname', decide_False, ih,
          List.length_cons, Nat.succ_lt_succ_iff]
      · have hname' : (descName mem moduleBase desc).map tolower = im.map tolower := by
          by_contra h
          exact hname (stricmp_ne_zero_iff.2 h)
        simp only [if_neg hname, List.find?_cons, hname', decide_True]
    · simp [descriptorsBeforeLoopEnd_succ_neg n hc, if_neg hc]
theorem findProcAddressInIat_eq_loopTest (bound : Nat) (mem : Mem) (module : Nat)
    (importedModuleName functionName : CStr) :
    (∀ r, Compat.findProcAddressInIat bound mem module (some importedModuleName)
        (some functionName) = some r →
      r = findSlotLoopTest bound mem module importedModuleName functionName) ∧
    ((descriptorsBeforeLoopEnd mem
        (ptrAdd module (mem.dword (ptrAdd (getImageNtHeaders mem module) OFF_importDirectory)))
        bound).length < bound →
      (∀ d ∈ descriptorsBeforeLoopEnd mem
          (ptrAdd module (mem.dword (ptrAdd (getImageNtHeaders mem module) OFF_importDirectory)))
          bound,
        (thunkPairsBeforeZero mem (ptrAdd module (mem.dword (ptrAdd d 16)))
          (ptrAdd module (mem.dword d)) bound).length < bound) →
      Compat.findProcAddressInIat bound mem module (some importedModuleName)
          (some functionName) =
        some (findSlotLoopTest bound mem module importedModuleName functionName)) := by
  unfold Compat.findProcAddressInIat findSlotLoopTest findSlotIn
  by_cases hm : module = 0
  · simp [hm]
  by_cases hn : getImageNtHeaders mem module = 0
  · simp [hn]
  simp only [hm, hn, if_false, false_or]
  rw [findDesc_eq]
  cases hd : (descriptorsBeforeLoopEnd mem
      (ptrAdd module (mem.dword (ptrAdd (getImageNtHeaders mem module) OFF_importDirectory)))
      bound).find?
      (fun d => decide ((descName mem module d).map tolower = importedModuleName.map tolower))
    with
  | none =>
    simp only
    constructor
    · intro r hr
      split_ifs at hr with hlen
      · exact (Option.some.inj hr).symm
    · intro hlen _
      rw [if_pos hlen]
  | some d =>
    simp only
    rw [findThunk_eq]
    have hdmem := List.mem_of_find?_eq_some hd
    cases hp : (thunkPairsBeforeZero mem (ptrAdd module (mem.dword (ptrAdd d 16)))
        (ptrAdd module (mem.dword d)) bound).find?
        (fun pr => decide (importNameOf mem module pr.2 = functionName)) with
    | none =>
      simp only
      constructor
      · intro r hr
        split_ifs at hr with hlen
        · exact (Option.some.inj hr).symm
      · intro _ hthunks
        rw [if_pos (hthunks d hdmem)]
    | some pr =>
      simp only
      exact ⟨fun r hr => (Option.some.inj hr).symm, fun _ _ => trivial⟩

/-- C9, the claim as stated, refuted on `oddDescMem`. The reference definition, whose
descriptors are those before the all-zero terminator, finds `F` of "b.dll" in the second
descriptor of both images (cells `0x14340` and `0x24340`); `findSlot` returns NotFound,
because its walk ends at the first descriptor, whose `Characteristics` field is zero in one
image and whose `Name` field is `0xFFFF` in the other. -/
theorem findSlot_differs_from_reference :
    findSlotSpec 4 oddDescMem 0x10000 [98, 46, 100, 108, 108] [70] = 0x14340 ∧
      Compat.findProcAddressInIatFaulting 4 oddDescMem 0x10000 (some [98, 46, 100, 108, 108])
        (some [70]) = some (Outcome.done 0) ∧
      findSlotSpec 4 oddDescMem 0x20000 [98, 46, 100, 108, 108] [70] = 0x24340 ∧
      Compat.findProcAddressInIatFaulting 4 oddDescMem 0x20000 (some [98, 46, 100, 108, 108])
        (some [70]) = some (Outcome.done 0) := by
  decide

/-- An import by ordinal ahead of the name: the thunk walk takes the ordinal entry
`0x80000005` for the relative address of an import-by-name record and compares the name at
`0x80010007`, which is not mapped; the run is an access violation, where the values alone
would lead on to the cell `0x14304` of `F`. -/
theorem import_by_ordinal_faults :
    ordinalImportMem.mapped 0x80010007 = false ∧
      Compat.findProcAddressInIatFaulting 4 ordinalImportMem 0x10000
        (some [98, 46, 100, 108, 108]) (some [70]) = some Outcome.fault ∧
      Compat.findProcAddressInIat 4 ordinalImportMem 0x10000 (some [98, 46, 100, 108, 108])
        (some [70]) = some 0x14304 := by
  decide

/-- C9, amended: `findSlot` against the reference definition in which the descriptor walk
ends at the first descriptor whose `Characteristics` field is zero or whose `Name` field is
`0xFFFF`, for runs that dereference mapped memory only. With `bound` as the fuel of each
loop: whenever the run of `findProcAddressInIat` with its dereferences returns a value, that
value is the value of `findSlotLoopTest` (the cell of the live-address array at the index of
the first exactly matching name, in the first descriptor before the end of the walk whose
module name matches ignoring case; NotFound when no descriptor matches or that descriptor
lacks the name, even when a later descriptor lists it); and when the descriptor array ends
within `bound` slots and the thunk arrays of the descriptors before the end reach a zero
within `bound` slots, the run either is an access violation, some byte of the memory being
unmapped, or returns that value. -/
theorem findProcAddressInIat_eq_reference (bound : Nat) (mem : Mem) (module : Nat)
    (importedModuleName functionName : CStr) :
    (∀ r, Compat.findProcAddressInIatFaulting bound mem module (some importedModuleName)
        (some functionName) = some (Outcome.done r) →
      r = findSlotLoopTest bound mem module importedModuleName functionName) ∧
    ((descriptorsBeforeLoopEnd mem
        (ptrAdd module (mem.dword (ptrAdd (getImageNtHeaders mem module) OFF_importDirectory)))
        bound).length < bound →
      (∀ d ∈ descriptorsBeforeLoopEnd mem
          (ptrAdd module (mem.dword (ptrAdd (getImageNtHeaders mem module) OFF_importDirectory)))
          bound,
        (thunkPairsBeforeZero mem (ptrAdd module (mem.dword (ptrAdd d 16)))
          (ptrAdd module (mem.dword d)) bound).length < bound) →
      (Compat.findProcAddressInIatFaulting bound mem module (some importedModuleName)
            (some functionName) = some Outcome.fault ∧
          ∃ b, mem.mapped b = false) ∨
        Compat.findProcAddressInIatFaulting bound mem module (some importedModuleName)
            (some functionName) =
          some (Outcome.done
            (findSlotLoopTest bound mem module importedModuleName functionName))) := by
  have href := findProcAddressInIatFaulting_refines bound mem module (some importedModuleName)
    (some functionName)
  have heq := findProcAddressInIat_eq_loopTest bound mem module importedModuleName functionName
  constructor
  · intro r hr
    rcases href with ⟨hf, _⟩ | hd
    · rw [hf] at hr
      cases hr
    · rw [hd] at hr
      cases hrun : Compat.findProcAddressInIat bound mem module (some importedModuleName)
          (some functionName) with
      | none =>
        rw [hrun] at hr
        cases hr
      | some r' =>
        rw [hrun] at hr
        have : r' = r := by
          simpa using hr
        exact heq.1 r (this ▸ hrun)
  · intro hlen hthunks
    rcases href with hf | hd
    · exact Or.inl hf
    · right
      rw [hd, heq.2 hlen hthunks]
      rfl

/-- Witness of C9 (amended). In `demoMem`, image `A` imports `F` from "b.dll" at index 1 of
its second descriptor, and the lookup under the name "B.DLL" gives the live cell `0x14344`
of that index; in `dupDescMem` the first descriptor of "b.dll" lacks `F`, so the result is
NotFound although the second descriptor lists it. -/
theorem findProcAddressInIat_eq_reference_witness :
    Compat.findProcAddressInIatFaulting 4 demoMem 0x10000 (some [66, 46, 68, 76, 76])
        (some [70]) = some (Outcome.done 0x14344) ∧
      findSlotLoopTest 4 demoMem 0x10000 [66, 46, 68, 76, 76] [70] = 0x14344 ∧
      Compat.findProcAddressInIatFaulting 4 dupDescMem 0x10000 (some [98, 46, 100, 108, 108])
        (some [70]) = some (Outcome.done 0) := by
  have h2 := (findProcAddressInIat_eq_reference 4 demoMem 0x10000 [66, 46, 68, 76, 76] [70]).1
    0x14344 (by decide)
  have h1 : Compat.findProcAddressInIatFaulting 4 demoMem 0x10000 (some [66, 46, 68, 76, 76])
      (some [70]) = some (Outcome.done 0x14344) := by
    rcases (findProcAddressInIat_eq_reference 4 demoMem 0x10000 [66, 46, 68, 76, 76] [70]).2
      (by decide) (by decide) with ⟨hf, _⟩ | hd
    · exact absurd hf (by decide)
    · rw [hd, ← h2]
  have h3 : Compat.findProcAddressInIatFaulting 4 dupDescMem 0x10000
      (some [98, 46, 100, 108, 108]) (some [70]) = some (Outcome.done 0) := by
    rcases (findProcAddressInIat_eq_reference 4 dupDescMem 0x10000 [98, 46, 100, 108, 108]
      [70]).2 (by decide) (by decide) with ⟨hf, _⟩ | hd
    · exact absurd hf (by decide)
    · rw [hd]
      decide
  exact ⟨h1, h2.symm, h3⟩

/-! ## Lemmas on the import-cell overwrite -/

theorem writeDword_dword_of_ne (mem : Mem) {cell a : Nat} (r : Nat) (h : a ≠ cell) :
    (mem.writeDword cell r).dword a = mem.dword a := by
  simp [Mem.writeDword, Mem.dword, Function.update_noteq h]

theorem findThunk_writeDword (mem : Mem) (moduleBase : Nat) (procName : CStr) (cell r : Nat)
    (hcell : cell ≠ 0) :
    ∀ fuel thunk origThunk,
      findThunk mem moduleBase procName fuel thunk origThunk = some cell →
      (∀ a ∈ List.iterate (fun t => ptrAdd t 4) origThunk fuel, a ≠ cell) →
      findThunk (mem.writeDword cell r) moduleBase procName fuel thunk origThunk =
        if (mem.writeDword cell r).dword cell = 0 then some 0 else some cell := by
  intro fuel
  induction fuel with
  | zero => intro thunk origThunk h; simp [findThunk] at h
  | succ n ih =>
    intro thunk origThunk h hsep
    have horig : origThunk ≠ cell := hsep origThunk (by simp [List.iterate])
    have hrest : ∀ a ∈ List.iterate (fun t => ptrAdd t 4) (ptrAdd origThunk 4) n, a ≠ cell :=
      fun a ha => hsep a (by simp [List.iterate, ha])
    unfold findThunk at h ⊢
    have hstr : (mem.writeDword cell r).str = mem.str := rfl
    rw [writeDword_dword_of_ne mem r horig, hstr]
    by_cases hnz : 0 ≠ mem.dword thunk ∧ 0 ≠ mem.dword origThunk
    · rw [if_pos hnz] at h
      by_cases hname : strcmp (mem.str (ptrAdd (ptrAdd moduleBase (mem.dword origThunk)) 2))
          procName = 0
      · rw [if_pos hname] at h
        have htc : thunk = cell := Option.some.inj h
        rw [htc]
        by_cases hr : (mem.writeDword cell r).dword cell = 0
        · rw [if_pos hr, if_neg (fun hh => hh.1 hr.symm)]
        · rw [if_neg hr, if_pos ⟨Ne.symm hr, hnz.2⟩, if_pos hname]
      · rw [if_neg hname] at h
        have hrec := ih _ _ h hrest
        by_cases htc : thunk = cell
        · rw [htc]
          by_cases hr : (mem.writeDword cell r).dword cell = 0
          · rw [if_pos hr, if_neg (fun hh => hh.1 hr.symm)]
          · rw [if_pos ⟨Ne.symm hr, hnz.2⟩, if_neg hname]
            rw [htc] at hrec
            exact hrec
        · rw [writeDword_dword_of_ne mem r htc, if_pos hnz, if_neg hname]
          exact hrec
    · rw [if_neg hnz] at h
      exact absurd (Option.some.inj h).symm hcell

theorem findDesc_writeDword (mem : Mem) (moduleBase : Nat) (im procName : CStr)
    (thunkFuel cell r : Nat) (hcell : cell ≠ 0) :
    ∀ fuel desc,
      findDesc mem moduleBase im procName thunkFuel fuel desc = some cell →
      (∀ d ∈ List.iterate (fun d => ptrAdd d 20) desc fuel,
        d ≠ cell ∧ ptrAdd d 12 ≠ cell ∧ ptrAdd d 16 ≠ cell ∧
        ∀ a ∈ List.iterate (fun t => ptrAdd t 4) (ptrAdd moduleBase (mem.dword d)) thunkFuel,
          a ≠ cell) →
      findDesc (mem.writeDword cell r) moduleBase im procName thunkFuel fuel desc =
        if (mem.writeDword cell r).dword cell = 0 then some 0 else some cell := by
  intro fuel
  induction fuel with
  | zero => intro desc h; simp [findDesc] at h
  | succ n ih =>
    intro desc h hsep
    obtain ⟨h0, h12, h16, hthunks⟩ := hsep desc (by simp [List.iterate])
    have hrest : ∀ d ∈ List.iterate (fun d => ptrAdd d 20) (ptrAdd desc 20) n,
        d ≠ cell ∧ ptrAdd d 12 ≠ cell ∧ ptrAdd d 16 ≠ cell ∧
        ∀ a ∈ List.iterate (fun t => ptrAdd t 4) (ptrAdd moduleBase (mem.dword d)) thunkFuel,
          a ≠ cell :=
      fun d hd => hsep d (by simp [List.iterate, hd])
    have hcont : descContinues (mem.writeDword cell r) desc = descContinues mem desc := by
      simp only [descContinues, writeDword_dword_of_ne mem r h0,
        writeDword_dword_of_ne mem r h12]
    have hname : descName (mem.writeDword cell r) moduleBase desc =
        descName mem moduleBase desc := by
      simp only [descName, writeDword_dword_of_ne mem r h12]
      rfl
    unfold findDesc at h ⊢
    rw [hcont, hname, writeDword_dword_of_ne mem r h0, writeDword_dword_of_ne mem r h16]
    by_cases hc : descContinues mem desc = true
    · rw [if_pos hc] at h ⊢
      by_cases hn : 0 ≠ stricmp (descName mem moduleBase desc) im
      · rw [if_pos hn] at h ⊢
        exact ih _ h hrest
      · rw [if_neg hn] at h ⊢
        exact findThunk_writeDword mem moduleBase procName cell r hcell _ _ _ h hthunks
    · rw [if_neg hc] at h
      exact absurd (Option.some.inj h).symm hcell

theorem getImageNtHeaders_eq_of_ne_zero {mem : Mem} {module : Nat}
    (h : getImageNtHeaders mem module ≠ 0) :
    getImageNtHeaders mem module = ptrAdd module (mem.dword (ptrAdd module OFF_e_lfanew)) := by
  unfold getImageNtHeaders at h ⊢
  simp only at h ⊢
  split_ifs at h ⊢ with h1 h2
  · exact absurd rfl h
  · exact absurd rfl h
  · rfl

theorem findProcAddressInIat_writeDword (fuel : Nat) (mem : Mem) (module : Nat)
    (im f : Option CStr) (cell r : Nat) (hcell : cell ≠ 0)
    (hfind : Compat.findProcAddressInIat fuel mem module im f = some cell)
    (hsep : cell ∉ iatMetadataCells fuel mem module) :
    Compat.findProcAddressInIat fuel (mem.writeDword cell r) module im f =
      if (mem.writeDword cell r).dword cell = 0 then some 0 else some cell := by
  unfold Compat.findProcAddressInIat at hfind ⊢
  cases im with
  | none => exact absurd (Option.some.inj hfind).symm hcell
  | some imported =>
    cases f with
    | none => exact absurd (Option.some.inj hfind).symm hcell
    | some name =>
      simp only at hfind ⊢
      by_cases hm : module = 0
      · rw [if_pos hm] at hfind
        exact absurd (Option.some.inj hfind).symm hcell
      · rw [if_neg hm] at hfind ⊢
        by_cases hn : getImageNtHeaders mem module = 0
        · simp only [hn, if_true] at hfind
          exact absurd (Option.some.inj hfind).symm hcell
        · have hnt := getImageNtHeaders_eq_of_ne_zero hn
          simp only [iatMetadataCells, List.mem_append, List.mem_cons, List.mem_singleton,
            List.not_mem_nil, or_false, List.mem_flatMap, not_or, not_exists, not_and] at hsep
          obtain ⟨⟨hs1, hs2, hs3⟩, hs4⟩ := hsep
          have hnt' : getImageNtHeaders (mem.writeDword cell r) module =
              getImageNtHeaders mem module := by
            have hw : (mem.writeDword cell r).word module = mem.word module := rfl
            unfold getImageNtHeaders
            simp only [hw, writeDword_dword_of_ne mem r (Ne.symm hs1),
              writeDword_dword_of_ne mem r (Ne.symm hs2)]
          rw [hnt']
          simp only [hn, if_false] at hfind ⊢
          have hdir : (mem.writeDword cell r).dword
              (ptrAdd (getImageNtHeaders mem module) OFF_importDirectory) =
              mem.dword (ptrAdd (getImageNtHeaders mem module) OFF_importDirectory) := by
            rw [hnt]
            exact writeDword_dword_of_ne mem r (Ne.symm hs3)
          rw [hdir]
          apply findDesc_writeDword mem module imported name fuel cell r hcell _ _ hfind
          intro d hd
          rw [hnt] at hd
          have := hs4 d hd
          refine ⟨fun h => this.1.1 h.symm, fun h => this.1.2.1 h.symm,
            fun h => this.1.2.2 h.symm, fun a ha h => this.2 ?_⟩
          rw [← h]
          exact ha

/-! ## C10: the import-cell overwrite -/

/-- C10: `installIat` changes exactly one thing. When `findSlot` finds a cell, the call
returns a state whose memory is the old memory with the pointer `r` stored in that cell:
the cell holds `r`, every other `DWORD` and every `WORD` and string is as before, the
protection of every cell (that cell included) is as before, and the registry, the Detours
log and all variables are unchanged; and `getProcAddressFromIat` on the new memory returns
`r`, the cell being none of the metadata cells that the locator reads (header fields,
descriptor fields, original-name thunks). When `findSlot` returns NotFound the state is
returned unchanged. -/
theorem hookIatFunction_frame (fuel : Nat) (s : State) (module : Nat)
    (importedModuleName funcName : Option CStr) (r : Nat) (hr : r < 2 ^ 32) :
    (∀ cell, Compat.findProcAddressInIat fuel s.mem module importedModuleName funcName =
        some cell → cell ≠ 0 →
      ∃ s', Compat.hookIatFunction fuel s module importedModuleName funcName r = some s' ∧
        s'.mem = s.mem.writeDword cell r ∧
        s'.mem.dword cell = r ∧
        (∀ a, a ≠ cell → s'.mem.u32 a = s.mem.u32 a) ∧
        s'.mem.u16 = s.mem.u16 ∧ s'.mem.str = s.mem.str ∧
        s'.protect = s.protect ∧
        s'.hookedFunctions = s.hookedFunctions ∧ s'.cells = s.cells ∧
        s'.detours = s.detours ∧ s'.origFuncsSize = s.origFuncsSize ∧ s'.freed = s.freed ∧
        (cell ∉ iatMetadataCells fuel s.mem module →
          Compat.getProcAddressFromIat fuel s'.mem module importedModuleName funcName =
            some r)) ∧
    (Compat.findProcAddressInIat fuel s.mem module importedModuleName funcName = some 0 →
      Compat.hookIatFunction fuel s module importedModuleName funcName r = some s) := by
  constructor
  · intro cell hfind hcell
    have hheld : (s.mem.writeDword cell r).dword cell = r := by
      simp only [Mem.writeDword, Mem.dword, Function.update_same]
      exact Nat.mod_eq_of_lt hr
    refine ⟨{ s with mem := s.mem.writeDword cell r }, ?_, rfl, hheld, ?_, rfl, rfl, rfl, rfl,
      rfl, rfl, rfl, rfl, ?_⟩
    · unfold Compat.hookIatFunction
      rw [hfind]
      simp only [hcell, ne_eq, not_false_eq_true, if_true, virtualProtect]
      congr 1
      have hp : Function.update (Function.update s.protect cell PAGE_READWRITE) cell
          (s.protect cell) = s.protect := by
        rw [Function.update_idem, Function.update_eq_self]
      simp only [hp]
    · intro a ha
      simp [Mem.writeDword, Function.update_noteq ha]
    · intro hsep
      have hloc := findProcAddressInIat_writeDword fuel s.mem module importedModuleName
        funcName cell r hcell hfind hsep
      unfold Compat.getProcAddressFromIat
      simp only
      rw [hloc, hheld]
      by_cases hz : r = 0
      · simp [hz]
      · simp [hz, hcell, hheld]
  · intro hfind
    unfold Compat.hookIatFunction
    rw [hfind]
    simp

/-- Witness of C10 on `demoMem`: the cell of image `A` for `b.dll!F` is `0x14344`; after the
overwrite with `0x7000` the binding read back is `0x7000` and the protection map is the
old one; image `B` imports nothing, so the call on `B` changes nothing. -/
theorem hookIatFunction_frame_witness :
    (∃ s', Compat.hookIatFunction 4 (emptyState demoMem) 0x10000 (some [98, 46, 100, 108, 108])
        (some [70]) 0x7000 = some s' ∧
      s'.mem.dword 0x14344 = 0x7000 ∧ s'.protect = (emptyState demoMem).protect ∧
      s'.hookedFunctions = [] ∧
      Compat.getProcAddressFromIat 4 s'.mem 0x10000 (some [98, 46, 100, 108, 108]) (some [70]) =
        some 0x7000) ∧
      Compat.hookIatFunction 4 (emptyState demoMem) 0x20000 (some [98, 46, 100, 108, 108])
        (some [70]) 0x7000 = some (emptyState demoMem) := by
  constructor
  · obtain ⟨s', h1, _, h2, _, _, _, h3, h4, _, _, _, _, h5⟩ :=
      (hookIatFunction_frame 4 (emptyState demoMem) 0x10000 (some [98, 46, 100, 108, 108])
        (some [70]) 0x7000 (by decide)).1 0x14344 (by decide) (by decide)
    exact ⟨s', h1, h2, h3, h4, h5 (by decide)⟩
  · exact (hookIatFunction_frame 4 (emptyState demoMem) 0x20000 (some [98, 46, 100, 108, 108])
      (some [70]) 0x7000 (by decide)).2 (by decide)

/-! ## Lemmas on `redirectIatHooks` -/

theorem hookFunction_cells_of_ne (env : Env) (s : State) (c : Cell) (r : Nat) {c' : Cell}
    (h : c' ≠ c) : (hookFunction env s c r).cells c' = s.cells c' := by
  unfold hookFunction
  cases findOrigFunc s (s.cells c) with
  | some it => simp [Function.update_noteq h]
  | none =>
    simp only
    split_ifs
    · rfl
    · simp [Function.update_noteq h]

theorem cell_ne_of_allocated {s : State} (h : s.cellsAllocated = true)
    {e : Nat × HookedFunctionInfo} (he : e ∈ s.hookedFunctions) :
    e.2.origFunction ≠ Cell.origFuncs s.origFuncsSize := by
  intro hc
  have := List.all_eq_true.1 h e he
  rw [hc] at this
  simp [cellAllocated] at this

theorem unhookFunction_map (env : Env) (s : State) (e : Nat × HookedFunctionInfo) :
    (unhookFunction env s e).hookedFunctions = s.hookedFunctions.erase e := by
  unfold unhookFunction
  simp only
  split_ifs <;> rfl

theorem unhookFunction_cells_of_ne (env : Env) (s : State) (e : Nat × HookedFunctionInfo)
    {c : Cell} (h : c ≠ e.2.origFunction) : (unhookFunction env s e).cells c = s.cells c := by
  unfold unhookFunction
  simp only
  split_ifs <;> simp [Function.update_noteq h]

theorem unhookFunction_detours_of_commit (env : Env) (s : State) (e : Nat × HookedFunctionInfo)
    (hd : (env.detourDetach s.detours (s.origOf e) e.2.newFunction).detachSuccessful = true)
    (hc : (env.detourDetach s.detours (s.origOf e) e.2.newFunction).commitSuccessful = true) :
    (unhookFunction env s e).detours =
      DetourOp.detach (s.origOf e) e.2.newFunction :: s.detours := by
  unfold unhookFunction
  simp only [hd, hc, Bool.and_self, if_true]
  split_ifs <;> rfl

theorem unhookFunction_freed (env : Env) (s : State) (e : Nat × HookedFunctionInfo) :
    (unhookFunction env s e).freed =
      if e.2.module ≠ 0 then e.2.module :: s.freed else s.freed := by
  unfold unhookFunction
  simp only
  split_ifs <;> rfl

theorem unhookFunction_frame (env : Env) (s : State) (e : Nat × HookedFunctionInfo) :
    (unhookFunction env s e).mem = s.mem ∧ (unhookFunction env s e).protect = s.protect ∧
      (unhookFunction env s e).origFuncsSize = s.origFuncsSize := by
  unfold unhookFunction
  simp only
  split_ifs <;> exact ⟨rfl, rfl, rfl⟩

theorem unhookFunction_of_fail (env : Env) (s : State) (e : Nat × HookedFunctionInfo)
    (h : ¬ ((env.detourDetach s.detours (s.origOf e) e.2.newFunction).detachSuccessful = true ∧
      (env.detourDetach s.detours (s.origOf e) e.2.newFunction).commitSuccessful = true)) :
    (unhookFunction env s e).detours = s.detours ∧ (unhookFunction env s e).cells = s.cells := by
  have hb : ((env.detourDetach s.detours (s.origOf e) e.2.newFunction).detachSuccessful &&
      (env.detourDetach s.detours (s.origOf e) e.2.newFunction).commitSuccessful) = false := by
    rw [Bool.and_eq_false_iff]
    by_contra hne
    push_neg at hne
    exact h ⟨by simpa using hne.1, by simpa using hne.2⟩
  unfold unhookFunction
  simp only [hb, Bool.false_eq_true, if_false]
  split_ifs <;> exact ⟨rfl, rfl⟩

theorem erase_emplace_self {k : Nat} {v : HookedFunctionInfo}
    {l : List (Nat × HookedFunctionInfo)} (h : ∀ e ∈ l, e.1 ≠ k) :
    (emplace k v l).erase (k, v) = l := by
  induction l with
  | nil => simp [emplace]
  | cons e rest ih =>
    have he : e.1 ≠ k := h e (List.mem_cons_self _ _)
    have hrest : ∀ e ∈ rest, e.1 ≠ k := fun e' he' => h e' (List.mem_cons_of_mem _ he')
    unfold emplace
    split_ifs with h1 h2
    · simp
    · exact absurd h2.symm he
    · have hne : e ≠ (k, v) := fun heq => he (by rw [heq])
      rw [List.erase_cons_tail (by simpa using hne), ih hrest]

theorem findOrigFunc_after_install {env : Env} {s : State} {c : Cell} {r : Nat}
    (hfresh : findOrigFunc s (s.cells c) = none)
    (ha : (env.detourAttach s.detours (s.cells c) r).attachSuccessful = true)
    (hc : (env.detourAttach s.detours (s.cells c) r).commitSuccessful = true) (x : Nat)
    (hx : x = s.cells c ∨
      (x = (env.detourAttach s.detours (s.cells c) r).trampoline ∧
        ∀ i ∈ s.hookedFunctions, i.1 ≠ x ∧ s.origOf i ≠ x)) :
    findOrigFunc (hookFunction env s c r) x =
      some (s.cells c, ⟨(env.moduleFromAddress (s.cells c)).getD 0, c, r⟩) := by
  have hs1 := @hookFunction_of_fresh env s c r hfresh ha hc
  have hcells : (hookFunction env s c r).cells =
      Function.update s.cells c (env.detourAttach s.detours (s.cells c) r).trampoline := by
    rw [hs1]
  have hmap : (hookFunction env s c r).hookedFunctions =
      emplace (s.cells c) ⟨(env.moduleFromAddress (s.cells c)).getD 0, c, r⟩
        s.hookedFunctions := by rw [hs1]
  have hkeys : ∀ e ∈ s.hookedFunctions, e.1 ≠ s.cells c :=
    fun e he => ((findOrigFunc_none hfresh he).1).symm
  have hnew : ((s.cells c, ⟨(env.moduleFromAddress (s.cells c)).getD 0, c, r⟩) :
      Nat × HookedFunctionInfo) ∈ (hookFunction env s c r).hookedFunctions := by
    rw [hmap]; exact mem_emplace_self hkeys
  have hnewOrig : (hookFunction env s c r).origOf
      (s.cells c, ⟨(env.moduleFromAddress (s.cells c)).getD 0, c, r⟩) =
      (env.detourAttach s.detours (s.cells c) r).trampoline := by
    simp [State.origOf, hcells]
  obtain ⟨it, hit⟩ : ∃ it, findOrigFunc (hookFunction env s c r) x = some it := by
    refine findOrigFunc_isSome hnew ?_
    rcases hx with h | ⟨h, _⟩
    · exact Or.inl h
    · exact Or.inr (by rw [hnewOrig]; exact h)
  rw [hit]
  congr 1
  obtain ⟨hmem, hmatch⟩ := findOrigFunc_some hit
  rw [hmap] at hmem
  rcases mem_emplace hmem with heq | hold
  · exact heq
  · exfalso
    have hno := findOrigFunc_none hfresh hold
    have hcell : it.2.origFunction ≠ c := by
      intro hcc
      apply hno.2
      simp only [State.origOf]
      rw [hcc]
    have hsame : (hookFunction env s c r).origOf it = s.origOf it := by
      simp only [State.origOf, hcells, Function.update_noteq hcell]
    rw [hsame] at hmatch
    rcases hx with h | ⟨_, hold'⟩
    · rw [h] at hmatch
      rcases hmatch with hm | hm
      · exact hno.1 hm
      · exact hno.2 hm
    · rcases hmatch with hm | hm
      · exact (hold' it hold).1 hm.symm
      · exact (hold' it hold).2 hm.symm

theorem install_then_remove {env : Env} {s : State} {c : Cell} {r : Nat}
    (hfresh : findOrigFunc s (s.cells c) = none)
    (ha : (env.detourAttach s.detours (s.cells c) r).attachSuccessful = true)
    (hc : (env.detourAttach s.detours (s.cells c) r).commitSuccessful = true) (x : Nat)
    (hx : x = s.cells c ∨
      (x = (env.detourAttach s.detours (s.cells c) r).trampoline ∧
        ∀ i ∈ s.hookedFunctions, i.1 ≠ x ∧ s.origOf i ≠ x)) :
    (Compat.unhookFunction env (hookFunction env s c r) x).hookedFunctions =
        s.hookedFunctions ∧
      ∀ e ∈ s.hookedFunctions,
        (Compat.unhookFunction env (hookFunction env s c r) x).origOf e = s.origOf e := by
  have hfind := findOrigFunc_after_install hfresh ha hc x hx
  have hkeys : ∀ e ∈ s.hookedFunctions, e.1 ≠ s.cells c :=
    fun e he => ((findOrigFunc_none hfresh he).1).symm
  have hmap : (hookFunction env s c r).hookedFunctions =
      emplace (s.cells c) ⟨(env.moduleFromAddress (s.cells c)).getD 0, c, r⟩
        s.hookedFunctions := by rw [hookFunction_of_fresh hfresh ha hc]
  unfold Compat.unhookFunction
  rw [hfind]
  simp only
  refine ⟨?_, ?_⟩
  · rw [unhookFunction_map, hmap, erase_emplace_self hkeys]
  · intro e he
    have hcell : e.2.origFunction ≠ c := by
      intro hcc
      apply (findOrigFunc_none hfresh he).2
      simp only [State.origOf]
      rw [hcc]
    simp only [State.origOf]
    rw [unhookFunction_cells_of_ne env _ _ (by simpa using hcell),
      hookFunction_cells_of_ne env s c r hcell]
/-! ## C12: single removal -/

/-- C12, the claim as stated, refuted where the detach transaction fails. `unhookFunction`
does not look at the results of the Detours calls: with `detachFailEnv`, removal of the
record of `0x12000` erases it and releases its module although nothing has been detached;
the log still holds only the attach, and the record's variable still holds the trampoline. -/
theorem remove_erases_without_detach :
    (Compat.unhookFunction detachFailEnv (oneHookState demoMem) 0x12000).hookedFunctions = [] ∧
      (Compat.unhookFunction detachFailEnv (oneHookState demoMem) 0x12000).detours =
        [DetourOp.attach 0x12000 0x5000] ∧
      (Compat.unhookFunction detachFailEnv (oneHookState demoMem) 0x12000).freed = [0x10000] ∧
      (Compat.unhookFunction detachFailEnv (oneHookState demoMem) 0x12000).cells (Cell.client 0) =
        0x1012000 := by
  decide

/-- C12, amended: single removal erases exactly one record, and detaches it when the detach
transaction commits. When no record has `x` as intercepted address or as stored original,
`remove(x)` returns the state as it was. Otherwise the first such record `it` of the map is
taken: the map afterwards is the old map with `it` erased (one record less, every other
record present as before), every variable other than the one `it` refers to keeps its value,
so the stored originals of the records with another variable are unchanged; when the detach
transaction commits the splice of `it` is detached (the log gains the detach of its stored
original from its replacement); when it does not, the log and every variable are as before,
and the record is erased all the same; and the owning module, when there is one, is released
in both cases. Consequently, installing a hook on a fresh address and then removing it by
that address (or by the returned original, when no older record has that trampoline as key
or stored original) gives back the old map with the old stored originals. -/
theorem unhookFunction_erases_one (env : Env) (s : State) (x : Nat) :
    ((∀ i ∈ s.hookedFunctions, x ≠ i.1 ∧ x ≠ s.origOf i) →
      Compat.unhookFunction env s x = s) ∧
    ((∃ i ∈ s.hookedFunctions, x = i.1 ∨ x = s.origOf i) →
      ∃ it ∈ s.hookedFunctions, findOrigFunc s x = some it ∧ (x = it.1 ∨ x = s.origOf it) ∧
        (Compat.unhookFunction env s x).hookedFunctions = s.hookedFunctions.erase it ∧
        (Compat.unhookFunction env s x).hookedFunctions.length + 1 =
          s.hookedFunctions.length ∧
        (∀ e, e ≠ it → (e ∈ (Compat.unhookFunction env s x).hookedFunctions ↔
          e ∈ s.hookedFunctions)) ∧
        (∀ c, c ≠ it.2.origFunction → (Compat.unhookFunction env s x).cells c = s.cells c) ∧
        (∀ e : Nat × HookedFunctionInfo, e.2.origFunction ≠ it.2.origFunction →
          (Compat.unhookFunction env s x).origOf e = s.origOf e) ∧
        ((env.detourDetach s.detours (s.origOf it) it.2.newFunction).detachSuccessful = true →
          (env.detourDetach s.detours (s.origOf it) it.2.newFunction).commitSuccessful = true →
          (Compat.unhookFunction env s x).detours =
            DetourOp.detach (s.origOf it) it.2.newFunction :: s.detours) ∧
        (¬ ((env.detourDetach s.detours (s.origOf it) it.2.newFunction).detachSuccessful = true ∧
            (env.detourDetach s.detours (s.origOf it) it.2.newFunction).commitSuccessful
              = true) →
          (Compat.unhookFunction env s x).detours = s.detours ∧
            (Compat.unhookFunction env s x).cells = s.cells) ∧
        (it.2.module ≠ 0 → (Compat.unhookFunction env s x).freed = it.2.module :: s.freed)) ∧
    (∀ (c : Cell) (r : Nat), findOrigFunc s (s.cells c) = none →
      (env.detourAttach s.detours (s.cells c) r).attachSuccessful = true →
      (env.detourAttach s.detours (s.cells c) r).commitSuccessful = true →
      (x = s.cells c ∨
        (x = (env.detourAttach s.detours (s.cells c) r).trampoline ∧
          ∀ i ∈ s.hookedFunctions, i.1 ≠ x ∧ s.origOf i ≠ x)) →
      (Compat.unhookFunction env (Compat.hookFunction env s c r) x).hookedFunctions =
          s.hookedFunctions ∧
        ∀ e ∈ s.hookedFunctions,
          (Compat.unhookFunction env (Compat.hookFunction env s c r) x).origOf e =
            s.origOf e) := by
  refine ⟨?_, ?_, ?_⟩
  · intro h
    have hnone : findOrigFunc s x = none := by
      unfold findOrigFunc
      rw [List.find?_eq_none]
      intro i hi
      have := h i hi
      simp [matchesOrigFunc, this.1, this.2]
    unfold Compat.unhookFunction
    rw [hnone]
  · rintro ⟨i, hi, hx⟩
    obtain ⟨it, hit⟩ := findOrigFunc_isSome hi hx
    obtain ⟨hmem, hmatch⟩ := findOrigFunc_some hit
    have hun : Compat.unhookFunction env s x = unhookFunction env s it := by
      unfold Compat.unhookFunction
      rw [hit]
    refine ⟨it, hmem, hit, hmatch, ?_⟩
    rw [hun]
    refine ⟨unhookFunction_map env s it, ?_, ?_, ?_, ?_, ?_, ?_, ?_⟩
    · rw [unhookFunction_map, List.length_erase_of_mem hmem]
      have : 0 < s.hookedFunctions.length := List.length_pos_of_mem hmem
      omega
    · intro e he
      rw [unhookFunction_map, List.mem_erase_of_ne he]
    · intro c hc
      exact unhookFunction_cells_of_ne env s it hc
    · intro e he
      exact unhookFunction_cells_of_ne env s it he
    · intro hd hc
      exact unhookFunction_detours_of_commit env s it hd hc
    · intro hfail
      exact unhookFunction_of_fail env s it hfail
    · intro hm
      rw [unhookFunction_freed, if_pos hm]
  · intro c r hfresh ha hc hx
    exact install_then_remove hfresh ha hc x hx

/-- Witness of C12 (amended). On the one-record state, removal by the trampoline
`0x1012000` empties the map and logs the detach; removal by an unknown address changes
nothing; and from the state with two client variables, install followed by removal gives
back the empty map. -/
theorem unhookFunction_erases_one_witness :
    (Compat.unhookFunction demoEnv (oneHookState demoMem) 0x1012000).hookedFunctions = [] ∧
      (Compat.unhookFunction demoEnv (oneHookState demoMem) 0x1012000).detours =
        [DetourOp.detach 0x1012000 0x5000, DetourOp.attach 0x12000 0x5000] ∧
      Compat.unhookFunction demoEnv (oneHookState demoMem) 0x7777 = oneHookState demoMem ∧
      (Compat.unhookFunction demoEnv
        (Compat.hookFunction demoEnv (twoClientsState demoMem) (Cell.client 0) 0x5000)
        0x12000).hookedFunctions = [] := by
  obtain ⟨it, _, hfind, _, hmap, _, _, _, _, hlog, _⟩ :=
    (unhookFunction_erases_one demoEnv (oneHookState demoMem) 0x1012000).2.1
      ⟨(0x12000, ⟨0x10000, Cell.client 0, 0x5000⟩), by decide, Or.inr (by decide)⟩
  have hit : it = (0x12000, ⟨0x10000, Cell.client 0, 0x5000⟩) := by
    have : findOrigFunc (oneHookState demoMem) 0x1012000 =
        some (0x12000, ⟨0x10000, Cell.client 0, 0x5000⟩) := by decide
    rw [this] at hfind
    exact (Option.some.inj hfind).symm
  subst hit
  refine ⟨?_, ?_, ?_, ?_⟩
  · rw [hmap]; decide
  · rw [hlog (by decide) (by decide)]; decide
  · exact (unhookFunction_erases_one demoEnv (oneHookState demoMem) 0x7777).1 (by decide)
  · exact ((unhookFunction_erases_one demoEnv (twoClientsState demoMem) 0x12000).2.2
      (Cell.client 0) 0x5000 (by decide) (by decide) (by decide) (Or.inl (by decide))).1

/-! ## C11: removing every record -/

theorem unhookAllFunctions_of_nil {env : Env} {s : State} (h : s.hookedFunctions = [])
    (fuel : Nat) : Compat.unhookAllFunctions env fuel s = some s := by
  cases fuel <;> (unfold Compat.unhookAllFunctions; rw [h])

theorem unhookAllFunctions_of_cons {env : Env} {s : State} {e : Nat × HookedFunctionInfo}
    {rest : List (Nat × HookedFunctionInfo)} (h : s.hookedFunctions = e :: rest) (fuel : Nat) :
    Compat.unhookAllFunctions env (fuel + 1) s =
      Compat.unhookAllFunctions env fuel (unhookFunction env s e) := by
  conv_lhs => unfold Compat.unhookAllFunctions
  rw [h]

theorem unhookAllFunctions_zero_of_cons {env : Env} {s : State} {e : Nat × HookedFunctionInfo}
    {rest : List (Nat × HookedFunctionInfo)} (h : s.hookedFunctions = e :: rest) :
    Compat.unhookAllFunctions env 0 s = none := by
  unfold Compat.unhookAllFunctions
  rw [h]

theorem unhookFunction_head_map {env : Env} {s : State} {e : Nat × HookedFunctionInfo}
    {rest : List (Nat × HookedFunctionInfo)} (h : s.hookedFunctions = e :: rest) :
    (unhookFunction env s e).hookedFunctions = rest := by
  rw [unhookFunction_map, h, List.erase_cons_head]

theorem unhookFunction_detours_mono (env : Env) (s : State) (e : Nat × HookedFunctionInfo)
    {op : DetourOp} (h : op ∈ s.detours) : op ∈ (unhookFunction env s e).detours := by
  unfold unhookFunction
  simp only
  split_ifs <;> simp [h]

theorem unhookFunction_freed_mono (env : Env) (s : State) (e : Nat × HookedFunctionInfo)
    {m : Nat} (h : m ∈ s.freed) : m ∈ (unhookFunction env s e).freed := by
  rw [unhookFunction_freed]
  split_ifs <;> simp [h]

/-- The loop of `unhookAllFunctions`, for a map with the entries `l`. -/
theorem unhookAllFunctions_spec (env : Env) :
    ∀ (l : List (Nat × HookedFunctionInfo)) (s : State), s.hookedFunctions = l →
      (∀ fuel, fuel < l.length → Compat.unhookAllFunctions env fuel s = none) ∧
      (∀ fuel, l.length ≤ fuel →
        ∃ s', Compat.unhookAllFunctions env fuel s = some s' ∧ s'.hookedFunctions = [] ∧
          (∀ op ∈ s.detours, op ∈ s'.detours) ∧ (∀ m ∈ s.freed, m ∈ s'.freed) ∧
          (∀ e ∈ l, e.2.module ≠ 0 → e.2.module ∈ s'.freed) ∧
          ((∀ log p d, (env.detourDetach log p d).detachSuccessful = true ∧
              (env.detourDetach log p d).commitSuccessful = true) →
            s'.detours.length = s.detours.length + l.length ∧
            (∀ e ∈ l, ∃ p, DetourOp.detach p e.2.newFunction ∈ s'.detours) ∧
            ((l.map (fun e => e.2.origFunction)).Nodup →
              ∀ e ∈ l, DetourOp.detach (s.origOf e) e.2.newFunction ∈ s'.detours))) := by
  intro l
  induction l with
  | nil =>
    intro s hs
    refine ⟨fun fuel h => by simp at h, fun fuel _ => ?_⟩
    refine ⟨s, unhookAllFunctions_of_nil hs fuel, hs, fun _ h => h, fun _ h => h, ?_, ?_⟩
    · intro e he; cases he
    · intro _
      refine ⟨by simp, ?_, ?_⟩
      · intro e he; cases he
      · intro _ e he; cases he
  | cons e rest ih =>
    intro s hs
    have hnext := @unhookFunction_head_map env s e rest hs
    obtain ⟨ih1, ih2⟩ := ih (unhookFunction env s e) hnext
    constructor
    · intro fuel hfuel
      cases fuel with
      | zero => exact unhookAllFunctions_zero_of_cons hs
      | succ n =>
        rw [unhookAllFunctions_of_cons hs]
        exact ih1 n (by simpa using hfuel)
    · intro fuel hfuel
      obtain ⟨n, rfl⟩ : ∃ n, fuel = n + 1 := ⟨fuel - 1, by simp at hfuel; omega⟩
      obtain ⟨s', hrun, hempty, hlog, hfreed, hmods, hdet⟩ := ih2 n (by simpa using hfuel)
      refine ⟨s', ?_, hempty, fun op hop => hlog op (unhookFunction_detours_mono env s e hop),
        fun m hm => hfreed m (unhookFunction_freed_mono env s e hm), ?_, ?_⟩
      · rw [unhookAllFunctions_of_cons hs]; exact hrun
      · intro e' he' hm
        rcases List.mem_cons.1 he' with heq | hin
        · apply hfreed
          rw [unhookFunction_freed, heq, if_pos (heq ▸ hm)]
          exact List.mem_cons_self _ _
        · exact hmods e' hin hm
      · intro hok
        obtain ⟨hlen, hex, hnodup⟩ := hdet hok
        have hstep := unhookFunction_detours_of_commit env s e (hok _ _ _).1 (hok _ _ _).2
        refine ⟨?_, ?_, ?_⟩
        · rw [hlen, hstep]
          simp only [List.length_cons]
          omega
        · intro e' he'
          rcases List.mem_cons.1 he' with heq | hin
          · refine ⟨s.origOf e, hlog _ ?_⟩
            rw [hstep, heq]
            exact List.mem_cons_self _ _
          · exact hex e' hin
        · intro hnd e' he'
          simp only [List.map_cons, List.nodup_cons] at hnd
          rcases List.mem_cons.1 he' with heq | hin
          · apply hlog
            rw [hstep, heq]
            exact List.mem_cons_self _ _
          · have hcell : e'.2.origFunction ≠ e.2.origFunction := by
              intro hc
              apply hnd.1
              rw [← hc]
              exact List.mem_map_of_mem (fun e => e.2.origFunction) hin
            have hsame : (unhookFunction env s e).origOf e' = s.origOf e' := by
              simp only [State.origOf]
              exact unhookFunction_cells_of_ne env s e hcell
            rw [← hsame]
            exact hnodup hnd.2 e' hin

theorem unhookAllFunctions_of_fail (env : Env)
    (hfail : ∀ log p d, ¬ ((env.detourDetach log p d).detachSuccessful = true ∧
      (env.detourDetach log p d).commitSuccessful = true)) :
    ∀ fuel (s s' : State), Compat.unhookAllFunctions env fuel s = some s' →
      s'.detours = s.detours ∧ s'.cells = s.cells := by
  intro fuel
  induction fuel with
  | zero =>
    intro s s' hrun
    cases hl : s.hookedFunctions with
    | nil =>
      rw [unhookAllFunctions_of_nil hl] at hrun
      cases hrun
      exact ⟨rfl, rfl⟩
    | cons e rest =>
      rw [unhookAllFunctions_zero_of_cons hl] at hrun
      cases hrun
  | succ n ih =>
    intro s s' hrun
    cases hl : s.hookedFunctions with
    | nil =>
      rw [unhookAllFunctions_of_nil hl] at hrun
      cases hrun
      exact ⟨rfl, rfl⟩
    | cons e rest =>
      rw [unhookAllFunctions_of_cons hl] at hrun
      obtain ⟨h1, h2⟩ := ih _ _ hrun
      obtain ⟨h3, h4⟩ := unhookFunction_of_fail env s e (hfail _ _ _)
      exact ⟨h1.trans h3, h2.trans h4⟩

/-- C11, the claim as stated, refuted where the detach transactions fail. With
`detachFailEnv`, `removeAll` on the two-record state returns with an empty registry and both
modules released, and the log is the one it started with: neither splice has been
detached. -/
theorem removeAll_erases_without_detach :
    (Compat.unhookAllFunctions detachFailEnv 2 (twoHooksState demoMem)).map
        (fun s' => (s'.hookedFunctions, s'.detours, s'.freed)) =
      some ([], [DetourOp.attach 0x23000 0x6000, DetourOp.attach 0x12000 0x5000],
        [0x20000, 0x10000]) := by
  decide

/-- C11, amended: `removeAll` terminates and empties the registry, and detaches the splices
when the detach transactions commit. For a registry of `n` records, in whatever order the
map presents them, the loop that removes the first record returns exactly when it is allowed
`n` removals or more (with less fuel it is still running), each single removal of a present
record makes the map one record shorter, and the map is empty afterwards; the owning modules
are released; the detach transactions committing, the log has gained one detach for each
record, that of its replacement (from its stored original, when no two records share a
variable); and when no detach transaction commits, the log and the variables are as
before, the registry being emptied all the same. -/
theorem unhookAllFunctions_terminates (env : Env) (s : State) :
    (∀ fuel, s.hookedFunctions.length ≤ fuel →
      ∃ s', Compat.unhookAllFunctions env fuel s = some s' ∧ s'.hookedFunctions = [] ∧
        (∀ e ∈ s.hookedFunctions, e.2.module ≠ 0 → e.2.module ∈ s'.freed) ∧
        ((∀ log p d, (env.detourDetach log p d).detachSuccessful = true ∧
            (env.detourDetach log p d).commitSuccessful = true) →
          s'.detours.length = s.detours.length + s.hookedFunctions.length ∧
          (∀ e ∈ s.hookedFunctions, ∃ p, DetourOp.detach p e.2.newFunction ∈ s'.detours) ∧
          ((s.hookedFunctions.map (fun e => e.2.origFunction)).Nodup →
            ∀ e ∈ s.hookedFunctions,
              DetourOp.detach (s.origOf e) e.2.newFunction ∈ s'.detours)) ∧
        ((∀ log p d, ¬ ((env.detourDetach log p d).detachSuccessful = true ∧
            (env.detourDetach log p d).commitSuccessful = true)) →
          s'.detours = s.detours ∧ s'.cells = s.cells)) ∧
    (∀ fuel, fuel < s.hookedFunctions.length → Compat.unhookAllFunctions env fuel s = none) ∧
    (∀ e ∈ s.hookedFunctions,
      (unhookFunction env s e).hookedFunctions.length + 1 = s.hookedFunctions.length) := by
  obtain ⟨h1, h2⟩ := unhookAllFunctions_spec env s.hookedFunctions s rfl
  refine ⟨?_, h1, ?_⟩
  · intro fuel hfuel
    obtain ⟨s', hrun, hempty, _, _, hmods, hdet⟩ := h2 fuel hfuel
    exact ⟨s', hrun, hempty, hmods, hdet,
      fun hfail => unhookAllFunctions_of_fail env hfail fuel s s' hrun⟩
  · intro e he
    rw [unhookFunction_map, List.length_erase_of_mem he]
    have : 0 < s.hookedFunctions.length := List.length_pos_of_mem he
    omega
/-- Witness of C11 (amended) on the two-record state: two removals empty the map, both
splices are detached and both modules released; one removal is not enough. -/
theorem unhookAllFunctions_terminates_witness :
    (∃ s', Compat.unhookAllFunctions demoEnv 2 (twoHooksState demoMem) = some s' ∧
      s'.hookedFunctions = [] ∧
      DetourOp.detach 0x1012000 0x5000 ∈ s'.detours ∧
      DetourOp.detach 0x1023000 0x6000 ∈ s'.detours ∧
      0x10000 ∈ s'.freed ∧ 0x20000 ∈ s'.freed) ∧
      Compat.unhookAllFunctions demoEnv 1 (twoHooksState demoMem) = none := by
  constructor
  · obtain ⟨s', hrun, hempty, hmods, hdet, _⟩ :=
      (unhookAllFunctions_terminates demoEnv (twoHooksState demoMem)).1 2 (by decide)
    obtain ⟨_, _, hnodup⟩ := hdet (fun _ _ _ => ⟨rfl, rfl⟩)
    exact ⟨s', hrun, hempty,
      hnodup (by decide) (0x12000, ⟨0x10000, Cell.client 0, 0x5000⟩) (by decide),
      hnodup (by decide) (0x23000, ⟨0x20000, Cell.client 1, 0x6000⟩) (by decide),
      hmods (0x12000, ⟨0x10000, Cell.client 0, 0x5000⟩) (by decide) (by decide),
      hmods (0x23000, ⟨0x20000, Cell.client 1, 0x6000⟩) (by decide) (by decide)⟩
  · exact (unhookAllFunctions_terminates demoEnv (twoHooksState demoMem)).2.1 1 (by decide)

/-! ## C17: forwarder cycles -/

/-- C17: the resolver has no hop limit and no visited-module guard. When the export `name`
of `module` is a forwarder string naming `module` itself and `name`, `resolve(module, name)`
has not returned within `fuel` hops, for every `fuel`; and the same holds for every
activation in a set of activations (module, name) each of which forwards to another
activation of the set, as the activations of a cyclic forwarder chain do. -/
theorem getProcAddress_cycle_never_returns (env : Env) (mem : Mem) :
    (∀ (module : Nat) (name m : CStr) (fuel : Nat),
      forwarderText mem module (ProcName.name name) = some (m ++ 46 :: name) → 46 ∉ m →
      name.head? ≠ some 35 → env.getModuleHandle m = module →
      getProcAddress env mem fuel module (ProcName.name name) = none) ∧
    (∀ (inCycle : Nat → ProcName → Prop),
      (∀ m p, inCycle m p →
        ∃ m' p', getProcAddressStep env mem m p = Step.call m' p' ∧ inCycle m' p') →
      ∀ fuel m p, inCycle m p → getProcAddress env mem fuel m p = none) := by
  have hgen : ∀ (inCycle : Nat → ProcName → Prop),
      (∀ m p, inCycle m p →
        ∃ m' p', getProcAddressStep env mem m p = Step.call m' p' ∧ inCycle m' p') →
      ∀ fuel m p, inCycle m p → getProcAddress env mem fuel m p = none := by
    intro inCycle hclosed fuel
    induction fuel with
    | zero =>
      intro m p hp
      obtain ⟨m', p', hstep, _⟩ := hclosed m p hp
      exact getProcAddress_zero_of_call hstep
    | succ n ih =>
      intro m p hp
      obtain ⟨m', p', hstep, hp'⟩ := hclosed m p hp
      rw [getProcAddress_of_call hstep]
      exact ih m' p' hp'
  refine ⟨?_, hgen⟩
  intro module name m fuel htext hm hname hhandle
  apply hgen (fun m' p' => m' = module ∧ p' = ProcName.name name) _ fuel module _ ⟨rfl, rfl⟩
  rintro m' p' ⟨rfl, rfl⟩
  refine ⟨m', ProcName.name name, ?_, rfl, rfl⟩
  rw [getProcAddressStep_of_forwarderText htext, forward_name env m name hm hname, hhandle]

/-- Witness of C17 on `cycleMem`: `B.F` forwards to "B.F", and `B.G`, `C.G` forward to each
other; neither resolution has returned after 9 hops. -/
theorem getProcAddress_cycle_never_returns_witness :
    getProcAddress demoEnv cycleMem 9 0x20000 (ProcName.name [70]) = none ∧
      getProcAddress demoEnv cycleMem 9 0x20000 (ProcName.name [71]) = none :=
  ⟨(getProcAddress_cycle_never_returns demoEnv cycleMem).1 0x20000 [70] [66] 9 (by decide)
      (by decide) (by decide) (by decide),
    (getProcAddress_cycle_never_returns demoEnv cycleMem).2
      (fun m p => (m = 0x20000 ∧ p = ProcName.name [71]) ∨
        (m = 0x30000 ∧ p = ProcName.name [71]))
      (by
        rintro m p (⟨rfl, rfl⟩ | ⟨rfl, rfl⟩)
        · exact ⟨0x30000, ProcName.name [71], by decide, Or.inr ⟨rfl, rfl⟩⟩
        · exact ⟨0x20000, ProcName.name [71], by decide, Or.inl ⟨rfl, rfl⟩⟩)
      9 0x20000 (ProcName.name [71]) (Or.inl ⟨rfl, rfl⟩)⟩

/-! ## C15: forwarders and modules that are not mapped -/

theorem forward_ordinal (env : Env) (m t : CStr) (hm : 46 ∉ m) :
    forward env (m ++ 46 :: 35 :: t) =
      if atoi t < 0 ∨ atoi t > 0xFFFF then Step.ret 0
      else Step.call (env.getModuleHandle m) (ProcName.ord (atoi t).toNat) := by
  have hdrop : List.drop (m.length + 1) (m ++ 46 :: 35 :: t) = 35 :: t := by
    rw [List.drop_append_eq_append_drop]
    simp
  have htake : List.take m.length (m ++ 46 :: 35 :: t) = m := by simp
  unfold forward
  rw [findFirstOf_append 46 m (35 :: t) hm]
  simp only [hdrop, htake]
  rw [if_pos (by simp)]
  simp only [List.drop_succ_cons, List.drop_zero]

theorem getProcAddress_null_module (env : Env) (mem : Mem) (fuel : Nat) (p : ProcName) :
    getProcAddress env mem fuel 0 p = some 0 := by
  apply getProcAddress_of_ret
  unfold getProcAddressStep
  simp

/-- Counterexample to C15 on `forwardMem`: the exports `H` and `I` of image `A` are the
forwarder strings "D.S" and "D.#7"; `LoadLibrary` could map the module "D", which is not
mapped (`GetModuleHandle` gives null), and both resolutions return NotFound. -/
theorem forwarder_to_unmapped_module_not_found :
    forwarderText forwardMem 0x10000 (ProcName.name [72]) = some [68, 46, 83] ∧
      forwarderText forwardMem 0x10000 (ProcName.name [73]) = some [68, 46, 35, 55] ∧
      demoEnv.getModuleHandle [68] = 0 ∧ demoEnv.loadLibrary [68] = 0x50000 ∧
      getProcAddress demoEnv forwardMem 5 0x10000 (ProcName.name [72]) = some 0 ∧
      getProcAddress demoEnv forwardMem 5 0x10000 (ProcName.name [73]) = some 0 := by
  decide

/-- C15, amended: forwarder resolution uses the target module only when it is already
mapped. For an export that is a forwarder string `m ++ "." ++ s`, `m` being the text before
the first dot: when `s` does not start with `#`, `resolve` is, one hop later, `resolve` of
the name `s` in the handle that `GetModuleHandle` gives for `m`; when `s` is `#` followed by
text whose `atoi` value `N` satisfies `0 <= N <= 0xFFFF`, it is `resolve` of ordinal `N` in
that handle, and NotFound for any other `N`; and when `m` is not mapped the result is
NotFound in every case (nothing is loaded). -/
theorem forwarder_uses_mapped_module (env : Env) (mem : Mem) (module : Nat)
    (procName : ProcName) (m s : CStr) (fuel : Nat)
    (htext : forwarderText mem module procName = some (m ++ 46 :: s)) (hm : 46 ∉ m) :
    (s.head? ≠ some 35 →
      getProcAddress env mem (fuel + 1) module procName =
        getProcAddress env mem fuel (env.getModuleHandle m) (ProcName.name s)) ∧
    (∀ t, s = 35 :: t → 0 ≤ atoi t → atoi t ≤ 0xFFFF →
      getProcAddress env mem (fuel + 1) module procName =
        getProcAddress env mem fuel (env.getModuleHandle m) (ProcName.ord (atoi t).toNat)) ∧
    (∀ t, s = 35 :: t → (atoi t < 0 ∨ 0xFFFF < atoi t) →
      getProcAddress env mem fuel module procName = some 0) ∧
    (env.getModuleHandle m = 0 →
      getProcAddress env mem (fuel + 1) module procName = some 0) := by
  have hstep := @getProcAddressStep_of_forwarderText env mem module procName _ htext
  have hname : s.head? ≠ some 35 →
      getProcAddress env mem (fuel + 1) module procName =
        getProcAddress env mem fuel (env.getModuleHandle m) (ProcName.name s) := by
    intro hs
    rw [forward_name env m s hm hs] at hstep
    exact getProcAddress_of_call hstep fuel
  have hord : ∀ t, s = 35 :: t → 0 ≤ atoi t → atoi t ≤ 0xFFFF →
      getProcAddress env mem (fuel + 1) module procName =
        getProcAddress env mem fuel (env.getModuleHandle m)
          (ProcName.ord (atoi t).toNat) := by
    intro t hs h0 h1
    rw [hs, forward_ordinal env m t hm, if_neg (by omega)] at hstep
    exact getProcAddress_of_call hstep fuel
  have hbad : ∀ n t, s = 35 :: t → (atoi t < 0 ∨ 0xFFFF < atoi t) →
      getProcAddress env mem n module procName = some 0 := by
    intro n t hs hrange
    rw [hs, forward_ordinal env m t hm, if_pos (by omega)] at hstep
    exact getProcAddress_of_ret hstep n
  refine ⟨hname, hord, hbad fuel, ?_⟩
  intro hnull
  by_cases hs : s.head? = some 35
  · obtain ⟨t, ht⟩ : ∃ t, s = 35 :: t := by
      cases s with
      | nil => simp at hs
      | cons c t =>
        simp only [List.head?_cons, Option.some.injEq] at hs
        exact ⟨t, by rw [hs]⟩
    by_cases hrange : atoi t < 0 ∨ 0xFFFF < atoi t
    · exact hbad (fuel + 1) t ht hrange
    · rw [hord t ht (by omega) (by omega), hnull]
      exact getProcAddress_null_module env mem fuel _
  · rw [hname hs, hnull]
    exact getProcAddress_null_module env mem fuel _

/-- Witness of C15 (amended) on `forwardMem`: `A.J` is "B.#1" and resolves to ordinal 1 of
the mapped image `B`, the code at `0x23000`; `A.K` is "B.#0", which is passed on as the null
argument; `A.H` is "D.S" with "D" not mapped. -/
theorem forwarder_uses_mapped_module_witness :
    getProcAddress demoEnv forwardMem 1 0x10000 (ProcName.name [74]) = some 0x23000 ∧
      getProcAddress demoEnv forwardMem 1 0x10000 (ProcName.name [75]) = some 0 ∧
      getProcAddress demoEnv forwardMem 1 0x10000 (ProcName.name [72]) = some 0 := by
  have hJ := (forwarder_uses_mapped_module demoEnv forwardMem 0x10000 (ProcName.name [74])
    [66] [35, 49] 0 (by decide) (by decide)).2.1 [49] rfl (by decide) (by decide)
  have hK := (forwarder_uses_mapped_module demoEnv forwardMem 0x10000 (ProcName.name [75])
    [66] [35, 48] 0 (by decide) (by decide)).2.1 [48] rfl (by decide) (by decide)
  have hH := (forwarder_uses_mapped_module demoEnv forwardMem 0x10000 (ProcName.name [72])
    [68] [83] 0 (by decide) (by decide)).2.2.2 (by decide)
  refine ⟨?_, ?_, hH⟩
  · rw [hJ]; decide
  · rw [hK]; decide

/-! ## C16: where the descriptor walk ends -/

theorem descContinues_eq_false_iff (mem : Mem) (desc : Nat) :
    descContinues mem desc = false ↔
      (mem.dword desc = 0 ∨ mem.dword (ptrAdd desc 12) = 0xFFFF) := by
  unfold descContinues
  rw [Bool.and_eq_false_iff]
  simp only [decide_eq_false_iff_not, ne_eq, not_not]
  constructor
  · rintro (h | h)
    · exact Or.inl h.symm
    · exact Or.inr h.symm
  · rintro (h | h)
    · exact Or.inl h.symm
    · exact Or.inr h.symm

theorem findDesc_of_end (mem : Mem) (moduleBase : Nat) (im procName : CStr) (thunkFuel : Nat) :
    ∀ (k fuel desc : Nat), k < fuel →
      (∀ j, j < k → descContinues mem (Nat.iterate (fun d => ptrAdd d 20) j desc) = true ∧
        0 ≠ stricmp (descName mem moduleBase (Nat.iterate (fun d => ptrAdd d 20) j desc)) im) →
      descContinues mem (Nat.iterate (fun d => ptrAdd d 20) k desc) = false →
      findDesc mem moduleBase im procName thunkFuel fuel desc = some 0 := by
  intro k
  induction k with
  | zero =>
    intro fuel desc hfuel _ hend
    obtain ⟨n, rfl⟩ : ∃ n, fuel = n + 1 := ⟨fuel - 1, by omega⟩
    simp only [Function.iterate_zero, id_eq] at hend
    unfold findDesc
    rw [if_neg (by simp [hend])]
  | succ k ih =>
    intro fuel desc hfuel hbefore hend
    obtain ⟨n, rfl⟩ : ∃ n, fuel = n + 1 := ⟨fuel - 1, by omega⟩
    have h0 := hbefore 0 (Nat.succ_pos k)
    simp only [Function.iterate_zero, id_eq] at h0
    unfold findDesc
    rw [if_pos h0.1, if_pos h0.2]
    apply ih n (ptrAdd desc 20) (by omega)
    · intro j hj
      have := hbefore (j + 1) (by omega)
      simpa only [Function.iterate_succ_apply] using this
    · simpa only [Function.iterate_succ_apply] using hend

theorem findDesc_of_match (mem : Mem) (moduleBase : Nat) (im procName : CStr)
    (thunkFuel : Nat) :
    ∀ (k fuel desc : Nat), k < fuel →
      (∀ j, j < k → descContinues mem (Nat.iterate (fun d => ptrAdd d 20) j desc) = true ∧
        0 ≠ stricmp (descName mem moduleBase (Nat.iterate (fun d => ptrAdd d 20) j desc)) im) →
      descContinues mem (Nat.iterate (fun d => ptrAdd d 20) k desc) = true →
      stricmp (descName mem moduleBase (Nat.iterate (fun d => ptrAdd d 20) k desc)) im = 0 →
      findDesc mem moduleBase im procName thunkFuel fuel desc =
        findThunk mem moduleBase procName thunkFuel
          (ptrAdd moduleBase
            (mem.dword (ptrAdd (Nat.iterate (fun d => ptrAdd d 20) k desc) 16)))
          (ptrAdd moduleBase (mem.dword (Nat.iterate (fun d => ptrAdd d 20) k desc))) := by
  intro k
  induction k with
  | zero =>
    intro fuel desc hfuel _ hcont hname
    obtain ⟨n, rfl⟩ : ∃ n, fuel = n + 1 := ⟨fuel - 1, by omega⟩
    simp only [Function.iterate_zero, id_eq] at hcont hname ⊢
    unfold findDesc
    rw [if_pos hcont, if_neg (by simp [hname])]
  | succ k ih =>
    intro fuel desc hfuel hbefore hcont hname
    obtain ⟨n, rfl⟩ : ∃ n, fuel = n + 1 := ⟨fuel - 1, by omega⟩
    have h0 := hbefore 0 (Nat.succ_pos k)
    simp only [Function.iterate_zero, id_eq] at h0
    unfold findDesc
    rw [if_pos h0.1, if_pos h0.2]
    simp only [Function.iterate_succ_apply] at hcont hname ⊢
    apply ih n (ptrAdd desc 20) (by omega) _ hcont hname
    intro j hj
    have := hbefore (j + 1) (by omega)
    simpa only [Function.iterate_succ_apply] using this

/-- Counterexample to C16 on `oddDescMem`. In each image the second descriptor names "b.dll"
and lists `F` (the walk started at that descriptor finds the cell), it precedes the all-zero
third descriptor, and the first descriptor is not all zero; yet `findSlot` returns NotFound,
the walk having ended at the first descriptor, whose `Characteristics` field is zero
(image at `0x10000`) or whose name field is `0xFFFF` (image at `0x20000`). -/
theorem walk_ends_before_all_zero_descriptor :
    oddDescMem.dword 0x1400C ≠ 0 ∧
      findDesc oddDescMem 0x10000 [98, 46, 100, 108, 108] [70] 4 4 0x14014 = some 0x14340 ∧
      Compat.findProcAddressInIat 4 oddDescMem 0x10000 (some [98, 46, 100, 108, 108])
        (some [70]) = some 0 ∧
      oddDescMem.dword 0x24000 ≠ 0 ∧
      findDesc oddDescMem 0x20000 [98, 46, 100, 108, 108] [70] 4 4 0x24014 = some 0x24340 ∧
      Compat.findProcAddressInIat 4 oddDescMem 0x20000 (some [98, 46, 100, 108, 108])
        (some [70]) = some 0 := by
  decide

/-- C16, amended: the import-descriptor walk ends at the first descriptor whose
`Characteristics` field is zero or whose name field is `0xFFFF` (that is what the loop test
of line 187 says). For a module with a valid header: when slot `k` of the array is such a
descriptor and no slot before it ends the walk or matches `importedModuleName`, `findSlot`
returns NotFound whatever the later slots hold; and when slot `k` does not end the walk and
is the first to match, every slot before it has been examined and the result is that of the
thunk walk of slot `k`. -/
theorem descriptor_walk_end (fuel : Nat) (mem : Mem) (module : Nat)
    (importedModuleName functionName : CStr) (k : Nat) (hmodule : module ≠ 0)
    (hheader : getImageNtHeaders mem module ≠ 0) (hk : k < fuel)
    (hbefore : ∀ j, j < k →
      descContinues mem (Nat.iterate (fun d => ptrAdd d 20) j
        (ptrAdd module (mem.dword (ptrAdd (getImageNtHeaders mem module) OFF_importDirectory))))
        = true ∧
      0 ≠ stricmp (descName mem module (Nat.iterate (fun d => ptrAdd d 20) j
        (ptrAdd module (mem.dword (ptrAdd (getImageNtHeaders mem module) OFF_importDirectory)))))
        importedModuleName) :
    (∀ d, descContinues mem d = false ↔
      (mem.dword d = 0 ∨ mem.dword (ptrAdd d 12) = 0xFFFF)) ∧
    ((mem.dword (Nat.iterate (fun d => ptrAdd d 20) k
        (ptrAdd module (mem.dword (ptrAdd (getImageNtHeaders mem module) OFF_importDirectory))))
        = 0 ∨
      mem.dword (ptrAdd (Nat.iterate (fun d => ptrAdd d 20) k
        (ptrAdd module (mem.dword (ptrAdd (getImageNtHeaders mem module) OFF_importDirectory))))
        12) = 0xFFFF) →
      Compat.findProcAddressInIat fuel mem module (some importedModuleName)
        (some functionName) = some 0) ∧
    (descContinues mem (Nat.iterate (fun d => ptrAdd d 20) k
        (ptrAdd module (mem.dword (ptrAdd (getImageNtHeaders mem module) OFF_importDirectory))))
        = true →
      stricmp (descName mem module (Nat.iterate (fun d => ptrAdd d 20) k
        (ptrAdd module (mem.dword (ptrAdd (getImageNtHeaders mem module) OFF_importDirectory)))))
        importedModuleName = 0 →
      Compat.findProcAddressInIat fuel mem module (some importedModuleName)
          (some functionName) =
        findThunk mem module functionName fuel
          (ptrAdd module (mem.dword (ptrAdd (Nat.iterate (fun d => ptrAdd d 20) k
            (ptrAdd module
              (mem.dword (ptrAdd (getImageNtHeaders mem module) OFF_importDirectory)))) 16)))
          (ptrAdd module (mem.dword (Nat.iterate (fun d => ptrAdd d 20) k
            (ptrAdd module
              (mem.dword (ptrAdd (getImageNtHeaders mem module) OFF_importDirectory))))))) := by
  have hunfold : Compat.findProcAddressInIat fuel mem module (some importedModuleName)
      (some functionName) =
      findDesc mem module importedModuleName functionName fuel fuel
        (ptrAdd module
          (mem.dword (ptrAdd (getImageNtHeaders mem module) OFF_importDirectory))) := by
    unfold Compat.findProcAddressInIat
    simp only [hmodule, hheader, if_false]
  refine ⟨descContinues_eq_false_iff mem, ?_, ?_⟩
  · intro hend
    rw [hunfold]
    exact findDesc_of_end mem module importedModuleName functionName fuel k fuel _ hk hbefore
      ((descContinues_eq_false_iff mem _).2 hend)
  · intro hcont hname
    rw [hunfold]
    exact findDesc_of_match mem module importedModuleName functionName fuel k fuel _ hk
      hbefore hcont hname

/-- Witness of C16 (amended). In `oddDescMem` slot 0 of the image at `0x10000` has a zero
`Characteristics` field, so the result is NotFound; in `demoMem` slot 0 of image `A` names
"c.dll" and slot 1 is the first to match "b.dll", so the result is that of its thunk walk,
the cell `0x14344`. -/
theorem descriptor_walk_end_witness :
    Compat.findProcAddressInIat 4 oddDescMem 0x10000 (some [98, 46, 100, 108, 108])
        (some [70]) = some 0 ∧
      Compat.findProcAddressInIat 4 demoMem 0x10000 (some [98, 46, 100, 108, 108])
        (some [70]) = some 0x14344 := by
  constructor
  · exact (descriptor_walk_end 4 oddDescMem 0x10000 [98, 46, 100, 108, 108] [70] 0 (by decide)
      (by decide) (by decide) (fun j hj => absurd hj (Nat.not_lt_zero j))).2.1
      (Or.inl (by decide))
  · have h := (descriptor_walk_end 4 demoMem 0x10000 [98, 46, 100, 108, 108] [70] 1 (by decide)
      (by decide) (by decide) (fun j hj => by
        have hj0 : j = 0 := by omega
        subst hj0
        decide)).2.2 (by decide) (by decide)
    rw [h]
    decide

/-! ## C14 and C13: a second install by name through the same variable -/

/-- A second `installByName` on the same function through the variable that the record
refers to: the variable is overwritten with the resolved address before the registry is
searched, the record is then found, and line 99 copies the variable onto itself. The
variable, and with it the stored original of the record, ends as the intercepted address. -/
theorem reinstall_same_cell (env : Env) (fuel : Nat) (s : State) (module : Nat)
    (funcName : ProcName) (c : Cell) (r1 r2 p : Nat)
    (hres : getProcAddress env s.mem fuel module funcName = some p) (hp : p ≠ 0)
    (hfresh : findOrigFunc { s with cells := Function.update s.cells c p } p = none)
    (ha : (env.detourAttach s.detours p r1).attachSuccessful = true)
    (hc : (env.detourAttach s.detours p r1).commitSuccessful = true) :
    ∃ s1 s2, Compat.hookFunctionInModule env fuel s module funcName c r1 = some s1 ∧
      s1.cells c = (env.detourAttach s.detours p r1).trampoline ∧
      Compat.hookFunctionInModule env fuel s1 module funcName c r2 = some s2 ∧
      s2.cells c = p ∧
      (p, ⟨(env.moduleFromAddress p).getD 0, c, r1⟩) ∈ s2.hookedFunctions ∧
      s2.origOf (p, ⟨(env.moduleFromAddress p).getD 0, c, r1⟩) = p := by
  have h1 := hookFunctionInModule_of_resolved c r1 hres hp
  have hcell : ({ s with cells := Function.update s.cells c p } : State).cells c = p := by
    simp
  have hstate := @hookFunction_of_fresh env { s with cells := Function.update s.cells c p }
    c r1 (by rw [hcell]; exact hfresh) (by rw [hcell]; exact ha) (by rw [hcell]; exact hc)
  rw [hcell] at hstate
  set s1 := hookFunction env { s with cells := Function.update s.cells c p } c r1 with hs1
  have hmap : s1.hookedFunctions =
      emplace p ⟨(env.moduleFromAddress p).getD 0, c, r1⟩ s.hookedFunctions := by
    rw [hstate]
  have hT : s1.cells c = (env.detourAttach s.detours p r1).trampoline := by
    rw [hstate]; simp
  have hmem : s1.mem = s.mem := by rw [hstate]
  have hkeys : ∀ i ∈ s.hookedFunctions, i.1 ≠ p := fun i hi =>
    ((@findOrigFunc_none { s with cells := Function.update s.cells c p } p hfresh i hi).1).symm
  have hnew : ((p, ⟨(env.moduleFromAddress p).getD 0, c, r1⟩) : Nat × HookedFunctionInfo) ∈
      s1.hookedFunctions := by
    rw [hmap]; exact mem_emplace_self hkeys
  have hres2 : getProcAddress env s1.mem fuel module funcName = some p := by
    rw [hmem]; exact hres
  have h2 := hookFunctionInModule_of_resolved c r2 hres2 hp
  have hcell2 : ({ s1 with cells := Function.update s1.cells c p } : State).cells c = p := by
    simp
  obtain ⟨it, hit⟩ : ∃ it, findOrigFunc { s1 with cells := Function.update s1.cells c p }
      (({ s1 with cells := Function.update s1.cells c p } : State).cells c) = some it := by
    refine @findOrigFunc_isSome { s1 with cells := Function.update s1.cells c p } _ _ hnew
      (Or.inl ?_)
    simp
  have horig : ({ s1 with cells := Function.update s1.cells c p } : State).origOf it = p := by
    obtain ⟨hmem', hmatch⟩ := findOrigFunc_some hit
    rw [hcell2] at hmatch
    rcases hmatch with hk | ho
    · have hmem'' : it ∈ emplace p ⟨(env.moduleFromAddress p).getD 0, c, r1⟩
          s.hookedFunctions := by
        rw [← hmap]; exact hmem'
      rcases mem_emplace hmem'' with heq | hold
      · rw [heq]
        simp [State.origOf]
      · exact absurd hk.symm (hkeys it hold)
    · exact ho.symm
  rw [hookFunction_of_found hit, horig] at h2
  refine ⟨s1, _, h1, hT, h2, by simp, hnew, ?_⟩
  simp [State.origOf]

/-- C14, evaluated on `demoMem`: `installByName(A, "F", v, 0x5000)` leaves the trampoline
`0x1012100` in client variable `v`; `installByName(A, "F", v, 0x6000)` through the same
variable then leaves `0x12100`, the intercepted address of `F`, in it, and that is now the
stored original of the record. -/
theorem same_cell_reinstall_loses_trampoline :
    (Compat.hookFunctionInModule demoEnv 0 (emptyState demoMem) 0x10000 (ProcName.name [70])
        (Cell.client 0) 0x5000).map (fun s1 => s1.cells (Cell.client 0)) = some 0x1012100 ∧
      ((Compat.hookFunctionInModule demoEnv 0 (emptyState demoMem) 0x10000 (ProcName.name [70])
          (Cell.client 0) 0x5000).bind
        (fun s1 => Compat.hookFunctionInModule demoEnv 0 s1 0x10000 (ProcName.name [70])
          (Cell.client 0) 0x6000)).map
        (fun s2 => (s2.cells (Cell.client 0), s2.hookedFunctions,
          s2.hookedFunctions.map s2.origOf)) =
        some (0x12100, [(0x12100, ⟨0x10000, Cell.client 0, 0x5000⟩)], [0x12100]) := by
  decide

/-- C13, evaluated on `demoMem`: from the empty registry, whose invariant holds, the first
`installByName(A, "F", v, 0x5000)` performs the only splice, with a trampoline that is not
the target and not in the registry, and the invariant holds after it; after the second
`installByName(A, "F", v, 0x6000)` through the same variable the invariant is broken, the
intercepted address `0x12100` being the stored original of its own record. -/
theorem same_cell_reinstall_breaks_invariant :
    registryInvariant (emptyState demoMem) = true ∧
      trampolineFresh demoEnv
        { emptyState demoMem with
          cells := Function.update (emptyState demoMem).cells (Cell.client 0) 0x12100 }
        0x12100 0x5000 = true ∧
      (Compat.hookFunctionInModule demoEnv 0 (emptyState demoMem) 0x10000 (ProcName.name [70])
        (Cell.client 0) 0x5000).map
        (fun s1 => (registryInvariant s1, s1.detours)) =
        some (true, [DetourOp.attach 0x12100 0x5000]) ∧
      ((Compat.hookFunctionInModule demoEnv 0 (emptyState demoMem) 0x10000 (ProcName.name [70])
          (Cell.client 0) 0x5000).bind
        (fun s1 => Compat.hookFunctionInModule demoEnv 0 s1 0x10000 (ProcName.name [70])
          (Cell.client 0) 0x6000)).map
        (fun s2 => (registryInvariant s2, s2.detours)) =
        some (false, [DetourOp.attach 0x12100 0x5000]) := by
  decide

/-! ## The registry invariant along steps that never reuse a record's variable -/

theorem emplace_perm {k : Nat} {v : HookedFunctionInfo} {l : List (Nat × HookedFunctionInfo)}
    (h : ∀ e ∈ l, e.1 ≠ k) : (emplace k v l).Perm ((k, v) :: l) := by
  induction l with
  | nil => simp [emplace]
  | cons e rest ih =>
    have he : e.1 ≠ k := h e (List.mem_cons_self _ _)
    have hrest : ∀ e ∈ rest, e.1 ≠ k := fun e' he' => h e' (List.mem_cons_of_mem _ he')
    unfold emplace
    split_ifs with h1 h2
    · exact List.Perm.refl _
    · exact absurd h2.symm he
    · exact ((ih hrest).cons e).trans (List.Perm.swap _ _ _)

theorem trampolineFresh_iff (env : Env) (s : State) (target r : Nat) :
    trampolineFresh env s target r = true ↔
      (env.detourAttach s.detours target r).trampoline ≠ target ∧
        ∀ e ∈ s.hookedFunctions,
          e.1 ≠ (env.detourAttach s.detours target r).trampoline ∧
            s.origOf e ≠ (env.detourAttach s.detours target r).trampoline := by
  simp [trampolineFresh, List.all_eq_true]

theorem registryInvariant_of_wellFormed {s : State} (h : RegistryWellFormed s) :
    registryInvariant s = true := by
  unfold registryInvariant
  simp only [Bool.and_eq_true, decide_eq_true_eq, List.all_eq_true]
  exact ⟨h.keysNodup, h.keyNeOrig⟩

theorem wellFormed_of_empty {s : State} (h : s.hookedFunctions = []) : RegistryWellFormed s where
  keysNodup := by rw [h]; simp
  keyNeOrig := by rw [h]; intro e he; cases he
  cellsNodup := by rw [h]; simp
  allocated := by unfold State.cellsAllocated; rw [h]; rfl

theorem wellFormed_of_cells_agree {s s' : State} (h : RegistryWellFormed s)
    (hmap : s'.hookedFunctions = s.hookedFunctions)
    (hsize : s.origFuncsSize ≤ s'.origFuncsSize)
    (horig : ∀ e ∈ s.hookedFunctions, s'.origOf e = s.origOf e) : RegistryWellFormed s' where
  keysNodup := by rw [hmap]; exact h.keysNodup
  keyNeOrig := by
    rw [hmap]
    intro e he e' he'
    rw [horig e' he']
    exact h.keyNeOrig e he e' he'
  cellsNodup := by rw [hmap]; exact h.cellsNodup
  allocated := by
    unfold State.cellsAllocated
    rw [hmap, List.all_eq_true]
    intro e he
    have := List.all_eq_true.1 h.allocated e he
    cases hc : e.2.origFunction with
    | client n => rfl
    | origFuncs j =>
      rw [hc] at this
      simp only [cellAllocated, decide_eq_true_eq] at this ⊢
      omega

theorem hookFunction_wellFormed (env : Env) (s : State) (c : Cell) (r : Nat)
    (h : RegistryWellFormed s) (hc : cellAllocated s.origFuncsSize c = true)
    (hfresh : findOrigFunc s (s.cells c) = none →
      (env.detourAttach s.detours (s.cells c) r).attachSuccessful = true →
      (env.detourAttach s.detours (s.cells c) r).commitSuccessful = true →
      trampolineFresh env s (s.cells c) r = true) :
    RegistryWellFormed (hookFunction env s c r) := by
  cases hfind : findOrigFunc s (s.cells c) with
  | some it =>
    rw [hookFunction_of_found hfind]
    obtain ⟨hit, hmatch⟩ := findOrigFunc_some hfind
    refine wellFormed_of_cells_agree h rfl (Nat.le_refl _) ?_
    intro e he
    by_cases hcell : e.2.origFunction = c
    · have hx : s.cells c = s.origOf e := by simp only [State.origOf, hcell]
      have horig : s.origOf it = s.origOf e := by
        rcases hmatch with hk | ho
        · exact absurd (hk.symm.trans hx) (h.keyNeOrig it hit e he)
        · rw [← ho, hx]
      show Function.update s.cells c (s.origOf it) e.2.origFunction = s.cells e.2.origFunction
      rw [hcell, Function.update_same, horig]
      simp only [State.origOf, hcell]
    · simp only [State.origOf, Function.update_noteq hcell]
  | none =>
    by_cases ha : (env.detourAttach s.detours (s.cells c) r).attachSuccessful = true
    · by_cases hcm : (env.detourAttach s.detours (s.cells c) r).commitSuccessful = true
      · obtain ⟨hT, hold⟩ := (trampolineFresh_iff env s (s.cells c) r).1 (hfresh hfind ha hcm)
        have hkeys : ∀ e ∈ s.hookedFunctions, e.1 ≠ s.cells c :=
          fun e he => ((findOrigFunc_none hfind he).1).symm
        have hcells : ∀ e ∈ s.hookedFunctions, e.2.origFunction ≠ c := by
          intro e he hcc
          apply (findOrigFunc_none hfind he).2
          simp only [State.origOf, hcc]
        have hperm := @emplace_perm (s.cells c)
          ⟨(env.moduleFromAddress (s.cells c)).getD 0, c, r⟩ s.hookedFunctions hkeys
        rw [hookFunction_of_fresh hfind ha hcm]
        refine ⟨?_, ?_, ?_, ?_⟩
        · refine ((hperm.map (fun e => e.1)).nodup_iff).2 ?_
          simp only [List.map_cons, List.nodup_cons, List.mem_map, not_exists, not_and]
          exact ⟨fun e he => hkeys e he, h.keysNodup⟩
        · intro e he e' he'
          simp only at he he'
          have horig' : ∀ e'' ∈ s.hookedFunctions,
              Function.update s.cells c (env.detourAttach s.detours (s.cells c) r).trampoline
                e''.2.origFunction = s.origOf e'' := by
            intro e'' he''
            simp only [State.origOf, Function.update_noteq (hcells e'' he'')]
          simp only [State.origOf]
          rcases mem_emplace he with heq | hin <;> rcases mem_emplace he' with heq' | hin'
          · rw [heq, heq']
            simp only [Function.update_same]
            exact Ne.symm hT
          · rw [heq, horig' e' hin']
            exact (findOrigFunc_none hfind hin').2
          · rw [heq']
            simp only [Function.update_same]
            exact (hold e hin).1
          · rw [horig' e' hin']
            exact h.keyNeOrig e hin e' hin'
        · refine ((hperm.map (fun e => e.2.origFunction)).nodup_iff).2 ?_
          simp only [List.map_cons, List.nodup_cons, List.mem_map, not_exists, not_and]
          exact ⟨fun e he => hcells e he, h.cellsNodup⟩
        · unfold State.cellsAllocated
          simp only [List.all_eq_true]
          intro e he
          rcases mem_emplace he with heq | hin
          · rw [heq]; exact hc
          · exact List.all_eq_true.1 h.allocated e hin
      · rw [hookFunction_of_failed hfind (Or.inr (by simpa using hcm))]
        exact h
    · rw [hookFunction_of_failed hfind (Or.inl (by simpa using ha))]
      exact h

theorem write_unreferenced_wellFormed {s : State} (h : RegistryWellFormed s) (c : Cell)
    (v : Nat) (hc : ∀ e ∈ s.hookedFunctions, e.2.origFunction ≠ c) :
    RegistryWellFormed { s with cells := Function.update s.cells c v } :=
  wellFormed_of_cells_agree h rfl (Nat.le_refl _)
    (fun e he => by simp only [State.origOf, Function.update_noteq (hc e he)])

theorem pushBack_wellFormed {s : State} (h : RegistryWellFormed s) (a : Nat) :
    RegistryWellFormed (pushBackOrigFuncs s a) :=
  wellFormed_of_cells_agree h rfl (Nat.le_succ _)
    (fun e he => by
      simp only [State.origOf, pushBackOrigFuncs,
        Function.update_noteq (cell_ne_of_allocated h.allocated he)])

theorem unhookFunction_wellFormed (env : Env) (s : State) (e : Nat × HookedFunctionInfo)
    (h : RegistryWellFormed s) (he : e ∈ s.hookedFunctions) :
    RegistryWellFormed (unhookFunction env s e) := by
  have hsub : (s.hookedFunctions.erase e).Sublist s.hookedFunctions := List.erase_sublist _ _
  have hnodup : s.hookedFunctions.Nodup := List.Nodup.of_map _ h.keysNodup
  have horig : ∀ e' ∈ s.hookedFunctions.erase e,
      (unhookFunction env s e).origOf e' = s.origOf e' := by
    intro e' he'
    have hne : e' ≠ e := fun heq => (List.Nodup.not_mem_erase hnodup) (heq ▸ he')
    have hcell : e'.2.origFunction ≠ e.2.origFunction := by
      intro hcc
      exact hne (List.inj_on_of_nodup_map h.cellsNodup (hsub.subset he') he hcc)
    simp only [State.origOf]
    exact unhookFunction_cells_of_ne env s e hcell
  refine ⟨?_, ?_, ?_, ?_⟩
  · rw [unhookFunction_map]
    exact (hsub.map _).nodup h.keysNodup
  · rw [unhookFunction_map]
    intro e1 he1 e2 he2
    rw [horig e2 he2]
    exact h.keyNeOrig e1 (hsub.subset he1) e2 (hsub.subset he2)
  · rw [unhookFunction_map]
    exact (hsub.map _).nodup h.cellsNodup
  · unfold State.cellsAllocated
    rw [unhookFunction_map, (unhookFunction_frame env s e).2.2, List.all_eq_true]
    intro e' he'
    exact List.all_eq_true.1 h.allocated e' (hsub.subset he')
theorem disciplinedStep_wellFormed (env : Env) (fuel : Nat) {s s' : State}
    (h : RegistryWellFormed s) (hstep : DisciplinedStep env fuel s s') :
    RegistryWellFormed s' := by
  cases hstep with
  | installByAddress n newFunc hfresh =>
    exact hookFunction_wellFormed env s (Cell.client n) newFunc h rfl hfresh
  | installByName _ hmod funcName n newFunc hcell hrun hfresh =>
    unfold Compat.hookFunctionInModule at hrun
    cases hp : getProcAddress env s.mem fuel hmod funcName with
    | none => rw [hp] at hrun; cases hrun
    | some p =>
      rw [hp] at hrun
      simp only at hrun
      split_ifs at hrun with h0
      · cases hrun; exact h
      · cases hrun
        have hcells : (Function.update s.cells (Cell.client n) p) (Cell.client n) = p :=
          Function.update_same _ _ _
        refine hookFunction_wellFormed env _ (Cell.client n) newFunc
          (write_unreferenced_wellFormed h (Cell.client n) p hcell) rfl ?_
        show findOrigFunc _ ((Function.update s.cells (Cell.client n) p) (Cell.client n)) = none →
          (env.detourAttach s.detours
            ((Function.update s.cells (Cell.client n) p) (Cell.client n))
            newFunc).attachSuccessful = true →
          (env.detourAttach s.detours
            ((Function.update s.cells (Cell.client n) p) (Cell.client n))
            newFunc).commitSuccessful = true →
          trampolineFresh env _
            ((Function.update s.cells (Cell.client n) p) (Cell.client n)) newFunc = true
        rw [hcells]
        exact hfresh p hp
  | redirectOne moduleName hookFunc newFunc hfresh =>
    unfold redirectIatHook
    cases hm : env.moduleFromAddress hookFunc with
    | none => exact h
    | some hmod =>
      simp only
      split_ifs with hne
      · have hcells : (pushBackOrigFuncs s hookFunc).cells (Cell.origFuncs s.origFuncsSize)
            = hookFunc := by
          simp only [pushBackOrigFuncs, Function.update_same]
        refine hookFunction_wellFormed env _ (Cell.origFuncs s.origFuncsSize) newFunc
          (pushBack_wellFormed h hookFunc) ?_ ?_
        · simp [cellAllocated, pushBackOrigFuncs]
        · rw [hcells]
          exact hfresh
      · exact h
  | remove x =>
    unfold Compat.unhookFunction
    cases hfind : findOrigFunc s x with
    | none => exact h
    | some it => exact unhookFunction_wellFormed env s it h (findOrigFunc_some hfind).1
  | removeFirst first rest hreg =>
    exact unhookFunction_wellFormed env s first h (by rw [hreg]; exact List.mem_cons_self _ _)

/-- With an empty registry to start from, every state reached by steps that never hand
`installByName` a variable some record refers to satisfies the registry invariant: the keys
are pairwise distinct and no key equals a stored original. -/
theorem registryInvariant_of_disciplined (env : Env) (fuel : Nat) (s0 s : State)
    (h0 : s0.hookedFunctions = [])
    (h : Relation.ReflTransGen (DisciplinedStep env fuel) s0 s) :
    registryInvariant s = true := by
  apply registryInvariant_of_wellFormed
  induction h with
  | refl => exact wellFormed_of_empty h0
  | tail _ hstep ih => exact disciplinedStep_wellFormed env fuel ih hstep

/-- The theorem `registryInvariant_of_disciplined` at a run of one step on `demoMem`:
`installByName(A, "F", v, 0x5000)` through a client variable no record refers to; the state
it reaches has one record and satisfies the invariant. -/
theorem registryInvariant_of_disciplined_example :
    ∃ s, Compat.hookFunctionInModule demoEnv 0 (emptyState demoMem) 0x10000
        (ProcName.name [70]) (Cell.client 0) 0x5000 = some s ∧
      s.hookedFunctions.length = 1 ∧ registryInvariant s = true := by
  have hp : getProcAddress demoEnv (emptyState demoMem).mem 0 0x10000 (ProcName.name [70])
      = some 0x12100 := by decide
  obtain ⟨s, hs⟩ : ∃ s, Compat.hookFunctionInModule demoEnv 0 (emptyState demoMem) 0x10000
      (ProcName.name [70]) (Cell.client 0) 0x5000 = some s :=
    Option.isSome_iff_exists.1 (by decide)
  refine ⟨s, hs, ?_, ?_⟩
  · have hlen : (Compat.hookFunctionInModule demoEnv 0 (emptyState demoMem) 0x10000
        (ProcName.name [70]) (Cell.client 0) 0x5000).map (fun t => t.hookedFunctions.length)
        = some 1 := by decide
    rw [hs] at hlen
    exact Option.some.inj hlen
  · refine registryInvariant_of_disciplined demoEnv 0 (emptyState demoMem) s rfl
      (Relation.ReflTransGen.single
        (DisciplinedStep.installByName (emptyState demoMem) s 0x10000 (ProcName.name [70]) 0
          0x5000 (fun e he => by cases he) hs ?_))
    intro p hp'
    rw [hp] at hp'
    cases hp'
    intro _ _ _
    decide

end DDrawCompat
